import Mathlib

/-!
Verification of the hypernote-mdx tokenizer/parser/renderer.

The Rust sources (src/tokenizer.rs, src/parser.rs, src/ast.rs, src/render.rs)
are embedded shallowly: the source string is a list of UTF-8 bytes, machine
`u32` indices become `Nat` (they index into the source and token buffers and
never approach `2^32` on the inputs considered; the sole place the `u32`
representation matters is the sentinel `u32::MAX`, kept explicitly), and the
tokenizer/parser loops take an explicit fuel argument: with fuel left the
functions step exactly as the Rust loops do, and exhausting fuel returns the
state unchanged, which lets divergence of the original loops be expressed as
"no amount of fuel reaches the loop's exit".
-/

namespace HypernoteMdx

/-- UTF-8 encoding of one Unicode scalar value, as byte values. -/
def utf8Enc (c : Nat) : List Nat :=
  if c < 0x80 then [c]
  else if c < 0x800 then
    [0xC0 + c / 0x40, 0x80 + c % 0x40]
  else if c < 0x10000 then
    [0xE0 + c / 0x1000, 0x80 + c / 0x40 % 0x40, 0x80 + c % 0x40]
  else
    [0xF0 + c / 0x40000, 0x80 + c / 0x1000 % 0x40, 0x80 + c / 0x40 % 0x40,
      0x80 + c % 0x40]

/-- UTF-8 bytes of a Lean string, as natural numbers, mirroring Rust's
`source.as_bytes()`. -/
def strBytes (s : String) : List Nat :=
  (s.data.map (fun ch => utf8Enc ch.toNat)).flatten

/-- The sentinel `u32::MAX` used by the source for absent optional values. -/
def u32Max : Nat := 4294967295

example : strBytes "ab" = [97, 98] := by decide

example : strBytes "#️⃣" = [35, 0xEF, 0xB8, 0x8F, 0xE2, 0x83, 0xA3] := by decide

/-! ## Token data (src/token.rs) -/

/-- Token tags, from `token.rs` `enum Tag`. -/
inductive Tag where
  | heading_start | paragraph_start | code_fence_start | code_fence_end
  | list_item_unordered | list_item_ordered
  | checkbox_unchecked | checkbox_checked
  | blockquote_start | hr | blank_line
  | pipe
  | text | strong_start | strong_end | emphasis_start | emphasis_end
  | code_inline_start | code_inline_end
  | link_start | link_end | link_url_start | link_url_end
  | image_start | hard_break
  | expr_start | expr_end
  | jsx_tag_start | jsx_tag_end | jsx_close_tag | jsx_self_close
  | jsx_fragment_start | jsx_fragment_close
  | jsx_identifier | jsx_dot | jsx_colon | jsx_equal | jsx_string
  | jsx_attr_expr_start
  | frontmatter_start | frontmatter_end | frontmatter_content
  | esm_import | esm_export
  | newline | space | indent
  | eof | invalid
  deriving DecidableEq, Repr

/-- `token.rs` `struct Loc`. -/
structure Loc where
  start : Nat
  stop : Nat
  deriving DecidableEq, Repr

/-- `token.rs` `struct Token`. -/
structure Token where
  tag : Tag
  loc : Loc
  deriving DecidableEq, Repr

/-! ## Tokenizer (src/tokenizer.rs) -/

/-- `tokenizer.rs` `enum Mode`. -/
inductive Mode where
  | markdown | jsx | expression | inlineCode | codeBlock
  deriving DecidableEq, Repr

/-- The `Tokenizer` struct's mutable state. -/
structure TokState where
  buffer : List Nat
  index : Nat
  line_start : Nat
  mode : Mode
  mode_stack : List Mode
  strong_depth : Nat
  emphasis_depth : Nat
  after_link_text : Bool
  in_link_url : Bool
  pending_token : Option Token
  deriving DecidableEq, Repr

/-- `Tokenizer::new`. -/
def TokState.new (source : List Nat) : TokState :=
  { buffer := source, index := 0, line_start := 0, mode := .markdown
    mode_stack := [], strong_depth := 0, emphasis_depth := 0
    after_link_text := false, in_link_url := false, pending_token := none }

/-- `Tokenizer::buf`: byte at an index, or 0 past the end. -/
def TokState.buf (st : TokState) (idx : Nat) : Nat :=
  st.buffer.getD idx 0

/-- `Tokenizer::make_token`: token ending at the current index. -/
def TokState.make_token (st : TokState) (tag : Tag) (start : Nat) : Token :=
  { tag := tag, loc := { start := start, stop := st.index } }

/-- `Tokenizer::push_mode`. -/
def TokState.push_mode (st : TokState) (m : Mode) : TokState :=
  { st with mode_stack := st.mode_stack ++ [st.mode], mode := m }

/-- `Tokenizer::pop_mode`: pops the last pushed mode, `Markdown` if empty. -/
def TokState.pop_mode (st : TokState) : TokState :=
  { st with mode := st.mode_stack.getLastD .markdown
            mode_stack := st.mode_stack.dropLast }

/-- `Tokenizer::peek_ahead` for a byte-sequence needle. -/
def TokState.peek_ahead (st : TokState) (needle : List Nat) : Bool :=
  decide (st.index + needle.length ≤ st.buffer.length) &&
    ((st.buffer.drop st.index).take needle.length == needle)

/-- `Tokenizer::is_keycap_emoji_start`: `[0-9*#]` then optional U+FE0F
(`EF B8 8F`) then U+20E3 (`E2 83 A3`), read at byte level. -/
def TokState.is_keycap_emoji_start (st : TokState) (idx : Nat) : Bool :=
  let base := st.buf idx
  if !((48 ≤ base && base ≤ 57) || base == 35 || base == 42) then false
  else if st.buf (idx+1) == 0xEF && st.buf (idx+2) == 0xB8 && st.buf (idx+3) == 0x8F then
    st.buf (idx+4) == 0xE2 && st.buf (idx+5) == 0x83 && st.buf (idx+6) == 0xA3
  else
    st.buf (idx+1) == 0xE2 && st.buf (idx+2) == 0x83 && st.buf (idx+3) == 0xA3

/-- `Tokenizer::advance_keycap_emoji`. -/
def TokState.advance_keycap_emoji (st : TokState) : TokState :=
  if st.buf (st.index+1) == 0xEF && st.buf (st.index+2) == 0xB8
      && st.buf (st.index+3) == 0x8F then
    { st with index := st.index + 7 }
  else
    { st with index := st.index + 4 }

/-- `Tokenizer::is_jsx_start`. -/
def TokState.is_jsx_start (st : TokState) : Bool :=
  if st.index + 1 ≥ st.buffer.length then false
  else
    let c := st.buf (st.index + 1)
    c == 47 || c == 62 || (97 ≤ c && c ≤ 122) || (65 ≤ c && c ≤ 90) || c == 95

/-- `Tokenizer::try_checkbox`: peek for `[ ]` / `[x]` / `[X]` followed by
space, newline or end of input; on a match queue the checkbox token and
advance (also past a following space). -/
def TokState.try_checkbox (st : TokState) : TokState :=
  if st.buf st.index == 91 &&
      (st.buf (st.index+1) == 32 || st.buf (st.index+1) == 120 ||
        st.buf (st.index+1) == 88) &&
      st.buf (st.index+2) == 93 then
    let after_bracket := st.index + 3
    let next_char := st.buf after_bracket
    if next_char == 32 || next_char == 10 || next_char == 0 then
      let checked := st.buf (st.index+1) != 32
      let cb_start := st.index
      let cb_end := if next_char == 32 then after_bracket + 1 else after_bracket
      { st with
          pending_token := some
            { tag := if checked then .checkbox_checked else .checkbox_unchecked
              loc := { start := cb_start, stop := cb_end } }
          index := cb_end }
    else st
  else st

/-- Fuel-indexed recursion, defined through `Nat.rec` so that kernel and
elaborator reduction step linearly (the equation-compiler encoding of the
same recursion reduces via `brecOn`, which is far too costly on the
computations below).  `fuelRec base step (n+1) x = step (fuelRec base step n) x`
and `fuelRec base step 0 x = base x`, both definitionally. -/
def fuelRec {σ ρ : Type} (base : σ → ρ) (step : (σ → ρ) → σ → ρ) (fuel : Nat) :
    σ → ρ :=
  Nat.rec base (fun _ ih => step ih) fuel

theorem fuelRec_zero {σ ρ : Type} (base : σ → ρ) (step) (x : σ) :
    fuelRec base step 0 x = base x := rfl

theorem fuelRec_succ {σ ρ : Type} (base : σ → ρ) (step) (fuel : Nat) (x : σ) :
    fuelRec base step (fuel+1) x = step (fuelRec base step fuel) x := rfl

/-- The scan loop of `Tokenizer::text`: consume a run of plain text bytes,
stopping at structural bytes exactly as the Rust `while` loop does.  The fuel
only bounds the iteration count; each iteration either stops or advances
`index`, so any fuel of at least `buffer.length` reproduces the loop. -/
def textLoop (fuel : Nat) : TokState → TokState :=
  fuelRec (fun st => st) (fun ih st =>
    if st.index < st.buffer.length then
      let ch := st.buf st.index
      -- structural bytes: NUL \n { < ` [
      if ch == 0 || ch == 10 || ch == 123 || ch == 60 || ch == 96 || ch == 91 then st
      else if ch == 42 then  -- '*'
        if st.is_keycap_emoji_start st.index then ih st.advance_keycap_emoji
        else st
      else if ch == 93 then  -- ']'
        if decide (st.index + 1 < st.buffer.length) && st.buf (st.index+1) == 40 then st
        else ih { st with index := st.index + 1 }
      else if ch == 40 then  -- '('
        if st.after_link_text then st
        else ih { st with index := st.index + 1 }
      else if ch == 41 then  -- ')'
        if st.in_link_url then st
        else ih { st with index := st.index + 1 }
      else if ch == 33 then  -- '!'
        if decide (st.index + 1 < st.buffer.length) && st.buf (st.index+1) == 91 then st
        else ih { st with index := st.index + 1 }
      else ih { st with index := st.index + 1 }
    else st) fuel

/-- The backwards trailing-space scan in `Tokenizer::text`: returns
`(spaces, end_idx)` after walking left from `end_idx` over spaces,
never crossing `start`. -/
def trailingSpaces (buffer : List Nat) (start : Nat) (endIdx : Nat) : Nat × Nat :=
  Nat.rec (motive := fun _ => Nat × Nat) (0, 0)
    (fun e ih =>
      if start < e+1 && buffer.getD e 0 == 32 then (ih.1 + 1, ih.2)
      else (0, e+1)) endIdx

/-- `Tokenizer::text`: text run plus the trailing hard-break handling. -/
def TokState.text (st : TokState) (start : Nat) : TokState × Token :=
  let st := textLoop (st.buffer.length + 1) st
  if decide (st.index < st.buffer.length) && st.buf st.index == 10 then
    if decide (start < st.index) && st.buf (st.index - 1) == 92 then
      let st := { st with index := st.index - 1 }
      if st.index == start then
        let st := { st with index := st.index + 2 }
        let st := { st with line_start := st.index }
        (st, st.make_token .hard_break start)
      else (st, st.make_token .text start)
    else
      let (spaces, end_idx) := trailingSpaces st.buffer start st.index
      if spaces ≥ 2 then
        if end_idx == start then
          let st := { st with index := st.index + 1 }
          let st := { st with line_start := st.index }
          (st, st.make_token .hard_break start)
        else
          let st := { st with index := end_idx }
          (st, st.make_token .text start)
      else (st, st.make_token .text start)
  else (st, st.make_token .text start)

/-- `Tokenizer::maybe_strong_or_emphasis`. -/
def TokState.maybe_strong_or_emphasis (st : TokState) (start : Nat) :
    TokState × Token :=
  if st.buf st.index == 42 then
    let st := { st with index := st.index + 1 }
    if st.strong_depth > 0 then
      let st := { st with strong_depth := st.strong_depth - 1 }
      (st, st.make_token .strong_end start)
    else
      let st := { st with strong_depth := st.strong_depth + 1 }
      (st, st.make_token .strong_start start)
  else if st.emphasis_depth > 0 then
    let st := { st with emphasis_depth := st.emphasis_depth - 1 }
    (st, st.make_token .emphasis_end start)
  else
    let st := { st with emphasis_depth := st.emphasis_depth + 1 }
    (st, st.make_token .emphasis_start start)

/-- The run loops of the start-of-line dispatcher (`#` runs, indent runs,
digit runs) and of `hr_or_frontmatter`: advance while the predicate holds on
the in-range byte. -/
def runWhile (buffer : List Nat) (p : Nat → Bool) (fuel : Nat) : Nat → Nat :=
  fuelRec (fun idx => idx) (fun ih idx =>
    if idx < buffer.length && p (buffer.getD idx 0) then ih (idx+1)
    else idx) fuel

/-- `Tokenizer::hr_or_frontmatter` (called with `index` already past the
first byte).  Its counting loop tests `buf(index) == first_char`, which is
false past the end of the buffer because `buf` yields 0 there and
`first_char` is one of `-`, `*`, `_`. -/
def TokState.hr_or_frontmatter (st : TokState) (start : Nat)
    (first_char : Nat) : TokState × Token :=
  let idx' := runWhile st.buffer (fun b => b == first_char && first_char != 0)
    (st.buffer.length + 1) st.index
  let count := 1 + (idx' - st.index)
  let st := { st with index := idx' }
  if first_char == 45 && count ≥ 3 && start == 0 &&
      (st.buf st.index == 10 || st.buf st.index == 0) then
    (st, st.make_token .frontmatter_start start)
  else if count ≥ 3 && (st.buf st.index == 10 || st.buf st.index == 0) then
    (st, st.make_token .hr start)
  else if (first_char == 45 || first_char == 42) && st.buf st.index == 32 then
    let st := { st with index := st.index + 1 }
    let st := st.try_checkbox
    (st, st.make_token .list_item_unordered start)
  else if first_char == 42 then
    let st := { st with index := start + 1 }
    st.maybe_strong_or_emphasis start
  else
    st.text start

/-- `Tokenizer::next_jsx_identifier`. -/
def TokState.next_jsx_identifier (st : TokState) : TokState × Token :=
  let start := st.index
  let st := { st with
    index := runWhile st.buffer
      (fun c => (97 ≤ c && c ≤ 122) || (65 ≤ c && c ≤ 90) ||
        (48 ≤ c && c ≤ 57) || c == 95 || c == 45)
      (st.buffer.length + 1) st.index }
  (st, st.make_token .jsx_identifier start)

/-- `Tokenizer::next_jsx_bare_value`. -/
def TokState.next_jsx_bare_value (st : TokState) : TokState × Token :=
  let start := st.index
  let st := { st with
    index := runWhile st.buffer
      (fun c => !(c == 32 || c == 9 || c == 10 || c == 47 || c == 62 ||
        c == 61 || c == 0))
      (st.buffer.length + 1) st.index }
  (st, st.make_token .text start)

/-- `Tokenizer::next_jsx_string`'s scan loop: returns whether a closing quote
was found, together with the final index (just past the quote when found,
else the first out-of-range position the loop stopped at). -/
def jsxStringEnd (buffer : List Nat) (quote : Nat) (fuel : Nat) :
    Nat → Bool × Nat :=
  fuelRec (fun idx => (false, idx)) (fun ih idx =>
    if idx < buffer.length then
      let c := buffer.getD idx 0
      if c == quote then (true, idx + 1)
      else if c == 92 then ih (idx+2)
      else ih (idx+1)
    else (false, idx)) fuel

/-- `Tokenizer::next_jsx_string`. -/
def TokState.next_jsx_string (st : TokState) (quote : Nat) : TokState × Token :=
  let start := st.index
  let res := jsxStringEnd st.buffer quote (st.buffer.length + 2) (st.index + 1)
  let st := { st with index := res.2 }
  if res.1 then (st, st.make_token .jsx_string start)
  else (st, st.make_token .invalid start)

/-- `Tokenizer::next_expression`. -/
def TokState.next_expression (st : TokState) : TokState × Token :=
  let start := st.index
  if st.index ≥ st.buffer.length then (st, st.make_token .eof start)
  else
    let c := st.buf st.index
    if c == 0 then (st, st.make_token .eof start)
    else if c == 125 then  -- '}'
      let st := { st with index := st.index + 1 }
      let st := st.pop_mode
      (st, st.make_token .expr_end start)
    else if c == 123 then  -- '{'
      let st := { st with index := st.index + 1 }
      let st := st.push_mode .expression
      (st, st.make_token .expr_start start)
    else
      let st := { st with
        index := runWhile st.buffer (fun b => !(b == 123 || b == 125 || b == 0))
          (st.buffer.length + 1) st.index }
      (st, st.make_token .text start)

/-- `Tokenizer::next_inline_code`. -/
def TokState.next_inline_code (st : TokState) : TokState × Token :=
  let start := st.index
  if st.index ≥ st.buffer.length then (st, st.make_token .eof start)
  else
    let c := st.buf st.index
    if c == 0 then (st, st.make_token .eof start)
    else if c == 96 then  -- '`'
      let st := { st with index := st.index + 1 }
      let st := st.pop_mode
      (st, st.make_token .code_inline_end start)
    else
      let st := { st with
        index := runWhile st.buffer (fun b => !(b == 96 || b == 0))
          (st.buffer.length + 1) st.index }
      (st, st.make_token .text start)

/-- Text-run loop of `Tokenizer::next_code_block`: stop at a newline, NUL, or
a closing fence ```` ``` ```` at start of line. -/
def codeBlockTextEnd (buffer : List Nat) (lineStart : Nat) (fuel : Nat) :
    Nat → Nat :=
  fuelRec (fun idx => idx) (fun ih idx =>
    if idx < buffer.length then
      let c := buffer.getD idx 0
      if c == 10 || c == 0 then idx
      else if idx == lineStart && c == 96 &&
          decide (idx + 3 ≤ buffer.length) &&
          ((buffer.drop idx).take 3 == [96, 96, 96]) then idx
      else ih (idx+1)
    else idx) fuel

/-- `Tokenizer::next_code_block`. -/
def TokState.next_code_block (st : TokState) : TokState × Token :=
  let start := st.index
  if st.index ≥ st.buffer.length then (st, st.make_token .eof start)
  else
    let c := st.buf st.index
    if st.index == st.line_start && c == 96 && st.peek_ahead [96, 96, 96] then
      let st := { st with index := st.index + 3 }
      let st := st.pop_mode
      (st, st.make_token .code_fence_end start)
    else if c == 0 then (st, st.make_token .eof start)
    else if c == 10 then
      let st := { st with index := st.index + 1 }
      let st := { st with line_start := st.index }
      (st, st.make_token .newline start)
    else
      let st := { st with
        index := codeBlockTextEnd st.buffer st.line_start (st.buffer.length + 1)
          st.index }
      (st, st.make_token .text start)

/-- The five mutually recursive dispatch functions of the tokenizer
(`next`, `next_markdown`, `next_markdown_sol`, `next_markdown_inline`,
`next_jsx`), packaged per fuel level. -/
structure NextPack where
  next : TokState → TokState × Token
  next_markdown : TokState → TokState × Token
  next_markdown_sol : TokState → Nat → TokState × Token
  next_markdown_inline : TokState → Nat → TokState × Token
  next_jsx : TokState → TokState × Token

/-- Fuel-exhaustion fallback: an `Eof` token (unreachable for the fuels used
by `tokenize`, since the dispatch chain per token is bounded). -/
def nextPackZero : NextPack :=
  { next := fun st => (st, st.make_token .eof st.index)
    next_markdown := fun st => (st, st.make_token .eof st.index)
    next_markdown_sol := fun st _ => (st, st.make_token .eof st.index)
    next_markdown_inline := fun st _ => (st, st.make_token .eof st.index)
    next_jsx := fun st => (st, st.make_token .eof st.index) }

/-- One unfolding of the five tokenizer dispatch functions, with `ih` giving
the functions one fuel level down. -/
def nextPackStep (ih : NextPack) : NextPack where
  /- `Tokenizer::next`. -/
  next := fun st =>
    match st.pending_token with
    | some tok => ({ st with pending_token := none }, tok)
    | none =>
      match st.mode with
      | .markdown => ih.next_markdown st
      | .jsx => ih.next_jsx st
      | .expression => st.next_expression
      | .inlineCode => st.next_inline_code
      | .codeBlock => st.next_code_block
  /- `Tokenizer::next_markdown`. -/
  next_markdown := fun st =>
    let start := st.index
    if st.index ≥ st.buffer.length then (st, st.make_token .eof start)
    else if st.index == st.line_start then ih.next_markdown_sol st start
    else ih.next_markdown_inline st start
  /- `Tokenizer::next_markdown_sol`. -/
  next_markdown_sol := fun st start =>
    let c := st.buf st.index
    if c == 0 then (st, st.make_token .eof start)
    else if c == 10 then
      let st := { st with index := st.index + 1 }
      let st := { st with line_start := st.index }
      (st, st.make_token .blank_line start)
    else if c == 35 then  -- '#'
      if st.is_keycap_emoji_start start then ih.next_markdown_inline st start
      else
        let st := { st with index := st.index + 1 }
        let st := { st with
          index := runWhile st.buffer (fun b => b == 35) (st.buffer.length + 1)
            st.index }
        let st := if st.buf st.index == 32 then { st with index := st.index + 1 } else st
        (st, st.make_token .heading_start start)
    else if c == 45 || c == 42 || c == 95 then  -- '-' '*' '_'
      if c == 42 && st.is_keycap_emoji_start start then
        ih.next_markdown_inline st start
      else
        let st := { st with index := st.index + 1 }
        st.hr_or_frontmatter start c
    else if c == 96 then  -- '`'
      if st.peek_ahead [96, 96, 96] then
        let st := { st with index := st.index + 3 }
        let st := st.push_mode .codeBlock
        (st, st.make_token .code_fence_start start)
      else ih.next_markdown_inline st start
    else if c == 62 then  -- '>'
      let st := { st with index := st.index + 1 }
      let st := if st.buf st.index == 32 then { st with index := st.index + 1 } else st
      (st, st.make_token .blockquote_start start)
    else if c == 32 || c == 9 then
      let indent_start := st.index
      let st := { st with
        index := runWhile st.buffer (fun b => b == 32 || b == 9)
          (st.buffer.length + 1) st.index }
      (st, st.make_token .indent indent_start)
    else if 48 ≤ c && c ≤ 57 then
      if st.is_keycap_emoji_start start then ih.next_markdown_inline st start
      else
        let temp_index := runWhile st.buffer (fun b => 48 ≤ b && b ≤ 57)
          (st.buffer.length + 1) st.index
        if decide (temp_index < st.buffer.length) &&
            st.buf temp_index == 46 &&
            decide (temp_index + 1 < st.buffer.length) &&
            st.buf (temp_index + 1) == 32 then
          let st := { st with index := temp_index + 2 }
          let st := st.try_checkbox
          (st, st.make_token .list_item_ordered start)
        else ih.next_markdown_inline st start
    else ih.next_markdown_inline st start
  /- `Tokenizer::next_markdown_inline`. -/
  next_markdown_inline := fun st start =>
    let c := st.buf st.index
    if c == 0 then (st, st.make_token .eof start)
    else if c == 10 then
      let st := { st with index := st.index + 1 }
      let st := { st with line_start := st.index }
      (st, st.make_token .newline start)
    else if c == 92 then  -- '\'
      if decide (st.index + 1 < st.buffer.length) && st.buf (st.index + 1) == 10 then
        let st := { st with index := st.index + 2 }
        let st := { st with line_start := st.index }
        (st, st.make_token .hard_break start)
      else st.text start
    else if c == 32 then
      let temp_idx := runWhile st.buffer (fun b => b == 32)
        (st.buffer.length + 1) st.index
      let space_count := temp_idx - st.index
      if space_count ≥ 2 && decide (temp_idx < st.buffer.length) &&
          st.buf temp_idx == 10 then
        let st := { st with index := temp_idx + 1 }
        let st := { st with line_start := st.index }
        (st, st.make_token .hard_break start)
      else st.text start
    else if c == 123 then  -- '{'
      let st := { st with index := st.index + 1 }
      let st := st.push_mode .expression
      (st, st.make_token .expr_start start)
    else if c == 60 then  -- '<'
      if st.is_jsx_start then
        let st := st.push_mode .jsx
        ih.next_jsx st
      else st.text start
    else if c == 42 then  -- '*'
      if st.is_keycap_emoji_start start then st.text start
      else
        let st := { st with index := st.index + 1 }
        st.maybe_strong_or_emphasis start
    else if c == 96 then  -- '`'
      let st := { st with index := st.index + 1 }
      let st := st.push_mode .inlineCode
      (st, st.make_token .code_inline_start start)
    else if c == 91 then  -- '['
      let st := { st with index := st.index + 1 }
      let st := { st with after_link_text := false }
      (st, st.make_token .link_start start)
    else if c == 93 then  -- ']'
      let st := { st with index := st.index + 1 }
      if st.buf st.index == 40 then
        let st := { st with after_link_text := true }
        (st, st.make_token .link_end start)
      else
        let st := { st with after_link_text := false }
        st.text start
    else if c == 40 then  -- '('
      if st.after_link_text then
        let st := { st with index := st.index + 1 }
        let st := { st with after_link_text := false, in_link_url := true }
        (st, st.make_token .link_url_start start)
      else st.text start
    else if c == 41 then  -- ')'
      if st.in_link_url then
        let st := { st with index := st.index + 1 }
        let st := { st with in_link_url := false }
        (st, st.make_token .link_url_end start)
      else st.text start
    else if c == 33 then  -- '!'
      if decide (st.index + 1 < st.buffer.length) && st.buf (st.index + 1) == 91 then
        let st := { st with index := st.index + 2 }
        (st, st.make_token .image_start start)
      else
        let st := { st with index := st.index + 1 }
        st.text start
    else st.text start
  /- `Tokenizer::next_jsx`. -/
  next_jsx := fun st =>
    let start := st.index
    if st.index ≥ st.buffer.length then (st, st.make_token .eof start)
    else
      let c := st.buf st.index
      if c == 0 then (st, st.make_token .eof start)
      else if c == 60 then  -- '<'
        let st := { st with index := st.index + 1 }
        if st.buf st.index == 47 then
          let st := { st with index := st.index + 1 }
          (st, st.make_token .jsx_close_tag start)
        else if st.buf st.index == 62 then
          let st := { st with index := st.index + 1 }
          (st, st.make_token .jsx_fragment_start start)
        else (st, st.make_token .jsx_tag_start start)
      else if c == 62 then  -- '>'
        let st := { st with index := st.index + 1 }
        let st := st.pop_mode
        (st, st.make_token .jsx_tag_end start)
      else if c == 47 then  -- '/'
        if st.buf (st.index + 1) == 62 then
          let st := { st with index := st.index + 2 }
          let st := st.pop_mode
          (st, st.make_token .jsx_self_close start)
        else
          let st := { st with index := st.index + 1 }
          (st, st.make_token .invalid start)
      else if c == 123 then  -- '{'
        let st := { st with index := st.index + 1 }
        let st := st.push_mode .expression
        (st, st.make_token .jsx_attr_expr_start start)
      else if c == 61 then  -- '='
        let st := { st with index := st.index + 1 }
        (st, st.make_token .jsx_equal start)
      else if c == 34 || c == 39 then  -- '"' or '\''
        st.next_jsx_string c
      else if c == 46 then  -- '.'
        let st := { st with index := st.index + 1 }
        (st, st.make_token .jsx_dot start)
      else if c == 58 then  -- ':'
        let st := { st with index := st.index + 1 }
        (st, st.make_token .jsx_colon start)
      else if c == 32 || c == 9 || c == 10 then
        let st := { st with
          index := runWhile st.buffer (fun b => b == 32 || b == 9 || b == 10)
            (st.buffer.length + 1) st.index }
        ih.next st
      else if (48 ≤ c && c ≤ 57) || c == 45 then
        st.next_jsx_bare_value
      else if (97 ≤ c && c ≤ 122) || (65 ≤ c && c ≤ 90) || c == 95 then
        st.next_jsx_identifier
      else
        let st := { st with index := st.index + 1 }
        (st, st.make_token .invalid start)

/-- The tokenizer dispatch functions at a given fuel level. -/
def nextPack (fuel : Nat) : NextPack :=
  Nat.rec nextPackZero (fun _ ih => nextPackStep ih) fuel

/-- `Tokenizer::next`, at a fuel level. -/
def TokState.next (st : TokState) (fuel : Nat) : TokState × Token :=
  (nextPack fuel).next st

/-- Fuel handed to `TokState.next` for one token: ample for the bounded
dispatch chain (`next → next_markdown → sol → inline → next_jsx → next`). -/
def tokFuel (st : TokState) : Nat := st.buffer.length + 8

/-- The tokenization loop of `parse_with_options` (phase 1): repeatedly pull
tokens until `Eof`, which is pushed as the final token.  `none` means the
fuel ran out before `Eof` was produced — the Rust loop would still be
running after that many iterations. -/
def tokenizeLoop (fuel : Nat) : TokState × List Token → Option (List Token) :=
  fuelRec (fun _ => none) (fun ih p =>
    let (st', tok) := p.1.next (tokFuel p.1)
    if tok.tag == .eof then some (p.2 ++ [tok])
    else ih (st', p.2 ++ [tok])) fuel

/-- Tokenize a source from scratch. -/
def tokenize (source : List Nat) (fuel : Nat) : Option (List Token) :=
  tokenizeLoop fuel (TokState.new source, [])

-- Sanity replays of the tokenizer unit tests in tokenizer.rs.
example :
    (tokenize (strBytes "# Hello World\n") 20).map (fun ts => ts.map Token.tag) =
      some [.heading_start, .text, .newline, .eof] := by decide

example :
    (tokenize (strBytes "<Component />") 20).map (fun ts => ts.map Token.tag) =
      some [.jsx_tag_start, .jsx_identifier, .jsx_self_close, .eof] := by decide

example :
    (tokenize (strBytes "{state.count}") 20).map (fun ts => ts.map Token.tag) =
      some [.expr_start, .text, .expr_end, .eof] := by decide

example :
    (tokenize (strBytes "---\ntitle: Hello\n---\n") 20).map
        (fun ts => (ts.headD ⟨.eof, 0, 0⟩).tag) =
      some .frontmatter_start := by decide

example :
    (tokenize (strBytes "#️⃣ h\n*️⃣ s\n") 20).map (fun ts => ts.map Token.tag) =
      some [.text, .newline, .text, .newline, .eof] := by decide

/-! ## AST data model (src/ast.rs) -/

/-- `ast.rs` `enum NodeTag`.  The `table`, `table_row` and `table_cell`
variants are modelled from the spec (§3 block tags) and from their uses in
`parser.rs`/`render.rs`; the snapshot's `ast.rs` enum text lacks them.  In
`Ast::children` they have no arm of their own, so they take the `_ => &[]`
fallback. -/
inductive NodeTag where
  | document
  | heading | paragraph | code_block | blockquote
  | list_unordered | list_ordered | list_item | hr
  | table | table_row | table_cell
  | text | strong | emphasis | code_inline | link | image | hard_break
  | mdx_text_expression | mdx_flow_expression
  | mdx_jsx_element | mdx_jsx_self_closing | mdx_jsx_fragment
  | mdx_jsx_attribute
  | mdx_esm_import | mdx_esm_export
  | frontmatter
  deriving DecidableEq, Repr

/-- `ast.rs` `struct Range` (an `end`-exclusive window into `extra_data`;
the `end` field is called `stop` since `end` is reserved in Lean). -/
structure NRange where
  start : Nat
  stop : Nat
  deriving DecidableEq, Repr

/-- `ast.rs` `enum NodeData`. -/
inductive NodeData where
  | none
  | token (idx : Nat)
  | children (range : NRange)
  | extra (offset : Nat)
  deriving DecidableEq, Repr

/-- `ast.rs` `struct Node`. -/
structure Node where
  tag : NodeTag
  main_token : Nat
  data : NodeData
  deriving DecidableEq, Repr

/-- `ast.rs` `enum ErrorTag`. -/
inductive ErrorTag where
  | expected_token | expected_block_element | expected_closing_tag
  | unclosed_expression | unclosed_frontmatter | invalid_jsx_attribute
  | blank_line_required | mismatched_tags | unexpected_token
  deriving DecidableEq, Repr

/-- The parse-error record.  `parser.rs` (`warn_at`), `main.rs` and
`tree_builder.rs` construct and read it as `(tag, token, byte_offset)`;
the spec (§3) gives the same triple.  The `byte_offset` field is modelled
from the spec, the `Error` declaration in the snapshot's `ast.rs` having
fallen behind its constructor in `parser.rs`. -/
structure PError where
  tag : ErrorTag
  token : Nat
  byte_offset : Nat
  deriving DecidableEq, Repr

/-- `ast.rs` `enum FrontmatterFormat`. -/
inductive FrontmatterFormat where
  | yaml | json
  deriving DecidableEq, Repr

/-- The four-valued JSX attribute type used by `parser.rs`
(`JsxAttributeType::{String, Number, Boolean, Expression}`) and by the
renderer; its raw encoding is `jsx_attr_type_to_raw` below. -/
inductive JsxAttributeType where
  | string | number | boolean | expression
  deriving DecidableEq, Repr

/-- The two-valued attribute type that the snapshot's `ast.rs` declares and
its `jsx_attributes` accessor produces (`0 → Literal`, anything else →
`Expression`). -/
inductive JsxAttributeTypeAst where
  | literal | expression
  deriving DecidableEq, Repr

/-- `ast.rs` `struct JsxAttribute` as read back by `Ast::jsx_attributes`. -/
structure JsxAttribute where
  name_token : Nat
  value_token : Option Nat
  value_type : JsxAttributeTypeAst
  deriving DecidableEq, Repr

/-- `ast.rs` `struct Ast`: the value `parse` returns. -/
structure Ast where
  source : List Nat
  token_tags : List Tag
  token_starts : List Nat
  nodes : List Node
  extra_data : List Nat
  errors : List PError
  deriving DecidableEq, Repr

/-- Table cell alignment.  Modelled from the spec: §3 gives the `Table`
record's alignment encoding `{0 = none, 1 = left, 2 = center, 3 = right}`;
`parser.rs` casts the variants with `*align as u32` and `render.rs` matches
on them, but the snapshot's `ast.rs` lacks the declaration. -/
inductive TableAlignment where
  | none | left | center | right
  deriving DecidableEq, Repr

/-- The `as u32` cast of `TableAlignment` (discriminants in declaration
order, per the spec encoding). -/
def TableAlignment.toRaw : TableAlignment → Nat
  | .none => 0
  | .left => 1
  | .center => 2
  | .right => 3

/-! ## Parser (src/parser.rs) -/

/-- `parser.rs` `MAX_PARSE_ERRORS`. -/
def MAX_PARSE_ERRORS : Nat := 4096

/-- The `Parser` struct's mutable state. -/
structure PState where
  source : List Nat
  token_tags : List Tag
  token_starts : List Nat
  token_index : Nat
  nodes : List Node
  extra_data : List Nat
  scratch : List Nat
  errors : List PError
  deriving DecidableEq, Repr

/-- Trim for the byte slices the parser compares (`str::trim`): strips ASCII
whitespace (the only whitespace the token slices contain) from both ends. -/
def asciiTrim (bs : List Nat) : List Nat :=
  let ws := fun b => b == 32 || b == 9 || b == 10 || b == 13 || b == 11 || b == 12
  (bs.dropWhile ws).reverse.dropWhile ws |>.reverse

/-- `Parser::token_slice` (also `Ast::token_slice`): the bytes from a token's
start to the next token's start, or to the end of the source for the last. -/
def tokenSliceOf (source : List Nat) (token_starts : List Nat)
    (token_index : Nat) : List Nat :=
  let start := token_starts.getD token_index 0
  let stop :=
    if token_index + 1 < token_starts.length then token_starts.getD (token_index + 1) 0
    else source.length
  (source.drop start).take (stop - start)

/-- `Parser::token_slice` on the parser state. -/
def PState.token_slice (st : PState) (token_index : Nat) : List Nat :=
  tokenSliceOf st.source st.token_starts token_index

/-- `Parser::current_tag`.  The Rust indexing would panic past the final
`Eof` token; the parser never moves `token_index` there, and out-of-range
reads answer `Eof` here (as `peek_token` does explicitly). -/
def PState.current_tag (st : PState) : Tag :=
  st.token_tags.getD st.token_index .eof

/-- `Parser::peek_token`. -/
def PState.peek_token (st : PState) (offset : Nat) : Tag :=
  st.token_tags.getD (st.token_index + offset) .eof

/-- `Parser::eat_token`. -/
def PState.eat_token (st : PState) (tag : Tag) : PState × Option Nat :=
  if st.current_tag == tag then
    ({ st with token_index := st.token_index + 1 }, some st.token_index)
  else (st, none)

/-- `Parser::next_token`. -/
def PState.next_token (st : PState) : PState × Nat :=
  ({ st with token_index := st.token_index + 1 }, st.token_index)

/-- `Parser::byte_offset_for_token`. -/
def PState.byte_offset_for_token (st : PState) (token : Nat) : Nat :=
  if token < st.token_starts.length then st.token_starts.getD token 0
  else st.source.length

/-- `Parser::warn_at`: record an error unless the 4096-entry cap has been
reached, in which case the state is returned untouched. -/
def PState.warn_at (st : PState) (tag : ErrorTag) (token : Nat) : PState :=
  if st.errors.length ≥ MAX_PARSE_ERRORS then st
  else
    { st with errors := st.errors ++
        [{ tag := tag, token := token, byte_offset := st.byte_offset_for_token token }] }

/-- `Parser::warn`. -/
def PState.warn (st : PState) (tag : ErrorTag) : PState :=
  st.warn_at tag st.token_index

/-- `Parser::expect_token`. -/
def PState.expect_token (st : PState) (tag : Tag) : PState × Option Nat :=
  match st.eat_token tag with
  | (st, some idx) => (st, some idx)
  | (st, none) => (st.warn .expected_token, none)

/-- `Parser::add_node`. -/
def PState.add_node (st : PState) (node : Node) : PState × Nat :=
  ({ st with nodes := st.nodes ++ [node] }, st.nodes.length)

/-- `Parser::reserve_node`. -/
def PState.reserve_node (st : PState) (tag : NodeTag) : PState × Nat :=
  st.add_node { tag := tag, main_token := 0, data := .none }

/-- `Parser::set_node`. -/
def PState.set_node (st : PState) (index : Nat) (node : Node) : PState × Nat :=
  ({ st with nodes := st.nodes.set index node }, index)

/-- `Parser::add_extra_heading` (`[level, children_start, children_end]`). -/
def PState.add_extra_heading (st : PState) (level cs ce : Nat) : PState × Nat :=
  ({ st with extra_data := st.extra_data ++ [level, cs, ce] },
    st.extra_data.length)

/-- `Parser::add_extra_list_item`
(`[checked_state ∈ {0 = none, 1 = unchecked, 2 = checked}, cs, ce]`). -/
def PState.add_extra_list_item (st : PState) (checked : Option Bool)
    (cs ce : Nat) : PState × Nat :=
  let raw := match checked with
    | Option.none => 0
    | some false => 1
    | some true => 2
  ({ st with extra_data := st.extra_data ++ [raw, cs, ce] },
    st.extra_data.length)

/-- `Parser::add_extra_jsx_element`
(`[name_token, attrs_start, attrs_end, children_start, children_end]`). -/
def PState.add_extra_jsx_element (st : PState)
    (name_token as ae cs ce : Nat) : PState × Nat :=
  ({ st with extra_data := st.extra_data ++ [name_token, as, ae, cs, ce] },
    st.extra_data.length)

/-- `Parser::add_extra_link` (`[text_node_or_MAX, url_token]`). -/
def PState.add_extra_link (st : PState) (text_node : Option Nat)
    (url_token : Nat) : PState × Nat :=
  ({ st with extra_data := st.extra_data ++ [text_node.getD u32Max, url_token] },
    st.extra_data.length)

/-- `Parser::add_extra_range` (`[start, end]`). -/
def PState.add_extra_range (st : PState) (start stop : Nat) : PState × Nat :=
  ({ st with extra_data := st.extra_data ++ [start, stop] },
    st.extra_data.length)

/-- `Parser::add_extra_frontmatter` (`[format, content_start, content_end]`). -/
def PState.add_extra_frontmatter (st : PState) (format : FrontmatterFormat)
    (cs ce : Nat) : PState × Nat :=
  let raw := match format with | .yaml => 0 | .json => 1
  ({ st with extra_data := st.extra_data ++ [raw, cs, ce] },
    st.extra_data.length)

/-- `Parser::list_to_span`: append the collected child indices to
`extra_data` and return their window. -/
def PState.list_to_span (st : PState) (items : List Nat) : PState × NRange :=
  ({ st with extra_data := st.extra_data ++ items },
    { start := st.extra_data.length, stop := st.extra_data.length + items.length })

/-- `Parser::jsx_attr_type_to_raw`. -/
def jsx_attr_type_to_raw : JsxAttributeType → Nat
  | .string => 0
  | .number => 1
  | .boolean => 2
  | .expression => 3

/-- Whether `value.parse::<f64>()` succeeds: Rust's `FromStr` grammar for
floats — an optional sign, then either a case-insensitive `inf`, `infinity`
or `nan`, or a decimal mantissa with at least one digit and an optional
exponent. -/
def rustF64ParseOk (bs : List Nat) : Bool :=
  let isDigit := fun b => 48 ≤ b && b ≤ 57
  let lower := bs.map (fun b => if 65 ≤ b && b ≤ 90 then b + 32 else b)
  let afterSign :=
    match lower with
    | b :: rest => if b == 43 || b == 45 then rest else lower
    | [] => lower
  if afterSign == [105, 110, 102] || -- "inf"
      afterSign == [105, 110, 102, 105, 110, 105, 116, 121] || -- "infinity"
      afterSign == [110, 97, 110] then -- "nan"
    true
  else
    let intPart := afterSign.takeWhile isDigit
    let rest := afterSign.dropWhile isDigit
    let (fracPart, rest) :=
      match rest with
      | 46 :: r => (r.takeWhile isDigit, r.dropWhile isDigit)  -- '.'
      | _ => ([], rest)
    if intPart.length + fracPart.length == 0 then false
    else
      match rest with
      | [] => true
      | e :: r =>
        if e == 101 then  -- 'e' (already lowercased)
          let r := match r with
            | b :: r2 => if b == 43 || b == 45 then r2 else r
            | [] => r
          decide (r.length > 0) && r.all isDigit
        else false

/-- `Parser::infer_unquoted_jsx_value_type`. -/
def infer_unquoted_jsx_value_type (value : List Nat) : JsxAttributeType :=
  if value == strBytes "true" || value == strBytes "false" then .boolean
  else if rustF64ParseOk value then .number
  else .string

/-- `Parser::is_json_frontmatter`. -/
def PState.is_json_frontmatter (st : PState) : Bool :=
  if st.peek_token 0 != .code_fence_start then false
  else if st.peek_token 1 != .text then false
  else asciiTrim (st.token_slice (st.token_index + 1)) == strBytes "hnmd"

/-- The token-skipping loops of the parser
(`while current_tag() is … { token_index += 1 }`).  All uses have
`p .eof = false`, so fuel `token_tags.length + 1` reproduces the loop. -/
def skipTokensWhile (p : Tag → Bool) (fuel : Nat) : PState → PState :=
  fuelRec (fun st => st) (fun ih st =>
    if p st.current_tag then ih { st with token_index := st.token_index + 1 }
    else st) fuel

/-- The brace-depth scan shared by `parse_text_expression` and the
expression arm of `parse_jsx_attribute_value`; carries the current depth. -/
def exprScan (fuel : Nat) : PState × Nat → PState × Nat :=
  fuelRec (fun p => p) (fun ih p =>
    let (st, depth) := p
    if depth > 0 && st.current_tag != .eof then
      let depth' :=
        match st.current_tag with
        | .expr_start => depth + 1
        | .expr_end => depth - 1
        | _ => depth
      if depth' > 0 then ih ({ st with token_index := st.token_index + 1 }, depth')
      else (st, depth')
    else (st, depth)) fuel

/-- `Parser::parse_text`. -/
def PState.parse_text (st : PState) : PState × Option Nat :=
  let (st, text_token) := st.next_token
  let (st, idx) := st.add_node
    { tag := .text, main_token := text_token, data := .none }
  (st, some idx)

/-- `Parser::parse_hard_break`. -/
def PState.parse_hard_break (st : PState) : PState × Option Nat :=
  let (st, break_token) := st.next_token
  let (st, idx) := st.add_node
    { tag := .hard_break, main_token := break_token, data := .none }
  (st, some idx)

/-- `Parser::parse_code_inline`. -/
def PState.parse_code_inline (st : PState) : PState × Option Nat :=
  let (st, start_token) := st.next_token
  match st.expect_token .text with
  | (st, Option.none) => (st, none)
  | (st, some _) =>
    match st.expect_token .code_inline_end with
    | (st, Option.none) => (st, none)
    | (st, some _) =>
      let (st, idx) := st.add_node
        { tag := .code_inline, main_token := start_token
          data := .token (start_token + 1) }
      (st, some idx)

/-- `Parser::parse_link`. -/
def PState.parse_link (st : PState) : PState × Option Nat :=
  let (st, start_token) := st.next_token
  let (st, text_node) :=
    if st.current_tag == .text then st.parse_text else (st, none)
  match st.expect_token .link_end with
  | (st, Option.none) => (st, none)
  | (st, some _) =>
  match st.expect_token .link_url_start with
  | (st, Option.none) => (st, none)
  | (st, some _) =>
  match st.expect_token .text with
  | (st, Option.none) => (st, none)
  | (st, some url_token) =>
  match st.expect_token .link_url_end with
  | (st, Option.none) => (st, none)
  | (st, some _) =>
    let (st, link_data) := st.add_extra_link text_node url_token
    let (st, idx) := st.add_node
      { tag := .link, main_token := start_token, data := .extra link_data }
    (st, some idx)

/-- `Parser::parse_image`. -/
def PState.parse_image (st : PState) : PState × Option Nat :=
  let (st, start_token) := st.next_token
  let (st, text_node) :=
    if st.current_tag == .text then st.parse_text else (st, none)
  match st.expect_token .link_end with
  | (st, Option.none) => (st, none)
  | (st, some _) =>
  match st.expect_token .link_url_start with
  | (st, Option.none) => (st, none)
  | (st, some _) =>
  match st.expect_token .text with
  | (st, Option.none) => (st, none)
  | (st, some url_token) =>
  match st.expect_token .link_url_end with
  | (st, Option.none) => (st, none)
  | (st, some _) =>
    let (st, link_data) := st.add_extra_link text_node url_token
    let (st, idx) := st.add_node
      { tag := .image, main_token := start_token, data := .extra link_data }
    (st, some idx)

/-- `Parser::parse_code_block`. -/
def PState.parse_code_block (st : PState) : PState × Option Nat :=
  let (st, start_token) := st.next_token
  let (st, _) := st.eat_token .text
  let (st, _) := st.eat_token .newline
  let st := skipTokensWhile (fun t => t != .code_fence_end && t != .eof)
    (st.token_tags.length + 1) st
  match st.expect_token .code_fence_end with
  | (st, Option.none) => (st, none)
  | (st, some _) =>
    let (st, idx) := st.add_node
      { tag := .code_block, main_token := start_token, data := .none }
    (st, some idx)

/-- `Parser::parse_hr`. -/
def PState.parse_hr (st : PState) : PState × Option Nat :=
  let (st, hr_token) := st.next_token
  let (st, idx) := st.add_node
    { tag := .hr, main_token := hr_token, data := .none }
  (st, some idx)

/-- `Parser::parse_yaml_frontmatter`. -/
def PState.parse_yaml_frontmatter (st : PState) (start_token : Nat) :
    PState × Option Nat :=
  let (st, _) := st.eat_token .newline
  let content_start := st.token_index
  let st := skipTokensWhile (fun t => t != .hr && t != .eof)
    (st.token_tags.length + 1) st
  let content_end := st.token_index
  if st.current_tag != .hr then (st.warn .unclosed_frontmatter, none)
  else
    let (st, _) := st.next_token
    let (st, extra_index) := st.add_extra_frontmatter .yaml content_start content_end
    let (st, idx) := st.add_node
      { tag := .frontmatter, main_token := start_token, data := .extra extra_index }
    (st, some idx)

/-- `Parser::parse_json_frontmatter`. -/
def PState.parse_json_frontmatter (st : PState) : PState × Option Nat :=
  let (st, start_token) := st.next_token
  match st.expect_token .text with
  | (st, Option.none) => (st, none)
  | (st, some _) =>
    let (st, _) := st.eat_token .newline
    let content_start := st.token_index
    let st := skipTokensWhile (fun t => t != .code_fence_end && t != .eof)
      (st.token_tags.length + 1) st
    let content_end := st.token_index
    if st.current_tag != .code_fence_end then (st.warn .unclosed_frontmatter, none)
    else
      let (st, _) := st.next_token
      let (st, extra_index) := st.add_extra_frontmatter .json content_start content_end
      let (st, idx) := st.add_node
        { tag := .frontmatter, main_token := start_token, data := .extra extra_index }
      (st, some idx)

/-- `Parser::parse_text_expression`. -/
def PState.parse_text_expression (st : PState) : PState × Option Nat :=
  match st.expect_token .expr_start with
  | (st, Option.none) => (st, none)
  | (st, some expr_start) =>
    let content_start := st.token_index
    let (st, depth) := exprScan (st.token_tags.length + 2) (st, 1)
    if depth > 0 then (st.warn .unclosed_expression, none)
    else
      let content_end := st.token_index
      match st.expect_token .expr_end with
      | (st, Option.none) => (st, none)
      | (st, some _) =>
        let (st, range_index) := st.add_extra_range content_start content_end
        let (st, idx) := st.add_node
          { tag := .mdx_text_expression, main_token := expr_start
            data := .extra range_index }
        (st, some idx)

/-- `Parser::parse_jsx_attribute_value`. -/
def PState.parse_jsx_attribute_value (st : PState) :
    PState × Option (Option Nat × JsxAttributeType) :=
  match st.eat_token .jsx_string with
  | (st, some value_token) => (st, some (some value_token, .string))
  | (st, Option.none) =>
  match st.eat_token .jsx_attr_expr_start with
  | (st, some _) =>
    let expr_content_start := st.token_index
    let (st, depth) := exprScan (st.token_tags.length + 2) (st, 1)
    if depth > 0 then (st.warn .unclosed_expression, none)
    else
      match st.expect_token .expr_end with
      | (st, Option.none) => (st, none)
      | (st, some _) =>
        let value_token :=
          if expr_content_start == st.token_index - 1 then none
          else some expr_content_start
        (st, some (value_token, .expression))
  | (st, Option.none) =>
  match st.eat_token .jsx_identifier with
  | (st, some value_token) =>
    let ty := infer_unquoted_jsx_value_type (asciiTrim (st.token_slice value_token))
    (st, some (some value_token, ty))
  | (st, Option.none) =>
  match st.eat_token .text with
  | (st, some value_token) =>
    let ty := infer_unquoted_jsx_value_type (asciiTrim (st.token_slice value_token))
    (st, some (some value_token, ty))
  | (st, Option.none) => (st.warn .invalid_jsx_attribute, none)

/-- The attribute loop of `parse_jsx_element`: one iteration per
`JsxIdentifier`, pushing the 3-word attribute tuple; `false` when a value
parse failed (the `?` propagation). -/
def attrsLoop (fuel : Nat) : PState → PState × Bool :=
  fuelRec (fun st => (st, true)) (fun ih st =>
    if st.current_tag == .jsx_identifier then
      let (st, attr_name) := st.next_token
      match st.eat_token .jsx_equal with
      | (st, some _) =>
        match st.parse_jsx_attribute_value with
        | (st, Option.none) => (st, false)
        | (st, some (attr_value, attr_type)) =>
          let st := { st with extra_data := st.extra_data ++
            [attr_name, attr_value.getD u32Max, jsx_attr_type_to_raw attr_type] }
          ih st
      | (st, Option.none) =>
        let st := { st with extra_data := st.extra_data ++
          [attr_name, u32Max, jsx_attr_type_to_raw .boolean] }
        ih st
    else (st, true)) fuel

/-- The separator-row loop of `parse_table`, carrying the alignments read
so far. -/
def tableSepLoop (fuel : Nat) :
    PState × List TableAlignment → PState × List TableAlignment :=
  fuelRec (fun p => p) (fun ih p =>
    let (st, aligns) := p
    if st.current_tag != .newline && st.current_tag != .eof &&
        st.current_tag != .blank_line then
      let before := st.token_index
      if st.current_tag == .text then
        let t := asciiTrim (st.token_slice st.token_index)
        let has_left_colon := t.headD 0 == 58
        let has_right_colon := t.getLastD 0 == 58
        let has_dash := t.contains 45
        let (st, _) := st.next_token
        let aligns :=
          if has_dash then
            aligns ++ [match has_left_colon, has_right_colon with
              | true, true => TableAlignment.center
              | true, false => TableAlignment.left
              | false, true => TableAlignment.right
              | false, false => TableAlignment.none]
          else aligns
        let (st, _) := if st.current_tag == .pipe then st.next_token else (st, 0)
        let st :=
          if st.token_index == before then
            let st := st.warn .unexpected_token
            { st with token_index := st.token_index + 1 }
          else st
        ih (st, aligns)
      else if st.current_tag == .space || st.current_tag == .indent then
        let (st, _) := st.next_token
        ih (st, aligns)  -- `continue`
      else
        -- no text consumed: has_dash is false, no alignment is pushed
        let (st, _) := if st.current_tag == .pipe then st.next_token else (st, 0)
        let st :=
          if st.token_index == before then
            let st := st.warn .unexpected_token
            { st with token_index := st.token_index + 1 }
          else st
        ih (st, aligns)
    else (st, aligns)) fuel

/-- `Parser::parse_jsx_closing_tag` (always an error: closing tags cannot
appear at block level). -/
def PState.parse_jsx_closing_tag (st : PState) : PState × Option Nat :=
  let close_tag_token := st.token_index - 1
  let st := st.warn_at .unexpected_token close_tag_token
  match st.expect_token .jsx_identifier with
  | (st, Option.none) => (st, none)
  | (st, some _) =>
    match st.expect_token .jsx_tag_end with
    | (st, Option.none) => (st, none)
    | (st, some _) => (st, none)

/-- The closing-tag sequence at the end of `parse_jsx_element` (factored
out of the Rust function body, which it follows line by line): expect
`</`, the identifier — whose trimmed slice must equal the opening name,
else `mismatched_tags` is recorded at the `</` token and the element fails —
then `>`; on success emit the element node. -/
def PState.parse_jsx_element_close (st : PState) (open_bracket name : Nat)
    (open_name : List Nat) (attrs_start attrs_end : Nat)
    (children_span : NRange) : PState × Option Nat :=
  match st.expect_token .jsx_close_tag with
  | (st, Option.none) => (st, none)
  | (st, some close_tag_token) =>
  match st.expect_token .jsx_identifier with
  | (st, Option.none) => (st, none)
  | (st, some close_name) =>
    if asciiTrim (st.token_slice close_name) != open_name then
      let st := st.warn_at .mismatched_tags close_tag_token
      let (st, _) := st.eat_token .jsx_tag_end
      (st, none)
    else
      match st.expect_token .jsx_tag_end with
      | (st, Option.none) => (st, none)
      | (st, some _) =>
        let (st, jsx_data) := st.add_extra_jsx_element name attrs_start attrs_end
          children_span.start children_span.stop
        let (st, idx) := st.add_node
          { tag := .mdx_jsx_element, main_token := open_bracket
            data := .extra jsx_data }
        (st, some idx)

/-- The forward-progress guard
`if self.token_index == before { self.token_index += 1 }`. -/
def PState.force_advance (st : PState) (before : Nat) : PState :=
  if st.token_index == before then { st with token_index := st.token_index + 1 }
  else st

/-- The guard variant that records `unexpected_token` before advancing. -/
def PState.warn_force_advance (st : PState) (before : Nat) : PState :=
  if st.token_index == before then
    let st := st.warn .unexpected_token
    { st with token_index := st.token_index + 1 }
  else st

/-- The mutually recursive parser functions of `parser.rs`, packaged per fuel
level.  The `*Loop` fields are the `while`/`loop` bodies of the functions
they are named after, one fuel unit per iteration; their `Bool` results are
`false` exactly when the Rust loop propagated a `ParseError` with `?` (or
`return Err`), and `true` when it broke out normally. -/
structure ParsePack where
  parse_document : PState → PState × Option Nat
  docLoop : PState → PState
  parse_block : PState → PState × Option Nat
  parse_heading : PState → PState × Option Nat
  parse_paragraph : PState → PState × Option Nat
  parse_inline_content : PState → Tag → PState × Option NRange
  inlineLoop : PState → Tag → PState × Bool
  parse_inline : PState → PState × Option Nat
  parse_strong : PState → PState × Option Nat
  parse_emphasis : PState → PState × Option Nat
  parse_blockquote : PState → PState × Option Nat
  parse_list : PState → PState × Option Nat
  listLoop : PState → Tag → PState × Bool
  parse_list_item : PState → PState × Option Nat
  parse_table : PState → PState × Option Nat
  tableBodyLoop : PState → PState
  parse_table_row : PState → PState × Option Nat
  rowLoop : PState → PState × Bool
  parse_table_cell : PState → PState × Option Nat
  cellLoop : PState → PState × Bool
  parse_jsx_element : PState → PState × Option Nat
  jsxChildrenLoop : PState → PState × Bool
  parse_jsx_fragment : PState → PState × Option Nat
  fragLoop : PState → PState × Bool

/-- Fuel-exhaustion fallback (unreachable for the fuels used on the concrete
inputs below; loops answer their break value, parsers answer `none`, leaving
the state untouched either way). -/
def parsePackZero : ParsePack :=
  { parse_document := fun st => (st, none)
    docLoop := fun st => st
    parse_block := fun st => (st, none)
    parse_heading := fun st => (st, none)
    parse_paragraph := fun st => (st, none)
    parse_inline_content := fun st _ => (st, none)
    inlineLoop := fun st _ => (st, true)
    parse_inline := fun st => (st, none)
    parse_strong := fun st => (st, none)
    parse_emphasis := fun st => (st, none)
    parse_blockquote := fun st => (st, none)
    parse_list := fun st => (st, none)
    listLoop := fun st _ => (st, true)
    parse_list_item := fun st => (st, none)
    parse_table := fun st => (st, none)
    tableBodyLoop := fun st => st
    parse_table_row := fun st => (st, none)
    rowLoop := fun st => (st, true)
    parse_table_cell := fun st => (st, none)
    cellLoop := fun st => (st, true)
    parse_jsx_element := fun st => (st, none)
    jsxChildrenLoop := fun st => (st, true)
    parse_jsx_fragment := fun st => (st, none)
    fragLoop := fun st => (st, true) }

/-- `Parser::parse_document`. -/
def step_parse_document (ih : ParsePack) : PState → PState × Option Nat :=
  fun st =>
    let scratch_top := st.scratch.length
    let st :=
      match st.eat_token .frontmatter_start with
      | (st, some fm_start) =>
        match st.parse_yaml_frontmatter fm_start with
        | (st, some fm_node) => { st with scratch := st.scratch ++ [fm_node] }
        | (st, Option.none) => st
      | (st, Option.none) =>
        if st.is_json_frontmatter then
          match st.parse_json_frontmatter with
          | (st, some fm_node) => { st with scratch := st.scratch ++ [fm_node] }
          | (st, Option.none) => st
        else st
    let st := ih.docLoop st
    let children := st.scratch.drop scratch_top
    let st := { st with scratch := st.scratch.take scratch_top }
    let (st, children_span) := st.list_to_span children
    let (st, idx) := st.add_node
      { tag := .document, main_token := 0, data := .children children_span }
    (st, some idx)

/-- Top-level block loop of `parse_document`; a block failure breaks out
and leaves the partial document. -/
def step_docLoop (ih : ParsePack) : PState → PState :=
  fun st =>
    if st.current_tag != .eof then
      let st := skipTokensWhile (fun t => t == .blank_line || t == .newline)
        (st.token_tags.length + 1) st
      if st.current_tag == .eof then st
      else
        let before := st.token_index
        match ih.parse_block st with
        | (st, some block) =>
          let st := { st with scratch := st.scratch ++ [block] }
          let st := st.warn_force_advance before
          ih.docLoop st
        | (st, Option.none) => st
    else st

/-- `Parser::parse_block`. -/
def step_parse_block (ih : ParsePack) : PState → PState × Option Nat :=
  fun st =>
    match st.current_tag with
    | .heading_start => ih.parse_heading st
    | .code_fence_start => st.parse_code_block
    | .hr => st.parse_hr
    | .blockquote_start => ih.parse_blockquote st
    | .list_item_unordered => ih.parse_list st
    | .list_item_ordered => ih.parse_list st
    | .pipe => ih.parse_table st
    | .jsx_tag_start => ih.parse_jsx_element st
    | _ => ih.parse_paragraph st

/-- `Parser::parse_heading`. -/
def step_parse_heading (ih : ParsePack) : PState → PState × Option Nat :=
  fun st =>
    let (st, heading_token) := st.next_token
    let heading_text := st.token_slice heading_token
    let level := (heading_text.takeWhile (fun b => b == 35)).length % 256
    let (st, node_index) := st.reserve_node .heading
    match ih.parse_inline_content st .newline with
    | (st, Option.none) =>
      let (st, empty_heading) := st.add_extra_heading level 0 0
      let (st, _) := st.set_node node_index
        { tag := .heading, main_token := heading_token, data := .extra empty_heading }
      (st, none)
    | (st, some span) =>
      let (st, heading_index) := st.add_extra_heading level span.start span.stop
      let (st, idx) := st.set_node node_index
        { tag := .heading, main_token := heading_token, data := .extra heading_index }
      (st, some idx)

/-- `Parser::parse_paragraph`. -/
def step_parse_paragraph (ih : ParsePack) : PState → PState × Option Nat :=
  fun st =>
    let start_token := st.token_index
    let (st, node_index) := st.reserve_node .paragraph
    match ih.parse_inline_content st .blank_line with
    | (st, Option.none) =>
      let (st, _) := st.set_node node_index
        { tag := .paragraph, main_token := start_token
          data := .children { start := 0, stop := 0 } }
      (st, none)
    | (st, some span) =>
      let (st, idx) := st.set_node node_index
        { tag := .paragraph, main_token := start_token, data := .children span }
      (st, some idx)

/-- `Parser::parse_inline_content`.  On an error the pushed scratch entries
are deliberately not truncated, as in the Rust `?` propagation. -/
def step_parse_inline_content (ih : ParsePack) : PState → Tag → PState × Option NRange :=
  fun st end_tag =>
    let scratch_top := st.scratch.length
    match ih.inlineLoop st end_tag with
    | (st, false) => (st, none)
    | (st, true) =>
      let (st, _) := st.eat_token end_tag
      let children := st.scratch.drop scratch_top
      let st := { st with scratch := st.scratch.take scratch_top }
      let (st, span) := st.list_to_span children
      (st, some span)

/-- Loop of `parse_inline_content`. -/
def step_inlineLoop (ih : ParsePack) : PState → Tag → PState × Bool :=
  fun st end_tag =>
    if st.current_tag != end_tag && st.current_tag != .eof &&
        st.current_tag != .blank_line then
      if st.current_tag == .newline then
        let (st, _) := st.next_token
        ih.inlineLoop st end_tag
      else
        let before := st.token_index
        match ih.parse_inline st with
        | (st, Option.none) => (st, false)
        | (st, some inline_node) =>
          let st := { st with scratch := st.scratch ++ [inline_node] }
          let st := st.force_advance before
          ih.inlineLoop st end_tag
    else (st, true)

/-- `Parser::parse_inline`. -/
def step_parse_inline (ih : ParsePack) : PState → PState × Option Nat :=
  fun st =>
    match st.current_tag with
    | .text => st.parse_text
    | .indent => st.parse_text
    | .space => st.parse_text
    | .strong_start => ih.parse_strong st
    | .emphasis_start => ih.parse_emphasis st
    | .code_inline_start => st.parse_code_inline
    | .link_start => st.parse_link
    | .image_start => st.parse_image
    | .hard_break => st.parse_hard_break
    | .expr_start => st.parse_text_expression
    | .jsx_tag_start => ih.parse_jsx_element st
    | _ =>
      let st := st.warn .unexpected_token
      let (st, _) := st.next_token
      (st, none)

/-- `Parser::parse_strong`. -/
def step_parse_strong (ih : ParsePack) : PState → PState × Option Nat :=
  fun st =>
    let (st, start_token) := st.next_token
    let (st, node_index) := st.reserve_node .strong
    match ih.parse_inline_content st .strong_end with
    | (st, Option.none) =>
      let (st, _) := st.set_node node_index
        { tag := .strong, main_token := start_token
          data := .children { start := 0, stop := 0 } }
      (st, none)
    | (st, some span) =>
      let (st, idx) := st.set_node node_index
        { tag := .strong, main_token := start_token, data := .children span }
      (st, some idx)

/-- `Parser::parse_emphasis`. -/
def step_parse_emphasis (ih : ParsePack) : PState → PState × Option Nat :=
  fun st =>
    let (st, start_token) := st.next_token
    let (st, node_index) := st.reserve_node .emphasis
    match ih.parse_inline_content st .emphasis_end with
    | (st, Option.none) =>
      let (st, _) := st.set_node node_index
        { tag := .emphasis, main_token := start_token
          data := .children { start := 0, stop := 0 } }
      (st, none)
    | (st, some span) =>
      let (st, idx) := st.set_node node_index
        { tag := .emphasis, main_token := start_token, data := .children span }
      (st, some idx)

/-- `Parser::parse_blockquote`. -/
def step_parse_blockquote (ih : ParsePack) : PState → PState × Option Nat :=
  fun st =>
    let (st, start_token) := st.next_token
    let (st, node_index) := st.reserve_node .blockquote
    let (st, _) := st.eat_token .space
    match ih.parse_inline_content st .newline with
    | (st, Option.none) =>
      let (st, _) := st.set_node node_index
        { tag := .blockquote, main_token := start_token
          data := .children { start := 0, stop := 0 } }
      (st, none)
    | (st, some span) =>
      let (st, idx) := st.set_node node_index
        { tag := .blockquote, main_token := start_token, data := .children span }
      (st, some idx)

/-- `Parser::parse_list`. -/
def step_parse_list (ih : ParsePack) : PState → PState × Option Nat :=
  fun st =>
    let first_item_tag := st.current_tag
    let list_tag :=
      if first_item_tag == .list_item_ordered then NodeTag.list_ordered
      else NodeTag.list_unordered
    let start_token := st.token_index
    let (st, node_index) := st.reserve_node list_tag
    let scratch_top := st.scratch.length
    match ih.listLoop st first_item_tag with
    | (st, false) =>
      let children := st.scratch.drop scratch_top
      let st := { st with scratch := st.scratch.take scratch_top }
      let (st, empty_span) := st.list_to_span children
      let (st, _) := st.set_node node_index
        { tag := list_tag, main_token := start_token, data := .children empty_span }
      (st, none)
    | (st, true) =>
      let children := st.scratch.drop scratch_top
      let st := { st with scratch := st.scratch.take scratch_top }
      let (st, children_span) := st.list_to_span children
      let (st, idx) := st.set_node node_index
        { tag := list_tag, main_token := start_token, data := .children children_span }
      (st, some idx)

/-- Item loop of `parse_list`. -/
def step_listLoop (ih : ParsePack) : PState → Tag → PState × Bool :=
  fun st first_item_tag =>
    if st.current_tag == first_item_tag then
      match ih.parse_list_item st with
      | (st, some item) =>
        ih.listLoop { st with scratch := st.scratch ++ [item] } first_item_tag
      | (st, Option.none) => (st, false)
    else (st, true)

/-- `Parser::parse_list_item`. -/
def step_parse_list_item (ih : ParsePack) : PState → PState × Option Nat :=
  fun st =>
    let (st, item_token) := st.next_token
    let (st, node_index) := st.reserve_node .list_item
    let (st, checked) :=
      match st.eat_token .checkbox_unchecked with
      | (st, some _) => (st, some false)
      | (st, Option.none) =>
        match st.eat_token .checkbox_checked with
        | (st, some _) => (st, some true)
        | (st, Option.none) => (st, none)
    match ih.parse_inline_content st .newline with
    | (st, Option.none) =>
      let (st, extra_idx) := st.add_extra_list_item checked 0 0
      let (st, _) := st.set_node node_index
        { tag := .list_item, main_token := item_token, data := .extra extra_idx }
      (st, none)
    | (st, some span) =>
      let (st, extra_idx) := st.add_extra_list_item checked span.start span.stop
      let (st, idx) := st.set_node node_index
        { tag := .list_item, main_token := item_token, data := .extra extra_idx }
      (st, some idx)

/-- `Parser::parse_table`. -/
def step_parse_table (ih : ParsePack) : PState → PState × Option Nat :=
  fun st =>
    let start_token := st.token_index
    let (st, node_index) := st.reserve_node .table
    let scratch_top := st.scratch.length
    match ih.parse_table_row st with
    | (st, Option.none) => (st, none)
    | (st, some header_row) =>
      let st := { st with scratch := st.scratch ++ [header_row] }
      let header_children :=
        match (st.nodes.getD header_row { tag := .document, main_token := 0, data := .none }).data with
        | .children range => range
        | _ => { start := 0, stop := 0 }
      let num_columns := header_children.stop - header_children.start
      let (st, alignments) :=
        if st.current_tag == .pipe then
          let (st, _) := st.next_token
          let (st, aligns) := tableSepLoop (st.token_tags.length + 2) (st, [])
          let (st, _) := st.eat_token .newline
          (st, aligns)
        else (st, [])
      let alignments :=
        (alignments ++
          List.replicate (num_columns - alignments.length) TableAlignment.none).take
          num_columns
      let st := ih.tableBodyLoop st
      let rows := st.scratch.drop scratch_top
      let st := { st with scratch := st.scratch.take scratch_top }
      let num_rows := rows.length
      let extra_start := st.extra_data.length
      let table_record := [num_columns, num_rows] ++
        alignments.map TableAlignment.toRaw ++ rows
      let st := { st with extra_data := st.extra_data ++ table_record }
      let (st, idx) := st.set_node node_index
        { tag := .table, main_token := start_token, data := .extra extra_start }
      (st, some idx)

/-- Body-row loop of `parse_table`; a row failure breaks out. -/
def step_tableBodyLoop (ih : ParsePack) : PState → PState :=
  fun st =>
    if st.current_tag == .pipe then
      let before := st.token_index
      match ih.parse_table_row st with
      | (st, some row) =>
        let st := { st with scratch := st.scratch ++ [row] }
        let st := st.force_advance before
        ih.tableBodyLoop st
      | (st, Option.none) => st
    else st

/-- `Parser::parse_table_row`. -/
def step_parse_table_row (ih : ParsePack) : PState → PState × Option Nat :=
  fun st =>
    let start_token := st.token_index
    match st.expect_token .pipe with
    | (st, Option.none) => (st, none)
    | (st, some _) =>
      let (st, node_index) := st.reserve_node .table_row
      let scratch_top := st.scratch.length
      match ih.rowLoop st with
      | (st, false) => (st, none)
      | (st, true) =>
        let (st, _) := st.eat_token .newline
        let cells := st.scratch.drop scratch_top
        let st := { st with scratch := st.scratch.take scratch_top }
        let (st, children_span) := st.list_to_span cells
        let (st, idx) := st.set_node node_index
          { tag := .table_row, main_token := start_token
            data := .children children_span }
        (st, some idx)

/-- Cell loop of `parse_table_row`. -/
def step_rowLoop (ih : ParsePack) : PState → PState × Bool :=
  fun st =>
    if st.current_tag == .newline || st.current_tag == .eof ||
        st.current_tag == .blank_line then (st, true)
    else
      let before := st.token_index
      match ih.parse_table_cell st with
      | (st, Option.none) => (st, false)
      | (st, some cell) =>
        let st := { st with scratch := st.scratch ++ [cell] }
        if st.current_tag == .pipe then
          let (st, _) := st.next_token
          if st.current_tag == .newline || st.current_tag == .eof ||
              st.current_tag == .blank_line then (st, true)
          else ih.rowLoop (st.force_advance before)
        else ih.rowLoop (st.force_advance before)

/-- `Parser::parse_table_cell`. -/
def step_parse_table_cell (ih : ParsePack) : PState → PState × Option Nat :=
  fun st =>
    let start_token := st.token_index
    let (st, node_index) := st.reserve_node .table_cell
    let scratch_top := st.scratch.length
    let (st, _) :=
      if st.current_tag == .space || st.current_tag == .indent then st.next_token
      else (st, 0)
    match ih.cellLoop st with
    | (st, false) => (st, none)
    | (st, true) =>
      let children := st.scratch.drop scratch_top
      let st := { st with scratch := st.scratch.take scratch_top }
      let (st, children_span) := st.list_to_span children
      let (st, idx) := st.set_node node_index
        { tag := .table_cell, main_token := start_token
          data := .children children_span }
      (st, some idx)

/-- Inline loop of `parse_table_cell`. -/
def step_cellLoop (ih : ParsePack) : PState → PState × Bool :=
  fun st =>
    if st.current_tag != .pipe && st.current_tag != .newline &&
        st.current_tag != .eof && st.current_tag != .blank_line then
      let before := st.token_index
      match ih.parse_inline st with
      | (st, Option.none) => (st, false)
      | (st, some inline_node) =>
        let st := { st with scratch := st.scratch ++ [inline_node] }
        ih.cellLoop (st.force_advance before)
    else (st, true)

/-- `Parser::parse_jsx_element`. -/
def step_parse_jsx_element (ih : ParsePack) : PState → PState × Option Nat :=
  fun st =>
    match st.expect_token .jsx_tag_start with
    | (st, Option.none) => (st, none)
    | (st, some open_bracket) =>
    match st.eat_token .jsx_close_tag with
    | (st, some _) => st.parse_jsx_closing_tag
    | (st, Option.none) =>
    if st.peek_token 0 == .jsx_tag_end then ih.parse_jsx_fragment st
    else
    match st.expect_token .jsx_identifier with
    | (st, Option.none) => (st, none)
    | (st, some name) =>
      let open_name := asciiTrim (st.token_slice name)
      let attrs_start := st.extra_data.length
      match attrsLoop (st.token_tags.length + 2) st with
      | (st, false) => (st, none)
      | (st, true) =>
        let attrs_end := st.extra_data.length
        if st.current_tag != .jsx_self_close && st.current_tag != .jsx_tag_end then
          (st.warn .invalid_jsx_attribute, none)
        else
          match st.eat_token .jsx_self_close with
          | (st, some _) =>
            let (st, jsx_data) := st.add_extra_jsx_element name attrs_start attrs_end 0 0
            let (st, idx) := st.add_node
              { tag := .mdx_jsx_self_closing, main_token := open_bracket
                data := .extra jsx_data }
            (st, some idx)
          | (st, Option.none) =>
            match st.expect_token .jsx_tag_end with
            | (st, Option.none) => (st, none)
            | (st, some _) =>
              let scratch_top := st.scratch.length
              match ih.jsxChildrenLoop st with
              | (st, false) => (st, none)
              | (st, true) =>
                let children_vec := st.scratch.drop scratch_top
                let st := { st with scratch := st.scratch.take scratch_top }
                let (st, children_span) := st.list_to_span children_vec
                st.parse_jsx_element_close open_bracket name open_name
                  attrs_start attrs_end children_span

/-- Children loop of `parse_jsx_element`. -/
def step_jsxChildrenLoop (ih : ParsePack) : PState → PState × Bool :=
  fun st =>
    if st.current_tag != .jsx_close_tag && st.current_tag != .eof then
      let before := st.token_index
      match st.current_tag with
      | .jsx_tag_start =>
        if st.peek_token 1 == .jsx_close_tag then (st, true)
        else
          match ih.parse_block st with
          | (st, Option.none) => (st, false)
          | (st, some child) =>
            let st := { st with scratch := st.scratch ++ [child] }
            ih.jsxChildrenLoop (st.warn_force_advance before)
      | .expr_start =>
        match st.parse_text_expression with
        | (st, Option.none) => (st, false)
        | (st, some child) =>
          let st := { st with scratch := st.scratch ++ [child] }
          ih.jsxChildrenLoop (st.warn_force_advance before)
      | .text =>
        match st.parse_text with
        | (st, Option.none) => (st, false)
        | (st, some child) =>
          let st := { st with scratch := st.scratch ++ [child] }
          ih.jsxChildrenLoop (st.warn_force_advance before)
      | .indent =>
        let next_tag := st.peek_token 1
        if next_tag == .jsx_tag_start || next_tag == .jsx_close_tag ||
            next_tag == .newline || next_tag == .blank_line || next_tag == .eof then
          let st := { st with token_index := st.token_index + 1 }
          ih.jsxChildrenLoop (st.warn_force_advance before)
        else
          match st.parse_text with
          | (st, Option.none) => (st, false)
          | (st, some child) =>
            let st := { st with scratch := st.scratch ++ [child] }
            ih.jsxChildrenLoop (st.warn_force_advance before)
      | .space =>
        match st.parse_text with
        | (st, Option.none) => (st, false)
        | (st, some child) =>
          let st := { st with scratch := st.scratch ++ [child] }
          ih.jsxChildrenLoop (st.warn_force_advance before)
      | .code_inline_start =>
        match st.parse_code_inline with
        | (st, Option.none) => (st, false)
        | (st, some child) =>
          let st := { st with scratch := st.scratch ++ [child] }
          ih.jsxChildrenLoop (st.warn_force_advance before)
      | .strong_start =>
        match ih.parse_strong st with
        | (st, Option.none) => (st, false)
        | (st, some child) =>
          let st := { st with scratch := st.scratch ++ [child] }
          ih.jsxChildrenLoop (st.warn_force_advance before)
      | .emphasis_start =>
        match ih.parse_emphasis st with
        | (st, Option.none) => (st, false)
        | (st, some child) =>
          let st := { st with scratch := st.scratch ++ [child] }
          ih.jsxChildrenLoop (st.warn_force_advance before)
      | .link_start =>
        match st.parse_link with
        | (st, Option.none) => (st, false)
        | (st, some child) =>
          let st := { st with scratch := st.scratch ++ [child] }
          ih.jsxChildrenLoop (st.warn_force_advance before)
      | .image_start =>
        match st.parse_image with
        | (st, Option.none) => (st, false)
        | (st, some child) =>
          let st := { st with scratch := st.scratch ++ [child] }
          ih.jsxChildrenLoop (st.warn_force_advance before)
      | .hard_break =>
        match st.parse_hard_break with
        | (st, Option.none) => (st, false)
        | (st, some child) =>
          let st := { st with scratch := st.scratch ++ [child] }
          ih.jsxChildrenLoop (st.warn_force_advance before)
      | .heading_start =>
        match ih.parse_heading st with
        | (st, Option.none) => (st, false)
        | (st, some child) =>
          let st := { st with scratch := st.scratch ++ [child] }
          ih.jsxChildrenLoop (st.warn_force_advance before)
      | .newline =>
        let st := { st with token_index := st.token_index + 1 }
        ih.jsxChildrenLoop (st.warn_force_advance before)
      | .blank_line =>
        let st := { st with token_index := st.token_index + 1 }
        ih.jsxChildrenLoop (st.warn_force_advance before)
      | _ =>
        let st := { st with token_index := st.token_index + 1 }
        ih.jsxChildrenLoop (st.warn_force_advance before)
    else (st, true)

/-- `Parser::parse_jsx_fragment`. -/
def step_parse_jsx_fragment (ih : ParsePack) : PState → PState × Option Nat :=
  fun st =>
    let open_bracket := st.token_index - 1
    match st.expect_token .jsx_tag_end with
    | (st, Option.none) => (st, none)
    | (st, some _) =>
      let scratch_top := st.scratch.length
      match ih.fragLoop st with
      | (st, false) => (st, none)
      | (st, true) =>
        let children_vec := st.scratch.drop scratch_top
        let st := { st with scratch := st.scratch.take scratch_top }
        let (st, children_span) := st.list_to_span children_vec
        match st.expect_token .jsx_tag_start with
        | (st, Option.none) => (st, none)
        | (st, some _) =>
        match st.expect_token .jsx_close_tag with
        | (st, Option.none) => (st, none)
        | (st, some _) =>
        match st.expect_token .jsx_tag_end with
        | (st, Option.none) => (st, none)
        | (st, some _) =>
          let (st, idx) := st.add_node
            { tag := .mdx_jsx_fragment, main_token := open_bracket
              data := .children children_span }
          (st, some idx)

/-- Children loop of `parse_jsx_fragment`. -/
def step_fragLoop (ih : ParsePack) : PState → PState × Bool :=
  fun st =>
    if !(st.current_tag == .jsx_tag_start && st.peek_token 1 == .jsx_close_tag) then
      if st.current_tag == .eof then (st.warn .expected_closing_tag, false)
      else
        let before := st.token_index
        match ih.parse_block st with
        | (st, Option.none) => (st, false)
        | (st, some child) =>
          let st := { st with scratch := st.scratch ++ [child] }
          ih.fragLoop (st.warn_force_advance before)
    else (st, true)

/-- One unfolding of the parser functions, with `ih` giving the functions one
fuel level down. -/
def parsePackStep (ih : ParsePack) : ParsePack where
  parse_document := step_parse_document ih
  docLoop := step_docLoop ih
  parse_block := step_parse_block ih
  parse_heading := step_parse_heading ih
  parse_paragraph := step_parse_paragraph ih
  parse_inline_content := step_parse_inline_content ih
  inlineLoop := step_inlineLoop ih
  parse_inline := step_parse_inline ih
  parse_strong := step_parse_strong ih
  parse_emphasis := step_parse_emphasis ih
  parse_blockquote := step_parse_blockquote ih
  parse_list := step_parse_list ih
  listLoop := step_listLoop ih
  parse_list_item := step_parse_list_item ih
  parse_table := step_parse_table ih
  tableBodyLoop := step_tableBodyLoop ih
  parse_table_row := step_parse_table_row ih
  rowLoop := step_rowLoop ih
  parse_table_cell := step_parse_table_cell ih
  cellLoop := step_cellLoop ih
  parse_jsx_element := step_parse_jsx_element ih
  jsxChildrenLoop := step_jsxChildrenLoop ih
  parse_jsx_fragment := step_parse_jsx_fragment ih
  fragLoop := step_fragLoop ih

/-- The parser functions at a given fuel level. -/
def parsePack (fuel : Nat) : ParsePack :=
  Nat.rec parsePackZero (fun _ ih => parsePackStep ih) fuel

/-- Phase 2 of `parse_with_options`: build the parser state from the token
stream, run `parse_document`, and assemble the `Ast`. -/
def runParse (fuel : Nat) (source : List Nat) (tokens : List Token) : Ast :=
  let token_tags := tokens.map Token.tag
  let token_starts := tokens.map (fun t => t.loc.start)
  let st : PState :=
    { source := source, token_tags := token_tags, token_starts := token_starts
      token_index := 0, nodes := [], extra_data := [], scratch := []
      errors := [] }
  let (st, _) := (parsePack fuel).parse_document st
  { source := source, token_tags := token_tags, token_starts := token_starts
    nodes := st.nodes, extra_data := st.extra_data, errors := st.errors }

/-- `parse` (equivalently `parse_with_options` with
`normalize_emoji_shortcodes` unset, its default): tokenize to `Eof`, then
parse.  `none` when the tokenize fuel is exhausted — the Rust tokenization
loop would still be running. -/
def parse (tfuel pfuel : Nat) (source : List Nat) : Option Ast :=
  match tokenize source tfuel with
  | Option.none => none
  | some tokens => some (runParse pfuel source tokens)

-- Sanity replays of parser behavior (cf. parser.rs unit tests).
set_option maxHeartbeats 2000000 in
example :
    (parse 20 50 (strBytes "# Hello World\n")).map
        (fun ast => ast.nodes.map Node.tag) =
      some [.heading, .text, .document] := by decide

set_option maxHeartbeats 2000000 in
example :
    (parse 20 50 (strBytes "Hello {name}\n")).map
        (fun ast => (ast.nodes.map Node.tag, ast.errors.length)) =
      some ([.paragraph, .text, .mdx_text_expression, .document], 0) := by decide

/-! ## AST accessors (src/ast.rs) -/

/-- The default node used for out-of-range reads (the Rust indexing would
panic; node indices produced by the parser are always in range). -/
def nullNode : Node := { tag := .document, main_token := 0, data := .none }

/-- The slice `extra_data[start..stop]`. -/
def Ast.extraSlice (ast : Ast) (start stop : Nat) : List Nat :=
  (ast.extra_data.drop start).take (stop - start)

/-- `ast.rs` `struct Heading` as decoded by `heading_info`. -/
structure HeadingInfo where
  level : Nat
  children_start : Nat
  children_end : Nat
  deriving DecidableEq, Repr

/-- `Ast::heading_info`. -/
def Ast.heading_info (ast : Ast) (node_index : Nat) : HeadingInfo :=
  let node := ast.nodes.getD node_index nullNode
  match node.data with
  | .extra i =>
    { level := ast.extra_data.getD i 0
      children_start := ast.extra_data.getD (i+1) 0
      children_end := ast.extra_data.getD (i+2) 0 }
  | _ => { level := 0, children_start := 0, children_end := 0 }

/-- `ast.rs` `struct JsxElement` as decoded by `jsx_element`. -/
structure JsxElementInfo where
  name_token : Nat
  attrs_start : Nat
  attrs_end : Nat
  children_start : Nat
  children_end : Nat
  deriving DecidableEq, Repr

/-- `Ast::jsx_element`. -/
def Ast.jsx_element (ast : Ast) (node_index : Nat) : JsxElementInfo :=
  let node := ast.nodes.getD node_index nullNode
  match node.data with
  | .extra i =>
    { name_token := ast.extra_data.getD i 0
      attrs_start := ast.extra_data.getD (i+1) 0
      attrs_end := ast.extra_data.getD (i+2) 0
      children_start := ast.extra_data.getD (i+3) 0
      children_end := ast.extra_data.getD (i+4) 0 }
  | _ => { name_token := 0, attrs_start := 0, attrs_end := 0
           children_start := 0, children_end := 0 }

/-- `Ast::children`: child indices for `Children(range)` nodes of the listed
tags, dereferenced `Extra` offsets for `Heading` and `MdxJsxElement`, and the
empty slice for every other tag — including `ListItem` nodes (whose data the
parser stores as `Extra`, so the `Children` arm they are grouped under never
fires) and `Table` nodes (no arm at all). -/
def Ast.children (ast : Ast) (node_idx : Nat) : List Nat :=
  let node := ast.nodes.getD node_idx nullNode
  match node.tag with
  | .document | .paragraph | .blockquote | .list_unordered | .list_ordered
  | .list_item | .strong | .emphasis | .mdx_jsx_fragment =>
    match node.data with
    | .children range => ast.extraSlice range.start range.stop
    | _ => []
  | .heading =>
    let info := ast.heading_info node_idx
    ast.extraSlice info.children_start info.children_end
  | .mdx_jsx_element =>
    let elem := ast.jsx_element node_idx
    ast.extraSlice elem.children_start elem.children_end
  | _ => []

/-- `Ast::token_slice`. -/
def Ast.token_slice (ast : Ast) (token_index : Nat) : List Nat :=
  tokenSliceOf ast.source ast.token_starts token_index

/-- `Ast::node_source`. -/
def Ast.node_source (ast : Ast) (node_index : Nat) : List Nat :=
  let node := ast.nodes.getD node_index nullNode
  let start_token := node.main_token
  let end_token :=
    let node_children := ast.children node_index
    if node_children.length > 0 then
      let last_child := node_children.getLastD 0
      (ast.nodes.getD last_child nullNode).main_token + 1
    else start_token + 1
  let start := ast.token_starts.getD start_token 0
  let stop :=
    if end_token < ast.token_starts.length then ast.token_starts.getD end_token 0
    else ast.source.length
  (ast.source.drop start).take (stop - start)

/-- The triple-reading loop of `Ast::jsx_attributes`
(`while i + 2 < attrs_end + 1`). -/
def jsxAttrsFrom (extra : List Nat) (attrs_end : Nat) (fuel : Nat) :
    Nat → List JsxAttribute :=
  fuelRec (fun _ => []) (fun ih i =>
    if i + 2 < attrs_end + 1 then
      let name_token := extra.getD i 0
      let value_raw := extra.getD (i+1) 0
      let type_raw := extra.getD (i+2) 0
      let value_token := if value_raw == u32Max then none else some value_raw
      let value_type :=
        if type_raw == 0 then JsxAttributeTypeAst.literal
        else JsxAttributeTypeAst.expression
      { name_token := name_token, value_token := value_token
        value_type := value_type } :: ih (i+3)
    else []) fuel

/-- `Ast::jsx_attributes`: decodes the 3-word attribute tuples, reading a
stored `value_type` word of 0 as `Literal` and anything non-zero as
`Expression`. -/
def Ast.jsx_attributes (ast : Ast) (node_index : Nat) : List JsxAttribute :=
  let elem := ast.jsx_element node_index
  if elem.attrs_start == elem.attrs_end then []
  else jsxAttrsFrom ast.extra_data elem.attrs_end (ast.extra_data.length + 3)
    elem.attrs_start

/-- `ast.rs` `struct FrontmatterData`. -/
structure FrontmatterData where
  format : FrontmatterFormat
  content_start : Nat
  content_end : Nat
  deriving DecidableEq, Repr

/-- `Ast::frontmatter_info`. -/
def Ast.frontmatter_info (ast : Ast) (node_index : Nat) : FrontmatterData :=
  let node := ast.nodes.getD node_index nullNode
  match node.data with
  | .extra i =>
    { format := if ast.extra_data.getD i 0 == 0 then .yaml else .json
      content_start := ast.extra_data.getD (i+1) 0
      content_end := ast.extra_data.getD (i+2) 0 }
  | _ => { format := .yaml, content_start := 0, content_end := 0 }

/-- `Ast::extra_range`. -/
def Ast.extra_range (ast : Ast) (index : Nat) : NRange :=
  { start := ast.extra_data.getD index 0, stop := ast.extra_data.getD (index+1) 0 }

/-- The list-item payload `(checked, children_start, children_end)`.
Modelled from the spec: §3 gives the `ListItem` record
`[checked_state ∈ {0 = none, 1 = unchecked, 2 = checked}, cs, ce]`; the
accessor `Ast::list_item_info` is called by `render.rs` and the tests but is
absent from the snapshot's `ast.rs`. -/
structure ListItemInfo where
  checked : Option Bool
  children_start : Nat
  children_end : Nat
  deriving DecidableEq, Repr

/-- `Ast::list_item_info`, modelled from the spec record layout (see
`ListItemInfo`). -/
def Ast.list_item_info (ast : Ast) (node_index : Nat) : ListItemInfo :=
  let node := ast.nodes.getD node_index nullNode
  match node.data with
  | .extra i =>
    { checked :=
        match ast.extra_data.getD i 0 with
        | 1 => some false
        | 2 => some true
        | _ => none
      children_start := ast.extra_data.getD (i+1) 0
      children_end := ast.extra_data.getD (i+2) 0 }
  | _ => { checked := none, children_start := 0, children_end := 0 }

/-- The table payload header `(num_columns, num_rows)`.  Modelled from the
spec: §3 gives the `Table` record
`[num_columns, num_rows, align_0.., row_idx_0..]`; the accessors
`Ast::table_info`/`Ast::table_alignments` are called by `render.rs` and the
tests but are absent from the snapshot's `ast.rs`. -/
structure TableInfo where
  num_columns : Nat
  num_rows : Nat
  deriving DecidableEq, Repr

/-- `Ast::table_info`, modelled from the spec record layout (see
`TableInfo`). -/
def Ast.table_info (ast : Ast) (node_index : Nat) : TableInfo :=
  let node := ast.nodes.getD node_index nullNode
  match node.data with
  | .extra i =>
    { num_columns := ast.extra_data.getD i 0
      num_rows := ast.extra_data.getD (i+1) 0 }
  | _ => { num_columns := 0, num_rows := 0 }

/-- `Ast::table_alignments`, modelled from the spec record layout (see
`TableInfo`): the `num_columns` alignment words following the two-word
header, decoded by the §3 encoding. -/
def Ast.table_alignments (ast : Ast) (node_index : Nat) : List TableAlignment :=
  let node := ast.nodes.getD node_index nullNode
  match node.data with
  | .extra i =>
    let info := ast.table_info node_index
    (ast.extraSlice (i + 2) (i + 2 + info.num_columns)).map fun raw =>
      match raw with
      | 1 => TableAlignment.left
      | 2 => TableAlignment.center
      | 3 => TableAlignment.right
      | _ => TableAlignment.none
  | _ => []

/-- The table rows window of the `Table` record (row indices after the
alignment words), modelled from the spec record layout; `Ast::children` has
no `Table` arm, so the renderer's `ast.children(table)` read is *not* this. -/
def Ast.table_rows (ast : Ast) (node_index : Nat) : List Nat :=
  let node := ast.nodes.getD node_index nullNode
  match node.data with
  | .extra i =>
    let info := ast.table_info node_index
    ast.extraSlice (i + 2 + info.num_columns) (i + 2 + info.num_columns + info.num_rows)
  | _ => []

/-! ## Renderer (src/render.rs) -/

/-- `render.rs` `struct RenderContext`. -/
structure RenderContext where
  in_list : Bool := false
  list_index : Nat := 0
  indent_level : Nat := 0
  in_jsx : Bool := false
  deriving DecidableEq, Repr

/-- `render.rs` `write_indent`: two spaces per level. -/
def writeIndent (output : List Nat) (level : Nat) : List Nat :=
  output ++ (List.replicate level [32, 32]).flatten

/-- `render.rs` `can_render_jsx_inline`. -/
def can_render_jsx_inline (ast : Ast) (children : List Nat) : Bool :=
  if children.length != 1 then false
  else
    let child := ast.nodes.getD (children.getD 0 0) nullNode
    child.tag == .text || child.tag == .mdx_text_expression

/-- `render.rs` `can_render_all_jsx_children_inline`. -/
def can_render_all_jsx_children_inline (ast : Ast) (children : List Nat) : Bool :=
  children.all fun child_idx =>
    let child := ast.nodes.getD child_idx nullNode
    child.tag == .text || child.tag == .strong || child.tag == .emphasis ||
      child.tag == .code_inline || child.tag == .link || child.tag == .image ||
      child.tag == .mdx_text_expression || child.tag == .hard_break

/-- `render.rs` `is_content_block`. -/
def is_content_block (tag : NodeTag) : Bool :=
  tag == .mdx_text_expression || tag == .mdx_flow_expression ||
    tag == .paragraph || tag == .heading || tag == .code_block ||
    tag == .blockquote || tag == .list_unordered || tag == .list_ordered ||
    tag == .table

/-- Decimal digits of a number, for `format!("{}. ", list_index)`. -/
def natToDecBytes (n : Nat) : List Nat :=
  (Nat.toDigits 10 n).map Char.toNat

/-- Left-to-right non-overlapping `str::replace`. -/
def replaceAll (pat repl : List Nat) (fuel : Nat) : List Nat → List Nat :=
  fuelRec (fun s => s) (fun ih s =>
    match s with
    | [] => []
    | c :: rest =>
      if pat.length > 0 && s.take pat.length == pat then
        repl ++ ih (s.drop pat.length)
      else c :: ih rest) fuel

/-- `render.rs` `decode_jsx_quoted_value`: trim, strip one layer of matching
quotes, process backslash escapes, then undo the four HTML entities in the
source's order. -/
def decode_jsx_quoted_value (raw : List Nat) : List Nat :=
  let trimmed := asciiTrim raw
  let inner :=
    if trimmed.length ≥ 2 &&
        ((trimmed.headD 0 == 34 && trimmed.getLastD 0 == 34) ||
          (trimmed.headD 0 == 39 && trimmed.getLastD 0 == 39)) then
      (trimmed.drop 1).take (trimmed.length - 2)
    else trimmed
  let unesc :=
    let step := fun (acc : List Nat × Bool) (ch : Nat) =>
      let (out, escaped) := acc
      if escaped then
        let mapped :=
          if ch == 110 then [10]        -- \n
          else if ch == 114 then [13]   -- \r
          else if ch == 116 then [9]    -- \t
          else if ch == 92 then [92]    -- double backslash
          else if ch == 34 then [34]
          else if ch == 39 then [39]
          else [92, ch]
        (out ++ mapped, false)
      else if ch == 92 then (out, true)
      else (out ++ [ch], false)
    let (out, escaped) := inner.foldl step ([], false)
    if escaped then out ++ [92] else out
  let f := fun (pat repl : List Nat) (s : List Nat) =>
    replaceAll pat repl (s.length + 1) s
  f (strBytes "&amp;") (strBytes "&")
    (f (strBytes "&lt;") (strBytes "<")
      (f (strBytes "&gt;") (strBytes ">")
        (f (strBytes "&quot;") [34] unesc)))

/-- `render.rs` `escape_jsx_attribute_string` — the source's four sequential
single-character replaces; since no replacement text contains a later
pattern and `&` is replaced first, one left-to-right pass is the same
function. -/
def escape_jsx_attribute_string (value : List Nat) : List Nat :=
  (value.map fun ch =>
    if ch == 38 then strBytes "&amp;"
    else if ch == 60 then strBytes "&lt;"
    else if ch == 62 then strBytes "&gt;"
    else if ch == 34 then strBytes "&quot;"
    else [ch]).flatten

/-- `render.rs` `extract_token_range_content`. -/
def extract_token_range_content (ast : Ast) (range : NRange) : List Nat :=
  if range.start ≥ range.stop then []
  else
    let start := ast.token_starts.getD range.start 0
    let stop :=
      if range.stop < ast.token_starts.length then ast.token_starts.getD range.stop 0
      else ast.source.length
    (ast.source.drop start).take (stop - start)

/-- The scanning loop of `render.rs` `extract_code_block_content`, carrying
`(i, in_code, code_start, code_end)`. -/
def codeContentScan (ast : Ast) (fuel : Nat) :
    Nat × Bool × Nat × Nat → Nat × Nat :=
  fuelRec (fun p => (p.2.2.1, p.2.2.2)) (fun ih p =>
    let (i, in_code, code_start, code_end) := p
    if i < ast.token_tags.length then
      if ast.token_tags.getD i .eof == .code_fence_end then (code_start, code_end)
      else if ast.token_tags.getD i .eof == .newline && !in_code then
        ih (i+1, true, code_start, code_end)
      else if in_code then
        let start := ast.token_starts.getD i 0
        let stop :=
          if i + 1 < ast.token_starts.length then ast.token_starts.getD (i+1) 0
          else ast.source.length
        ih (i+1, in_code, min code_start start, max code_end stop)
      else ih (i+1, in_code, code_start, code_end)
    else (code_start, code_end)) fuel

/-- `render.rs` `extract_code_block_content`. -/
def extract_code_block_content (ast : Ast) (fence_token : Nat) : List Nat :=
  let (code_start, code_end) := codeContentScan ast (ast.token_tags.length + 1)
    (fence_token, false, u32Max, 0)
  if code_start < code_end then
    (ast.source.drop code_start).take (code_end - code_start)
  else []

/-- The attribute tuples as the renderer reads them, with the four-valued
type.  Modelled from the spec: `render_jsx_attributes` matches all four
attribute types (§3's raw encoding 0-3), while the snapshot's `ast.rs`
accessor collapses them to two; the renderer's view is modelled with the §3
decoding (`0 = string, 1 = number, 2 = boolean, 3 = expression`). -/
structure JsxAttributeR where
  name_token : Nat
  value_token : Option Nat
  value_type : JsxAttributeType
  deriving DecidableEq, Repr

/-- The renderer's view of the attribute tuples (see `JsxAttributeR`). -/
def Ast.jsx_attributes_render (ast : Ast) (node_index : Nat) :
    List JsxAttributeR :=
  let elem := ast.jsx_element node_index
  let count := (elem.attrs_end - elem.attrs_start) / 3
  (List.range count).map fun k =>
    let i := elem.attrs_start + 3 * k
    { name_token := ast.extra_data.getD i 0
      value_token :=
        if ast.extra_data.getD (i+1) 0 == u32Max then none
        else some (ast.extra_data.getD (i+1) 0)
      value_type :=
        match ast.extra_data.getD (i+2) 0 with
        | 1 => JsxAttributeType.number
        | 2 => JsxAttributeType.boolean
        | 3 => JsxAttributeType.expression
        | _ => JsxAttributeType.string }

/-- A model of `f64::to_string` after `raw.parse::<f64>()` succeeded, for the
plain decimal literals the repository's documents use (no exponent, `inf` or
`nan` forms): normalizes away leading integer zeros, trailing fractional
zeros and an empty fraction, which is what Rust's shortest-roundtrip display
prints for decimals short enough to be exactly recovered.  Inputs outside
that shape are returned unchanged. -/
def f64DisplayModel (raw : List Nat) : List Nat :=
  let isDigit := fun b => 48 ≤ b && b ≤ 57
  let (sign, rest) :=
    match raw with
    | 45 :: r => ([45], r)
    | 43 :: r => ([], r)
    | _ => ([], raw)
  let intPart := rest.takeWhile isDigit
  let rest2 := rest.dropWhile isDigit
  let (fracPart, rest3) :=
    match rest2 with
    | 46 :: r => (r.takeWhile isDigit, r.dropWhile isDigit)
    | _ => ([], rest2)
  if rest3.length != 0 then raw
  else
    let intN := intPart.dropWhile (fun b => b == 48)
    let intN := if intN.length == 0 then [48] else intN
    let frac := (fracPart.reverse.dropWhile (fun b => b == 48)).reverse
    let sign := if intN == [48] && frac.length == 0 then [] else sign
    if frac.length == 0 then sign ++ intN
    else sign ++ intN ++ [46] ++ frac

/-- `render.rs` `render_jsx_attributes`. -/
def render_jsx_attributes (ast : Ast) (node_idx : Nat) (output : List Nat) :
    List Nat :=
  let attrs := ast.jsx_attributes_render node_idx
  attrs.foldl (fun output attr =>
    let output := output ++ [32]
    let output := output ++ asciiTrim (ast.token_slice attr.name_token)
    match attr.value_type with
    | .boolean =>
      match attr.value_token with
      | some val_tok =>
        let raw := asciiTrim (ast.token_slice val_tok)
        let bool_value := raw == strBytes "true"
        output ++ [61, 123] ++
          (if bool_value then strBytes "true" else strBytes "false") ++ [125]
      | Option.none => output
    | .expression =>
      let inner :=
        match attr.value_token with
        | some val_tok => asciiTrim (ast.token_slice val_tok)
        | Option.none => []
      output ++ [61, 123] ++ inner ++ [125]
    | .number =>
      let output := output ++ [61]
      match attr.value_token with
      | some val_tok =>
        let raw := asciiTrim (ast.token_slice val_tok)
        if rustF64ParseOk raw then output ++ f64DisplayModel raw
        else
          let decoded := decode_jsx_quoted_value raw
          output ++ [34] ++ escape_jsx_attribute_string decoded ++ [34]
      | Option.none => output ++ [48]
    | .string =>
      let output := output ++ [61]
      let decoded :=
        match attr.value_token with
        | some val_tok => decode_jsx_quoted_value (ast.token_slice val_tok)
        | Option.none => []
      output ++ [34] ++ escape_jsx_attribute_string decoded ++ [34]) output

/-- `render_node` and `render_table_row` (mutually recursive through node
children), packaged per fuel level; output strings are byte lists passed
and returned explicitly in place of the `&mut String`. -/
structure RenderPack where
  render_node : RenderContext → List Nat → Nat → List Nat
  render_table_row : RenderContext → List Nat → Nat → List Nat

/-- Fuel-exhaustion fallback: no output (unreachable for the fuels used on
the concrete inputs below). -/
def renderPackZero : RenderPack :=
  { render_node := fun _ output _ => output
    render_table_row := fun _ output _ => output }

/-- One unfolding of the render functions over an `Ast`. -/
def renderPackStep (ast : Ast) (ih : RenderPack) : RenderPack where
  /- `render.rs` `render_node`. -/
  render_node := fun ctx output node_idx =>
    let node := ast.nodes.getD node_idx nullNode
    match node.tag with
    | .document =>
      (ast.children node_idx).foldl (fun output c => ih.render_node ctx output c)
        output
    | .frontmatter =>
      let info := ast.frontmatter_info node_idx
      let content := extract_token_range_content ast
        { start := info.content_start, stop := info.content_end }
      let body := content ++
        (if content.length != 0 && content.getLastD 0 != 10 then [10] else [])
      match info.format with
      | .yaml => output ++ strBytes "---\n" ++ body ++ strBytes "---\n\n"
      | .json => output ++ strBytes "```hnmd\n" ++ body ++ strBytes "```\n\n"
    | .heading =>
      let info := ast.heading_info node_idx
      let output := output ++ List.replicate info.level 35 ++ [32]
      let children := ast.extraSlice info.children_start info.children_end
      let output := children.foldl (fun output c => ih.render_node ctx output c)
        output
      output ++ [10]
    | .paragraph =>
      let children := ast.children node_idx
      if children.length == 0 then output
      else
        let skip :=
          children.length == 1 &&
            (ast.nodes.getD (children.getD 0 0) nullNode).tag == .text &&
            (asciiTrim (ast.token_slice
              (ast.nodes.getD (children.getD 0 0) nullNode).main_token)).length == 0
        if skip then output
        else
          let output := children.foldl
            (fun output c => ih.render_node ctx output c) output
          if !ctx.in_jsx then output ++ [10] else output
    | .text => output ++ ast.token_slice node.main_token
    | .strong =>
      let output := output ++ strBytes "**"
      let output := (ast.children node_idx).foldl
        (fun output c => ih.render_node ctx output c) output
      output ++ strBytes "**"
    | .emphasis =>
      let output := output ++ [42]
      let output := (ast.children node_idx).foldl
        (fun output c => ih.render_node ctx output c) output
      output ++ [42]
    | .code_inline =>
      let output := output ++ [96]
      let output :=
        match node.data with
        | .token content_token => output ++ ast.token_slice content_token
        | _ => output
      output ++ [96]
    | .code_block =>
      let output := output ++ strBytes "```"
      let fence_token := node.main_token
      let output :=
        if fence_token + 1 < ast.token_tags.length &&
            ast.token_tags.getD (fence_token + 1) .eof == .text then
          let trimmed := asciiTrim (ast.token_slice (fence_token + 1))
          if trimmed.length != 0 then output ++ trimmed else output
        else output
      let output := output ++ [10]
      let code := extract_code_block_content ast fence_token
      let output := output ++ code ++
        (if code.length != 0 && code.getLastD 0 != 10 then [10] else [])
      output ++ strBytes "```\n"
    | .blockquote =>
      let output := (ast.children node_idx).foldl
        (fun output c => ih.render_node ctx (output ++ strBytes "> ") c) output
      output ++ [10]
    | .list_unordered =>
      (ast.children node_idx).foldl (fun output child_idx =>
        let child_ctx : RenderContext :=
          { in_list := true, list_index := 0
            indent_level := ctx.indent_level, in_jsx := ctx.in_jsx }
        ih.render_node child_ctx output child_idx) output
    | .list_ordered =>
      ((ast.children node_idx).foldl (fun (acc : List Nat × Nat) child_idx =>
        let (output, i) := acc
        let child_ctx : RenderContext :=
          { in_list := true, list_index := i + 1
            indent_level := ctx.indent_level, in_jsx := ctx.in_jsx }
        (ih.render_node child_ctx output child_idx, i + 1)) (output, 0)).1
    | .list_item =>
      let output := writeIndent output ctx.indent_level
      let output :=
        if ctx.list_index == 0 then output ++ strBytes "- "
        else output ++ natToDecBytes ctx.list_index ++ strBytes ". "
      let info := ast.list_item_info node_idx
      let output :=
        match info.checked with
        | some true => output ++ strBytes "[x] "
        | some false => output ++ strBytes "[ ] "
        | Option.none => output
      let output := (ast.children node_idx).foldl (fun output child_idx =>
        let child := ast.nodes.getD child_idx nullNode
        if child.tag == .paragraph then
          (ast.children child_idx).foldl
            (fun output pc => ih.render_node ctx output pc) output
        else ih.render_node ctx output child_idx) output
      output ++ [10]
    | .hr => output ++ strBytes "---\n"
    | .hard_break => output ++ strBytes "  \n"
    | .link =>
      match node.data with
      | .extra idx =>
        let text_node_raw := ast.extra_data.getD idx 0
        let url_token := ast.extra_data.getD (idx+1) 0
        let output := output ++ [91]
        let output :=
          if text_node_raw != u32Max then ih.render_node ctx output text_node_raw
          else output
        output ++ strBytes "](" ++ ast.token_slice url_token ++ [41]
      | _ => output
    | .image =>
      match node.data with
      | .extra idx =>
        let text_node_raw := ast.extra_data.getD idx 0
        let url_token := ast.extra_data.getD (idx+1) 0
        let output := output ++ strBytes "!["
        let output :=
          if text_node_raw != u32Max then ih.render_node ctx output text_node_raw
          else output
        output ++ strBytes "](" ++ ast.token_slice url_token ++ [41]
      | _ => output
    | .mdx_text_expression =>
      let output := output ++ [123]
      let output :=
        match node.data with
        | .extra idx =>
          output ++ asciiTrim (extract_token_range_content ast (ast.extra_range idx))
        | _ => output
      output ++ [125]
    | .mdx_flow_expression =>
      let output := output ++ [123]
      let output :=
        match node.data with
        | .extra idx =>
          output ++ asciiTrim (extract_token_range_content ast (ast.extra_range idx))
        | _ => output
      output ++ strBytes "\x7d\n"
    | .mdx_jsx_element =>
      let elem := ast.jsx_element node_idx
      let name := asciiTrim (ast.token_slice elem.name_token)
      let children := ast.extraSlice elem.children_start elem.children_end
      let render_inline := can_render_jsx_inline ast children ||
        can_render_all_jsx_children_inline ast children
      let output := writeIndent output ctx.indent_level
      let output := output ++ [60] ++ name
      let output := render_jsx_attributes ast node_idx output
      let output := output ++ [62]
      let output :=
        if render_inline then
          let child_ctx := { ctx with
            indent_level := ctx.indent_level + 1, in_jsx := true }
          children.foldl (fun output c => ih.render_node child_ctx output c) output
        else
          let output := output ++ [10]
          let step := fun (acc : List Nat × Bool) (p : Nat × Nat) =>
            let (output, prev_was_content_block) := acc
            let (i, child_idx) := p
            let child := ast.nodes.getD child_idx nullNode
            let is_content := is_content_block child.tag
            let output :=
              if prev_was_content_block && is_content then output ++ [10]
              else output
            let child_ctx := { ctx with
              indent_level := ctx.indent_level + 1, in_jsx := true }
            let output := ih.render_node child_ctx output child_idx
            let next_is_hard_break :=
              if i + 1 < children.length then
                (ast.nodes.getD (children.getD (i+1) 0) nullNode).tag == .hard_break
              else false
            let output :=
              if child.tag != .hard_break && !next_is_hard_break then output ++ [10]
              else output
            (output, is_content)
          let output := (children.enum.foldl step (output, false)).1
          writeIndent output ctx.indent_level
      let output := output ++ strBytes "</" ++ name ++ [62]
      if !ctx.in_jsx then output ++ [10] else output
    | .mdx_jsx_self_closing =>
      let elem := ast.jsx_element node_idx
      let name := asciiTrim (ast.token_slice elem.name_token)
      let output := writeIndent output ctx.indent_level
      let output := output ++ [60] ++ name
      let output := render_jsx_attributes ast node_idx output
      let output := output ++ strBytes " />"
      if !ctx.in_jsx then output ++ [10] else output
    | .table =>
      let alignments := ast.table_alignments node_idx
      let rows := ast.children node_idx
      if rows.length != 0 then
        let output := ih.render_table_row ctx output (rows.getD 0 0)
        let output := output ++ [124]
        let output := alignments.foldl (fun output align =>
          let output := output ++ [32]
          let output := output ++
            (match align with
             | TableAlignment.left => strBytes ":---"
             | TableAlignment.center => strBytes ":---:"
             | TableAlignment.right => strBytes "---:"
             | TableAlignment.none => strBytes "---")
          output ++ strBytes " |") output
        let output := output ++ [10]
        (rows.drop 1).foldl (fun output row_idx =>
          ih.render_table_row ctx output row_idx) output
      else output
    | .table_row => output
    | .table_cell => output
    | .mdx_jsx_fragment =>
      let output := writeIndent output ctx.indent_level
      let output := output ++ strBytes "<>\n"
      let output := (ast.children node_idx).foldl (fun output child_idx =>
        let child_ctx := { ctx with
          indent_level := ctx.indent_level + 1, in_jsx := true }
        ih.render_node child_ctx output child_idx ++ [10]) output
      let output := writeIndent output ctx.indent_level
      let output := output ++ strBytes "</>"
      if !ctx.in_jsx then output ++ [10] else output
    | _ => output ++ ast.node_source node_idx
  /- `render.rs` `render_table_row`. -/
  render_table_row := fun ctx output row_idx =>
    let cells := ast.children row_idx
    let output := output ++ [124]
    let output := cells.foldl (fun output cell_idx =>
      let output := output ++ [32]
      let output := (ast.children cell_idx).foldl
        (fun output child_idx => ih.render_node ctx output child_idx) output
      output ++ strBytes " |") output
    output ++ [10]

/-- The render functions at a given fuel level. -/
def renderPack (ast : Ast) (fuel : Nat) : RenderPack :=
  Nat.rec renderPackZero (fun _ ih => renderPackStep ast ih) fuel

/-- `render.rs` `render`: find the document node, then render its children
with blank lines between content blocks, skipping empty paragraphs. -/
def render (ast : Ast) (fuel : Nat) : List Nat :=
  let doc_idx := (List.range ast.nodes.length).find?
    (fun i => (ast.nodes.getD i nullNode).tag == .document)
  match doc_idx with
  | Option.none => []
  | some idx =>
    let children := ast.children idx
    (children.foldl (fun (acc : List Nat × Bool) child_idx =>
      let (output, last_was_content) := acc
      let child_node := ast.nodes.getD child_idx nullNode
      let skip :=
        if child_node.tag == .paragraph then
          let para_children := ast.children child_idx
          if para_children.length == 0 then true
          else if para_children.length == 1 then
            let para_child := ast.nodes.getD (para_children.getD 0 0) nullNode
            para_child.tag == .text &&
              (asciiTrim (ast.token_slice para_child.main_token)).length == 0
          else false
        else false
      if skip then (output, last_was_content)
      else
        let output := if last_was_content then output ++ [10] else output
        let output := (renderPack ast fuel).render_node {} output child_idx
        (output, child_node.tag != .frontmatter)) ([], false)).1

/-! ## Theorems -/

/-- Fuel for parsing a concrete source comfortably. -/
def parseS (s : String) : Option Ast :=
  parse ((strBytes s).length * 2 + 20) 200 (strBytes s)

/-- One unfolding of the tokenization loop. -/
theorem tokenizeLoop_succ (n : Nat) (p : TokState × List Token) :
    tokenizeLoop (n+1) p =
      (let r := p.1.next (tokFuel p.1)
       if r.2.tag == .eof then some (p.2 ++ [r.2])
       else tokenizeLoop n (r.1, p.2 ++ [r.2])) := rfl

/-- If one `next` call returns a non-`Eof` token and leaves the tokenizer
state unchanged, the tokenization loop never finishes, with any fuel. -/
theorem tokenizeLoop_stuck (st : TokState) (tok : Token)
    (h : st.next (tokFuel st) = (st, tok)) (hne : (tok.tag == Tag.eof) = false) :
    ∀ fuel acc, tokenizeLoop fuel (st, acc) = none := by
  intro fuel
  induction fuel with
  | zero => intro acc; rfl
  | succ n ihn =>
    intro acc
    rw [tokenizeLoop_succ]
    simp only [h, hne]
    exact ihn (acc ++ [tok])

/-- C1: the claim says every input — including `<<<<<<` — tokenizes to `Eof`
and parses to an Ast.  The code does not: on a `<` that does not open a JSX
construct (`is_jsx_start` false, e.g. when another `<` follows), `text`
stops immediately at the structural byte `<` and `next` returns a zero-width
`Text` token with the tokenizer state unchanged, so the tokenization loop of
`parse` never reaches `Eof` and `parse` never returns.  First conjunct: the
stuck step on `"<<<<<<"` (state returned unchanged, zero-width non-`Eof`
token); second: no amount of fuel makes `parse` return.  The repository's
own tests (`tests/pathological_fixtures.rs`, `double_angle_variations`)
require `parse` to finish on exactly this input, so this is a bug in the
code, not the claim. -/
theorem c1_parse_diverges_on_angle_flood :
    ((TokState.new (strBytes "<<<<<<")).next
        (tokFuel (TokState.new (strBytes "<<<<<<"))) =
      (TokState.new (strBytes "<<<<<<"),
        { tag := .text, loc := { start := 0, stop := 0 } })) ∧
    (∀ tfuel pfuel, parse tfuel pfuel (strBytes "<<<<<<") = none) := by
  have hstep : (TokState.new (strBytes "<<<<<<")).next
      (tokFuel (TokState.new (strBytes "<<<<<<"))) =
      (TokState.new (strBytes "<<<<<<"),
        { tag := .text, loc := { start := 0, stop := 0 } }) := by decide
  refine ⟨hstep, fun tfuel pfuel => ?_⟩
  have h := tokenizeLoop_stuck _ _ hstep (by decide) tfuel []
  simp only [parse, tokenize, h]

/-- C4: the claim says `children` dereferences the stored
children offsets for all `Extra`-backed nodes — heading, JSX element, list
item and table.  It does for heading and JSX element, but `ListItem` is
grouped into the `Children(range)` arm of the `match` while the parser
stores its payload as `Extra`, and `Table` has no arm at all, so both fall
back to the empty slice.  On `"- [ ] **bold** task\n"` (the input of the
repository's own test `checkbox_preserves_inline_formatting`, which asserts
the item's children contain the `Strong` node) the list-item node 1 stores
the children window `[1, 3)` whose entries are nodes 2 (`Strong`) and 4
(`Text`), yet `children` answers `[]`; the heading and JSX-element cases of
the claim do hold, as the second computation shows. -/
theorem c4_children_accessor_drops_list_item_children :
    ((parseS "- [ ] **bold** task\n").map (fun ast =>
      ((ast.nodes.getD 1 nullNode).tag,
        (ast.list_item_info 1).children_start,
        (ast.list_item_info 1).children_end,
        ast.extraSlice 1 3,
        (ast.nodes.getD 2 nullNode).tag,
        ast.children 1)) =
      some (.list_item, 1, 3, [2, 4], .strong, [])) ∧
    ((parseS "# He\n").map (fun ast =>
      ((ast.nodes.getD 0 nullNode).tag, ast.children 0,
        (ast.nodes.getD 1 nullNode).tag)) =
      some (.heading, [1], .text)) := by
  constructor
  · decide
  · decide

set_option synthInstance.maxSize 4096 in
set_option maxHeartbeats 4000000 in
/-- C6: parsing
`"<Widget count=4 enabled label=\"ok\" ratio=-1.5 expr={state.count} />"`
yields zero errors and exactly one `MdxJsxSelfClosing` node (plus the
document) named `Widget`, whose five stored attribute tuples are
`count`/number, `enabled`/boolean with absent value (`u32::MAX` sentinel),
`label`/string, `ratio`/number and `expr`/expression — raw type words
`1, 2, 0, 1, 3`; unquoted values infer boolean for `true`/`false`, number
for decimal parses, string otherwise (second computation). -/
theorem c6_jsx_attribute_value_typing :
    ((parseS "<Widget count=4 enabled label=\"ok\" ratio=-1.5 expr={state.count} />").map
      (fun ast =>
        (ast.errors, ast.nodes.map Node.tag,
          asciiTrim (ast.token_slice (ast.jsx_element 0).name_token),
          ast.extraSlice (ast.jsx_element 0).attrs_start (ast.jsx_element 0).attrs_end,
          (ast.jsx_attributes_render 0).map (fun a =>
            (asciiTrim (ast.token_slice a.name_token), a.value_type,
              a.value_token.map (fun v => asciiTrim (ast.token_slice v)))))) =
      some ([], [.mdx_jsx_self_closing, .document], strBytes "Widget",
        [2, 4, 1, 5, u32Max, 2, 6, 8, 0, 9, 11, 1, 12, 15, 3],
        [(strBytes "count", .number, some (strBytes "4")),
         (strBytes "enabled", .boolean, none),
         (strBytes "label", .string, some (strBytes "\"ok\"")),
         (strBytes "ratio", .number, some (strBytes "-1.5")),
         (strBytes "expr", .expression, some (strBytes "state.count"))])) ∧
    (infer_unquoted_jsx_value_type (strBytes "true") = .boolean ∧
      infer_unquoted_jsx_value_type (strBytes "false") = .boolean ∧
      infer_unquoted_jsx_value_type (strBytes "4") = .number ∧
      infer_unquoted_jsx_value_type (strBytes "-1.5") = .number ∧
      infer_unquoted_jsx_value_type (strBytes "ok") = .string) := by
  constructor
  · decide
  · decide

/-- C9: render/parse is claimed idempotent after one cycle for every source.
It is not: the blockquote arm of `render_node` writes `"> "` before *every*
child, so a blockquote with two inline children gains one more `"> "` per
cycle.  For `s = "> a *b*\n"`: `render(parse(s)) = "> a > *b*\n"` but
`render(parse(render(parse(s)))) = "> a > > *b*\n"`.  The spec's renderer
contract (§6) is the clear intent — one `"> "` per quoted line — so the
code, not the claim, is at fault. -/
theorem c9_render_not_idempotent_on_blockquote :
    ((parseS "> a *b*\n").map (fun ast => render ast 40) =
      some (strBytes "> a > *b*\n")) ∧
    ((parseS "> a > *b*\n").map (fun ast => render ast 40) =
      some (strBytes "> a > > *b*\n")) ∧
    strBytes "> a > > *b*\n" ≠ strBytes "> a > *b*\n" := by
  refine ⟨by decide, by decide, by decide⟩

/-- C10: `Ast::jsx_attributes` reads a stored `value_type` word of `0` as
`Literal` and anything non-zero as `Expression`; since the parser encodes
string/number/boolean/expression as `0/1/2/3` (first conjunct), the
number-typed and boolean-typed attributes of the `Widget` example decode as
`Expression` just like the expression-typed one, so the four stored types
collapse to two through this accessor. -/
theorem c10_jsx_attributes_collapse_value_types :
    (jsx_attr_type_to_raw .string = 0 ∧ jsx_attr_type_to_raw .number = 1 ∧
      jsx_attr_type_to_raw .boolean = 2 ∧ jsx_attr_type_to_raw .expression = 3) ∧
    ((parseS "<Widget count=4 enabled label=\"ok\" ratio=-1.5 expr={state.count} />").map
      (fun ast => (ast.jsx_attributes 0).map JsxAttribute.value_type) =
      some [.expression, .expression, .literal, .expression, .expression]) := by
  exact ⟨by decide, by decide⟩

/-- One unfolding of `skipTokensWhile`. -/
theorem skipTokensWhile_succ (p : Tag → Bool) (n : Nat) (st : PState) :
    skipTokensWhile p (n+1) st =
      (if p st.current_tag then
        skipTokensWhile p n { st with token_index := st.token_index + 1 }
      else st) := rfl

/-- `skipTokensWhile` only moves `token_index`. -/
theorem skipTokensWhile_shape (p : Tag → Bool) :
    ∀ (fuel : Nat) (st : PState),
      ∃ i, skipTokensWhile p fuel st = { st with token_index := i } := by
  intro fuel
  induction fuel with
  | zero => intro st; exact ⟨st.token_index, rfl⟩
  | succ n ihn =>
    intro st
    rw [skipTokensWhile_succ]
    by_cases h : p st.current_tag
    · simp only [h, if_true]
      obtain ⟨i, hi⟩ := ihn { st with token_index := st.token_index + 1 }
      exact ⟨i, hi⟩
    · simp only [h, if_false]
      exact ⟨st.token_index, rfl⟩

/-- The mismatched-close-tag behavior of `parse_jsx_element` (its closing
sequence `parse_jsx_element_close`): when the current token is `</` followed
by an identifier whose trimmed slice differs from the opening name, the
parser records `mismatched_tags` at the `</` token and fails without adding
a node. -/
theorem close_mismatch_general (st : PState) (ob nm : Nat)
    (open_name : List Nat) (as ae : Nat) (span : NRange)
    (h1 : st.current_tag = .jsx_close_tag)
    (h2 : st.peek_token 1 = .jsx_identifier)
    (h3 : asciiTrim (st.token_slice (st.token_index + 1)) ≠ open_name)
    (h4 : st.errors.length < MAX_PARSE_ERRORS) :
    (st.parse_jsx_element_close ob nm open_name as ae span).2 = none ∧
    (st.parse_jsx_element_close ob nm open_name as ae span).1.nodes = st.nodes ∧
    (st.parse_jsx_element_close ob nm open_name as ae span).1.errors =
      st.errors ++
        [⟨.mismatched_tags, st.token_index,
          st.byte_offset_for_token st.token_index⟩] := by
  have e1 : st.expect_token .jsx_close_tag =
      ({ st with token_index := st.token_index + 1 }, some st.token_index) := by
    simp [PState.expect_token, PState.eat_token, h1]
  have h2' : ({ st with token_index := st.token_index + 1 } : PState).current_tag =
      Tag.jsx_identifier := by
    simpa [PState.current_tag, PState.peek_token] using h2
  have e2 : ({ st with token_index := st.token_index + 1 } : PState).expect_token
        .jsx_identifier =
      ({ st with token_index := st.token_index + 1 + 1 }, some (st.token_index + 1)) := by
    simp [PState.expect_token, PState.eat_token, h2']
  have h3'' : (asciiTrim (tokenSliceOf st.source st.token_starts
      (st.token_index + 1)) != open_name) = true := by
    simp only [PState.token_slice] at h3
    exact bne_iff_ne.mpr h3
  have h4'' : (st.errors.length ≥ MAX_PARSE_ERRORS) = False :=
    eq_false (Nat.not_le.mpr h4)
  unfold PState.parse_jsx_element_close
  simp only [e1, e2, PState.token_slice, h3'', if_true, PState.warn_at, h4'',
    if_false, PState.byte_offset_for_token]
  refine ⟨?_, ?_, ?_⟩ <;> simp only [PState.eat_token] <;> (repeat' split) <;> simp

/-- A state about to read `</Card>` while the open element is named `Body`. -/
def mismatchSt : PState :=
  { source := strBytes "</Card>"
    token_tags := [.jsx_close_tag, .jsx_identifier, .jsx_tag_end, .eof]
    token_starts := [0, 2, 6, 7], token_index := 0, nodes := []
    extra_data := [], scratch := [], errors := [] }

/-- C3: a JSX element whose close tag's trimmed identifier differs from the
opening name records `mismatched_tags` at the close-tag token and the
partially built element is not emitted (first conjunct, over any parser
state at the closing sequence).  In particular `"<Card><Body>hi</Card>"`
yields exactly one error, of kind `mismatched_tags`, at token 7 with
`byte_offset` 14 — the byte index of `</Card>` in the source, as the third
conjunct exhibits — and the node vector contains no `MdxJsxElement` or
`MdxJsxSelfClosing` node at all (neither `Card` nor `Body`). -/
theorem c3_mismatched_close_tag :
    (∀ (st : PState) (ob nm : Nat) (open_name : List Nat) (as ae : Nat)
      (span : NRange),
      st.current_tag = .jsx_close_tag →
      st.peek_token 1 = .jsx_identifier →
      asciiTrim (st.token_slice (st.token_index + 1)) ≠ open_name →
      st.errors.length < MAX_PARSE_ERRORS →
      (st.parse_jsx_element_close ob nm open_name as ae span).2 = none ∧
      (st.parse_jsx_element_close ob nm open_name as ae span).1.nodes = st.nodes ∧
      (st.parse_jsx_element_close ob nm open_name as ae span).1.errors =
        st.errors ++
          [⟨.mismatched_tags, st.token_index,
            st.byte_offset_for_token st.token_index⟩]) ∧
    ((parseS "<Card><Body>hi</Card>").map (fun ast =>
      (ast.errors, ast.nodes.map Node.tag)) =
      some ([⟨.mismatched_tags, 7, 14⟩], [.text, .document])) ∧
    ((strBytes "<Card><Body>hi</Card>").drop 14).take 7 = strBytes "</Card>" := by
  refine ⟨fun st ob nm open_name as ae span h1 h2 h3 h4 =>
    close_mismatch_general st ob nm open_name as ae span h1 h2 h3 h4,
    by decide, by decide⟩

/-- Witness for C3: the general conjunct applied to the concrete state
`mismatchSt` (about to read `</Card>` with open name `Body`), hypotheses
discharged by `decide`. -/
theorem c3_mismatched_close_tag_witness :
    (mismatchSt.parse_jsx_element_close 0 0 (strBytes "Body") 0 0
      { start := 0, stop := 0 }).2 = none ∧
    (mismatchSt.parse_jsx_element_close 0 0 (strBytes "Body") 0 0
      { start := 0, stop := 0 }).1.nodes = mismatchSt.nodes ∧
    (mismatchSt.parse_jsx_element_close 0 0 (strBytes "Body") 0 0
      { start := 0, stop := 0 }).1.errors =
      mismatchSt.errors ++
        [⟨.mismatched_tags, mismatchSt.token_index,
          mismatchSt.byte_offset_for_token mismatchSt.token_index⟩] :=
  c3_mismatched_close_tag.1 mismatchSt 0 0 (strBytes "Body") 0 0
    { start := 0, stop := 0 } (by decide) (by decide) (by decide) (by decide)

/-- `eat_token` only (possibly) moves `token_index`. -/
theorem eat_token_shape (st : PState) (tag : Tag) :
    ∃ i, (st.eat_token tag).1 = { st with token_index := i } := by
  unfold PState.eat_token
  split
  · exact ⟨st.token_index + 1, rfl⟩
  · exact ⟨st.token_index, rfl⟩

/-- The unclosed-frontmatter behavior of `parse_yaml_frontmatter`: when the
content scan stops (at `Eof`) without finding the closing `Hr`, the parser
records `unclosed_frontmatter` at the token where scanning stopped — not at
the opening marker — and fails without emitting a node. -/
theorem unclosed_frontmatter_general (st stS : PState) (start_token : Nat)
    (hs : skipTokensWhile (fun t => t != .hr && t != .eof)
      ((st.eat_token .newline).1.token_tags.length + 1)
      (st.eat_token .newline).1 = stS)
    (h1 : stS.current_tag ≠ .hr)
    (h4 : st.errors.length < MAX_PARSE_ERRORS) :
    st.parse_yaml_frontmatter start_token = (stS.warn .unclosed_frontmatter, none) ∧
    (st.parse_yaml_frontmatter start_token).1.nodes = st.nodes ∧
    (st.parse_yaml_frontmatter start_token).1.errors =
      st.errors ++
        [⟨.unclosed_frontmatter, stS.token_index,
          stS.byte_offset_for_token stS.token_index⟩] := by
  obtain ⟨i, hi⟩ := eat_token_shape st .newline
  obtain ⟨j, hj⟩ := skipTokensWhile_shape
    (fun t => t != .hr && t != .eof)
    ((st.eat_token .newline).1.token_tags.length + 1) (st.eat_token .newline).1
  have hSfields : stS = { st with token_index := j } := by
    rw [← hs, hj, hi]
  have h1' : (stS.current_tag != Tag.hr) = true := bne_iff_ne.mpr h1
  have hmain : st.parse_yaml_frontmatter start_token =
      (stS.warn .unclosed_frontmatter, none) := by
    unfold PState.parse_yaml_frontmatter
    rcases he : st.eat_token .newline with ⟨st1, r⟩
    have hs' : skipTokensWhile (fun t => t != .hr && t != .eof)
        (st1.token_tags.length + 1) st1 = stS := by
      rw [← hs, he]
    simp only [hs', h1', if_true]
  have hlen : ¬ MAX_PARSE_ERRORS ≤ st.errors.length := Nat.not_le.mpr h4
  refine ⟨hmain, ?_, ?_⟩
  · rw [hmain]
    simp [PState.warn, PState.warn_at, hSfields, hlen]
  · rw [hmain]
    simp [PState.warn, PState.warn_at, hSfields, hlen,
      PState.byte_offset_for_token]

/-- C5 counterexample: the claim locates the `unclosed_frontmatter` error at
the opening `---` (token 0, byte offset 0).  On `"---\ntitle: x"` — which
opens frontmatter at offset 0 and never closes it — the error is recorded at
token 3 (the `Eof` token) with `byte_offset` 12, the end of the source, not
at the opening marker. -/
theorem c5_error_not_at_opening_marker :
    ((parseS "---\ntitle: x").map (fun ast =>
      (ast.errors, ast.token_tags.getD 0 .eof, ast.token_starts.getD 0 1,
        ast.token_tags.getD 3 .eof, ast.source.length)) =
      some ([⟨.unclosed_frontmatter, 3, 12⟩], .frontmatter_start, 0, .eof, 12)) ∧
    ((parseS "---\ntitle: x").map (fun ast =>
      ast.errors.map PError.byte_offset) ≠ some [0]) := by
  exact ⟨by decide, by decide⟩

/-- C5 (amended): for a source that opens frontmatter with no closing
marker, parse records `unclosed_frontmatter` at the token where the content
scan stopped — the end of input, with `byte_offset` the source length — not
at the opening marker, and no `Frontmatter` node is emitted.  First
conjunct: general, over any parser state in `parse_yaml_frontmatter` whose
content scan fails to find an `Hr`; second: the concrete input
`"---\ntitle: x"` yields exactly that error at the `Eof` token and a node
vector with no `Frontmatter` node. -/
theorem c5_unclosed_frontmatter_at_scan_end :
    (∀ (st stS : PState) (start_token : Nat),
      skipTokensWhile (fun t => t != .hr && t != .eof)
        ((st.eat_token .newline).1.token_tags.length + 1)
        (st.eat_token .newline).1 = stS →
      stS.current_tag ≠ .hr →
      st.errors.length < MAX_PARSE_ERRORS →
      st.parse_yaml_frontmatter start_token =
        (stS.warn .unclosed_frontmatter, none) ∧
      (st.parse_yaml_frontmatter start_token).1.nodes = st.nodes ∧
      (st.parse_yaml_frontmatter start_token).1.errors =
        st.errors ++
          [⟨.unclosed_frontmatter, stS.token_index,
            stS.byte_offset_for_token stS.token_index⟩]) ∧
    ((parseS "---\ntitle: x").map (fun ast =>
      (ast.errors, ast.nodes.map Node.tag, ast.source.length)) =
      some ([⟨.unclosed_frontmatter, 3, 12⟩], [.document], 12)) := by
  exact ⟨fun st stS start_token hs h1 h4 =>
    unclosed_frontmatter_general st stS start_token hs h1 h4, by decide⟩

/-- A parser state whose frontmatter content never closes (no `Hr` before
`Eof`). -/
def unclosedFmSt : PState :=
  { source := strBytes "---\nt"
    token_tags := [.frontmatter_start, .newline, .text, .eof]
    token_starts := [0, 3, 4, 5], token_index := 1, nodes := []
    extra_data := [], scratch := [], errors := [] }

/-- Witness for C5's general conjunct, applied at `unclosedFmSt` with the
hypotheses discharged by `decide` and `rfl`. -/
theorem c5_unclosed_frontmatter_witness :
    unclosedFmSt.parse_yaml_frontmatter 0 =
      ((skipTokensWhile (fun t => t != .hr && t != .eof)
        ((unclosedFmSt.eat_token .newline).1.token_tags.length + 1)
        (unclosedFmSt.eat_token .newline).1).warn .unclosed_frontmatter, none) ∧
    (unclosedFmSt.parse_yaml_frontmatter 0).1.nodes = unclosedFmSt.nodes ∧
    (unclosedFmSt.parse_yaml_frontmatter 0).1.errors =
      unclosedFmSt.errors ++
        [⟨.unclosed_frontmatter,
          (skipTokensWhile (fun t => t != .hr && t != .eof)
            ((unclosedFmSt.eat_token .newline).1.token_tags.length + 1)
            (unclosedFmSt.eat_token .newline).1).token_index,
          (skipTokensWhile (fun t => t != .hr && t != .eof)
            ((unclosedFmSt.eat_token .newline).1.token_tags.length + 1)
            (unclosedFmSt.eat_token .newline).1).byte_offset_for_token
            ((skipTokensWhile (fun t => t != .hr && t != .eof)
              ((unclosedFmSt.eat_token .newline).1.token_tags.length + 1)
              (unclosedFmSt.eat_token .newline).1).token_index)⟩] :=
  c5_unclosed_frontmatter_at_scan_end.1 unclosedFmSt _ 0 rfl (by decide) (by decide)

/-- `Tokenizer::text` only ever returns a `Text` or `HardBreak` token. -/
theorem text_tag (st : TokState) (start : Nat) :
    (st.text start).2.tag = .text ∨ (st.text start).2.tag = .hard_break := by
  simp only [TokState.text]
  generalize textLoop (st.buffer.length + 1) st = st1
  simp only [TokState.make_token]
  split
  · split
    · split <;> simp
    · split
      · split <;> simp
      · simp
  · simp


theorem nextPack_succ (n : Nat) : nextPack (n+1) = nextPackStep (nextPack n) := rfl

theorem next_succ (st : TokState) (n : Nat) :
    st.next (n+1) =
      (match st.pending_token with
      | some tok => ({ st with pending_token := none }, tok)
      | none =>
        match st.mode with
        | .markdown => (nextPack n).next_markdown st
        | .jsx => (nextPack n).next_jsx st
        | .expression => st.next_expression
        | .inlineCode => st.next_inline_code
        | .codeBlock => st.next_code_block) := rfl

theorem next_markdown_succ (st : TokState) (n : Nat) :
    (nextPack (n+1)).next_markdown st =
      (if st.index ≥ st.buffer.length then (st, st.make_token .eof st.index)
      else if st.index == st.line_start then
        (nextPack n).next_markdown_sol st st.index
      else (nextPack n).next_markdown_inline st st.index) := rfl

theorem next_markdown_sol_succ (st : TokState) (start : Nat) (n : Nat) :
    (nextPack (n+1)).next_markdown_sol st start =
      (
      let c := st.buf st.index
      if c == 0 then (st, st.make_token .eof start)
      else if c == 10 then
        let st := { st with index := st.index + 1 }
        let st := { st with line_start := st.index }
        (st, st.make_token .blank_line start)
      else if c == 35 then  -- '#'
        if st.is_keycap_emoji_start start then (nextPack n).next_markdown_inline st start
        else
          let st := { st with index := st.index + 1 }
          let st := { st with
            index := runWhile st.buffer (fun b => b == 35) (st.buffer.length + 1)
              st.index }
          let st := if st.buf st.index == 32 then { st with index := st.index + 1 } else st
          (st, st.make_token .heading_start start)
      else if c == 45 || c == 42 || c == 95 then  -- '-' '*' '_'
        if c == 42 && st.is_keycap_emoji_start start then
          (nextPack n).next_markdown_inline st start
        else
          let st := { st with index := st.index + 1 }
          st.hr_or_frontmatter start c
      else if c == 96 then  -- '`'
        if st.peek_ahead [96, 96, 96] then
          let st := { st with index := st.index + 3 }
          let st := st.push_mode .codeBlock
          (st, st.make_token .code_fence_start start)
        else (nextPack n).next_markdown_inline st start
      else if c == 62 then  -- '>'
        let st := { st with index := st.index + 1 }
        let st := if st.buf st.index == 32 then { st with index := st.index + 1 } else st
        (st, st.make_token .blockquote_start start)
      else if c == 32 || c == 9 then
        let indent_start := st.index
        let st := { st with
          index := runWhile st.buffer (fun b => b == 32 || b == 9)
            (st.buffer.length + 1) st.index }
        (st, st.make_token .indent indent_start)
      else if 48 ≤ c && c ≤ 57 then
        if st.is_keycap_emoji_start start then (nextPack n).next_markdown_inline st start
        else
          let temp_index := runWhile st.buffer (fun b => 48 ≤ b && b ≤ 57)
            (st.buffer.length + 1) st.index
          if decide (temp_index < st.buffer.length) &&
              st.buf temp_index == 46 &&
              decide (temp_index + 1 < st.buffer.length) &&
              st.buf (temp_index + 1) == 32 then
            let st := { st with index := temp_index + 2 }
            let st := st.try_checkbox
            (st, st.make_token .list_item_ordered start)
          else (nextPack n).next_markdown_inline st start
      else (nextPack n).next_markdown_inline st start) := rfl

theorem next_markdown_inline_succ (st : TokState) (start : Nat) (n : Nat) :
    (nextPack (n+1)).next_markdown_inline st start =
      (
      let c := st.buf st.index
      if c == 0 then (st, st.make_token .eof start)
      else if c == 10 then
        let st := { st with index := st.index + 1 }
        let st := { st with line_start := st.index }
        (st, st.make_token .newline start)
      else if c == 92 then  -- '\'
        if decide (st.index + 1 < st.buffer.length) && st.buf (st.index + 1) == 10 then
          let st := { st with index := st.index + 2 }
          let st := { st with line_start := st.index }
          (st, st.make_token .hard_break start)
        else st.text start
      else if c == 32 then
        let temp_idx := runWhile st.buffer (fun b => b == 32)
          (st.buffer.length + 1) st.index
        let space_count := temp_idx - st.index
        if space_count ≥ 2 && decide (temp_idx < st.buffer.length) &&
            st.buf temp_idx == 10 then
          let st := { st with index := temp_idx + 1 }
          let st := { st with line_start := st.index }
          (st, st.make_token .hard_break start)
        else st.text start
      else if c == 123 then  -- '{'
        let st := { st with index := st.index + 1 }
        let st := st.push_mode .expression
        (st, st.make_token .expr_start start)
      else if c == 60 then  -- '<'
        if st.is_jsx_start then
          let st := st.push_mode .jsx
          (nextPack n).next_jsx st
        else st.text start
      else if c == 42 then  -- '*'
        if st.is_keycap_emoji_start start then st.text start
        else
          let st := { st with index := st.index + 1 }
          st.maybe_strong_or_emphasis start
      else if c == 96 then  -- '`'
        let st := { st with index := st.index + 1 }
        let st := st.push_mode .inlineCode
        (st, st.make_token .code_inline_start start)
      else if c == 91 then  -- '['
        let st := { st with index := st.index + 1 }
        let st := { st with after_link_text := false }
        (st, st.make_token .link_start start)
      else if c == 93 then  -- ']'
        let st := { st with index := st.index + 1 }
        if st.buf st.index == 40 then
          let st := { st with after_link_text := true }
          (st, st.make_token .link_end start)
        else
          let st := { st with after_link_text := false }
          st.text start
      else if c == 40 then  -- '('
        if st.after_link_text then
          let st := { st with index := st.index + 1 }
          let st := { st with after_link_text := false, in_link_url := true }
          (st, st.make_token .link_url_start start)
        else st.text start
      else if c == 41 then  -- ')'
        if st.in_link_url then
          let st := { st with index := st.index + 1 }
          let st := { st with in_link_url := false }
          (st, st.make_token .link_url_end start)
        else st.text start
      else if c == 33 then  -- '!'
        if decide (st.index + 1 < st.buffer.length) && st.buf (st.index + 1) == 91 then
          let st := { st with index := st.index + 2 }
          (st, st.make_token .image_start start)
        else
          let st := { st with index := st.index + 1 }
          st.text start
      else st.text start) := rfl

theorem keycap_sol (st : TokState) (fuel : Nat)
    (hm : st.mode = .markdown) (hp : st.pending_token = none)
    (hls : st.index = st.line_start) (hlen : st.index < st.buffer.length)
    (hk : st.is_keycap_emoji_start st.index = true) :
    st.next (fuel+4) = st.text st.index := by
  have hguard : ((48 ≤ st.buf st.index && st.buf st.index ≤ 57) ||
      st.buf st.index == 35 || st.buf st.index == 42) = true := by
    by_contra hng
    simp only [Bool.not_eq_true] at hng
    simp only [TokState.is_keycap_emoji_start, hng] at hk
    simp at hk
  have hle : ¬ st.index ≥ st.buffer.length := Nat.not_le.mpr hlen
  have hlsb : (st.index == st.line_start) = true := by simp [hls]
  rw [show fuel + 4 = (fuel + 3) + 1 by omega, next_succ]
  simp only [hp, hm]
  rw [show fuel + 3 = (fuel + 2) + 1 by omega, next_markdown_succ]
  rw [if_neg hle]
  simp only [hlsb, if_true]
  rw [show fuel + 2 = (fuel + 1) + 1 by omega, next_markdown_sol_succ]
  rw [Bool.or_assoc] at hguard
  rcases Bool.or_eq_true_iff.mp hguard with hd | h
  · obtain ⟨h48, h57⟩ := Bool.and_eq_true_iff.mp hd
    rw [decide_eq_true_iff] at h48 h57
    have e0 : (st.buf st.index == 0) = false := by
      rw [beq_eq_false_iff_ne]; omega
    have e10 : (st.buf st.index == 10) = false := by
      rw [beq_eq_false_iff_ne]; omega
    have e35 : (st.buf st.index == 35) = false := by
      rw [beq_eq_false_iff_ne]; omega
    have e45 : (st.buf st.index == 45) = false := by
      rw [beq_eq_false_iff_ne]; omega
    have e42 : (st.buf st.index == 42) = false := by
      rw [beq_eq_false_iff_ne]; omega
    have e95 : (st.buf st.index == 95) = false := by
      rw [beq_eq_false_iff_ne]; omega
    have e96 : (st.buf st.index == 96) = false := by
      rw [beq_eq_false_iff_ne]; omega
    have e62 : (st.buf st.index == 62) = false := by
      rw [beq_eq_false_iff_ne]; omega
    have e32 : (st.buf st.index == 32) = false := by
      rw [beq_eq_false_iff_ne]; omega
    have e9 : (st.buf st.index == 9) = false := by
      rw [beq_eq_false_iff_ne]; omega
    have e92 : (st.buf st.index == 92) = false := by
      rw [beq_eq_false_iff_ne]; omega
    have e123 : (st.buf st.index == 123) = false := by
      rw [beq_eq_false_iff_ne]; omega
    have e60 : (st.buf st.index == 60) = false := by
      rw [beq_eq_false_iff_ne]; omega
    have e91 : (st.buf st.index == 91) = false := by
      rw [beq_eq_false_iff_ne]; omega
    have e93 : (st.buf st.index == 93) = false := by
      rw [beq_eq_false_iff_ne]; omega
    have e40 : (st.buf st.index == 40) = false := by
      rw [beq_eq_false_iff_ne]; omega
    have e41 : (st.buf st.index == 41) = false := by
      rw [beq_eq_false_iff_ne]; omega
    have e33 : (st.buf st.index == 33) = false := by
      rw [beq_eq_false_iff_ne]; omega
    simp only [e0, e10, e35, e45, e42, e95, hd, hk, e96, e62, e32, e9]
    simp
    rw [next_markdown_inline_succ]
    simp [e0, e10, e92, e32, e123, e60, e42, e96, e91, e93, e40, e41, e33]
  · rcases Bool.or_eq_true_iff.mp h with h35 | h42
    · have hc : st.buf st.index = 35 := by
        have := h35; rwa [beq_iff_eq] at this
      simp only [hc, hk]
      simp
      rw [next_markdown_inline_succ]
      simp [hc, hk]
    · have hc : st.buf st.index = 42 := by
        have := h42; rwa [beq_iff_eq] at this
      simp only [hc, hk]
      simp
      rw [next_markdown_inline_succ]
      simp [hc, hk]

/-- The inline `*` handler's keycap guard: mid-line, a `*` that starts a
keycap sequence is scanned as text, not as an emphasis/strong marker. -/
theorem keycap_inline (st : TokState) (fuel : Nat)
    (hm : st.mode = .markdown) (hp : st.pending_token = none)
    (hnls : st.index ≠ st.line_start) (hlen : st.index < st.buffer.length)
    (hb : st.buf st.index = 42)
    (hk : st.is_keycap_emoji_start st.index = true) :
    st.next (fuel+3) = st.text st.index := by
  have hle : ¬ st.index ≥ st.buffer.length := Nat.not_le.mpr hlen
  have hlsb : (st.index == st.line_start) = false := by simp [hnls]
  rw [show fuel + 3 = (fuel + 2) + 1 by omega, next_succ]
  simp only [hp, hm]
  rw [show fuel + 2 = (fuel + 1) + 1 by omega, next_markdown_succ]
  rw [if_neg hle]
  simp only [hlsb]
  simp
  rw [next_markdown_inline_succ]
  simp [hb, hk]

/-- C7: a keycap emoji sequence (`[0-9*#]`, optional U+FE0F, U+20E3) at the
start of a line is scanned by `text` — so the emitted token is a `Text` (or
trailing-space `HardBreak`) token, never `HeadingStart`, `EmphasisStart` or
`ListItemOrdered` (first conjunct, over every markdown-mode tokenizer state
at a line start); the inline `*` handler observes the same guard (second
conjunct); and parsing `"#️⃣ h\n*️⃣ s\n3️⃣ t\n"` produces only text tokens
and no Heading, Emphasis or ordered-list node (third conjunct). -/
theorem c7_keycap_never_structural :
    (∀ (st : TokState) (fuel : Nat),
      st.mode = .markdown → st.pending_token = none →
      st.index = st.line_start → st.index < st.buffer.length →
      st.is_keycap_emoji_start st.index = true →
      (st.next (fuel+4)).2.tag ≠ .heading_start ∧
      (st.next (fuel+4)).2.tag ≠ .emphasis_start ∧
      (st.next (fuel+4)).2.tag ≠ .list_item_ordered) ∧
    (∀ (st : TokState) (fuel : Nat),
      st.mode = .markdown → st.pending_token = none →
      st.index ≠ st.line_start → st.index < st.buffer.length →
      st.buf st.index = 42 → st.is_keycap_emoji_start st.index = true →
      (st.next (fuel+3)).2.tag ≠ .heading_start ∧
      (st.next (fuel+3)).2.tag ≠ .emphasis_start ∧
      (st.next (fuel+3)).2.tag ≠ .list_item_ordered) ∧
    ((parseS "#️⃣ h\n*️⃣ s\n3️⃣ t\n").map (fun ast =>
      (ast.errors.length, ast.nodes.map Node.tag,
        ast.token_tags.all (fun t => t == .text || t == .newline || t == .eof))) =
      some (0, [.paragraph, .text, .text, .text, .document], true)) := by
  refine ⟨?_, ?_, by decide⟩
  · intro st fuel hm hp hls hlen hk
    rw [keycap_sol st fuel hm hp hls hlen hk]
    rcases text_tag st st.index with h | h <;> rw [h] <;> exact ⟨by decide, by decide, by decide⟩
  · intro st fuel hm hp hnls hlen hb hk
    rw [keycap_inline st fuel hm hp hnls hlen hb hk]
    rcases text_tag st st.index with h | h <;> rw [h] <;> exact ⟨by decide, by decide, by decide⟩

/-- A tokenizer state mid-line at a `*`-keycap sequence. -/
def keycapInlineSt : TokState :=
  { buffer := strBytes "a*️⃣", index := 1, line_start := 0, mode := .markdown
    mode_stack := [], strong_depth := 0, emphasis_depth := 0
    after_link_text := false, in_link_url := false, pending_token := none }

/-- Witness for C7: the two general conjuncts applied at concrete keycap
states (`#️⃣x` at a line start and `a*️⃣` mid-line), hypotheses discharged
by `decide`. -/
theorem c7_keycap_never_structural_witness :
    (((TokState.new (strBytes "#️⃣x")).next 4).2.tag ≠ .heading_start ∧
      ((TokState.new (strBytes "#️⃣x")).next 4).2.tag ≠ .emphasis_start ∧
      ((TokState.new (strBytes "#️⃣x")).next 4).2.tag ≠ .list_item_ordered) ∧
    ((keycapInlineSt.next 3).2.tag ≠ .heading_start ∧
      (keycapInlineSt.next 3).2.tag ≠ .emphasis_start ∧
      (keycapInlineSt.next 3).2.tag ≠ .list_item_ordered) :=
  ⟨c7_keycap_never_structural.1 (TokState.new (strBytes "#️⃣x")) 0 rfl rfl rfl
      (by decide) (by decide),
    c7_keycap_never_structural.2.1 keycapInlineSt 0 rfl rfl (by decide)
      (by decide) (by decide) (by decide)⟩

set_option maxHeartbeats 4000000 in
/-- C8: after a list bullet, `try_checkbox` turns `[ ]` / `[x]` / `[X]`
followed by a space, a newline, or end of input into exactly one pending
checkbox token (unchecked iff the inner byte is a space), advancing past the
closing bracket and past a following space; any other inner byte, a missing
`]`, or a bad follower leaves the tokenizer state untouched.  Concretely,
`"- [ ] a\n"` tokenizes with exactly one checkbox token, the checked states
of `"- [ ] a\n- [x] b\n- [X]\n"` are `[false, true, true]`, and `[y]` / `[]`
yield no checkbox token and an absent checked state. -/
theorem c8_checkbox_token_recognition :
    (∀ st : TokState,
      st.buf st.index = 91 →
      (st.buf (st.index+1) = 32 ∨ st.buf (st.index+1) = 120 ∨
        st.buf (st.index+1) = 88) →
      st.buf (st.index+2) = 93 →
      (st.buf (st.index+3) = 32 ∨ st.buf (st.index+3) = 10 ∨
        st.buf (st.index+3) = 0) →
      st.try_checkbox = { st with
        pending_token := some
          { tag :=
              if st.buf (st.index+1) = 32 then Tag.checkbox_unchecked
              else Tag.checkbox_checked
            loc :=
              { start := st.index
                stop := if st.buf (st.index+3) = 32 then st.index + 4
                  else st.index + 3 } }
        index := if st.buf (st.index+3) = 32 then st.index + 4
          else st.index + 3 }) ∧
    (∀ st : TokState,
      (st.buf st.index ≠ 91 ∨
        (st.buf (st.index+1) ≠ 32 ∧ st.buf (st.index+1) ≠ 120 ∧
          st.buf (st.index+1) ≠ 88) ∨
        st.buf (st.index+2) ≠ 93 ∨
        (st.buf (st.index+3) ≠ 32 ∧ st.buf (st.index+3) ≠ 10 ∧
          st.buf (st.index+3) ≠ 0)) →
      st.try_checkbox = st) ∧
    (parseS "- [ ] a\n").map (fun ast => ast.token_tags) =
      some [.list_item_unordered, .checkbox_unchecked, .text, .newline, .eof] ∧
    (parseS "- [ ] a\n- [x] b\n- [X]\n").map
      (fun ast =>
        ((List.range ast.nodes.length).filterMap (fun i =>
          if (ast.nodes.getD i nullNode).tag == .list_item then
            some (ast.list_item_info i).checked
          else none), ast.errors.length)) =
      some ([some false, some true, some true], 0) ∧
    (parseS "- [y] t\n- [] u\n").map
      (fun ast =>
        ((List.range ast.nodes.length).filterMap (fun i =>
          if (ast.nodes.getD i nullNode).tag == .list_item then
            some (ast.list_item_info i).checked
          else none),
         ast.token_tags.any
           (fun t => t == .checkbox_unchecked || t == .checkbox_checked))) =
      some ([none], false) := by
  refine ⟨?_, ?_, by decide, by decide, by decide⟩
  · intro st h1 h2 h3 h4
    rcases h2 with h2 | h2 | h2 <;> rcases h4 with h4 | h4 | h4 <;>
      simp [TokState.try_checkbox, h1, h2, h3, h4]
  · intro st h
    unfold TokState.try_checkbox
    rcases h with h | ⟨ha, hb, hc⟩ | h | ⟨ha, hb, hc⟩
    · simp [h]
    · simp [ha, hb, hc]
    · simp [h]
    · split
      · simp [ha, hb, hc]
      · rfl

/-- Witness for the quantified parts of the C8 theorem: `[x]` at end of input
becomes a pending checked token, `[y] ` is rejected. -/
theorem c8_checkbox_token_recognition_witness :
    (TokState.new (strBytes "[x]")).try_checkbox =
      { TokState.new (strBytes "[x]") with
        pending_token := some
          { tag := Tag.checkbox_checked, loc := { start := 0, stop := 3 } }
        index := 3 } ∧
    (TokState.new (strBytes "[y] ")).try_checkbox =
      TokState.new (strBytes "[y] ") :=
  ⟨by
    have h := c8_checkbox_token_recognition.1 (TokState.new (strBytes "[x]"))
      (by decide) (by decide) (by decide) (by decide)
    simpa using h,
   c8_checkbox_token_recognition.2.1 (TokState.new (strBytes "[y] "))
     (by decide)⟩

/-- The error-list bound maintained by every parser transition. -/
def EB (st : PState) : Prop := st.errors.length ≤ MAX_PARSE_ERRORS

theorem EB_warn_at {st : PState} (tag : ErrorTag) (tok : Nat) (h : EB st) :
    EB (st.warn_at tag tok) := by
  unfold EB PState.warn_at at *
  split
  · exact h
  · simp
    omega

theorem EB_warn {st : PState} (tag : ErrorTag) (h : EB st) : EB (st.warn tag) :=
  EB_warn_at tag st.token_index h

theorem EB_next_token {st st' : PState} {r : Nat}
    (heq : st.next_token = (st', r)) (h : EB st) : EB st' := by
  unfold PState.next_token at heq
  cases heq
  exact h

theorem EB_eat_token {st st' : PState} {tag : Tag} {r : Option Nat}
    (heq : st.eat_token tag = (st', r)) (h : EB st) : EB st' := by
  unfold PState.eat_token at heq
  split at heq <;> cases heq <;> exact h

theorem EB_expect_token {st st' : PState} {tag : Tag} {r : Option Nat}
    (heq : st.expect_token tag = (st', r)) (h : EB st) : EB st' := by
  unfold PState.expect_token at heq
  split at heq
  next st1 idx h1 =>
    cases heq
    exact EB_eat_token h1 h
  next st1 h1 =>
    cases heq
    exact EB_warn _ (EB_eat_token h1 h)

theorem EB_add_node {st st' : PState} {n : Node} {r : Nat}
    (heq : st.add_node n = (st', r)) (h : EB st) : EB st' := by
  unfold PState.add_node at heq
  cases heq
  exact h

theorem EB_reserve_node {st st' : PState} {t : NodeTag} {r : Nat}
    (heq : st.reserve_node t = (st', r)) (h : EB st) : EB st' :=
  EB_add_node heq h

theorem EB_add_extra_link {st st' : PState} {tn : Option Nat} {u r : Nat}
    (heq : st.add_extra_link tn u = (st', r)) (h : EB st) : EB st' := by
  unfold PState.add_extra_link at heq
  cases heq
  exact h

theorem EB_parse_text {st st' : PState} {r : Option Nat}
    (heq : st.parse_text = (st', r)) (h : EB st) : EB st' := by
  unfold PState.parse_text at heq
  split at heq
  next st1 tt h1 =>
  split at heq
  next st2 idx h2 =>
  cases heq
  exact EB_add_node h2 (EB_next_token h1 h)

theorem EB_parse_link {st st' : PState} {r : Option Nat}
    (heq : st.parse_link = (st', r)) (h : EB st) : EB st' := by
  unfold PState.parse_link at heq
  split at heq
  next st1 tok h1 =>
  replace h := EB_next_token h1 h
  split at heq
  next st2 tn h2 =>
  replace h : EB st2 := by
    split at h2
    · exact EB_parse_text h2 h
    · cases h2; exact h
  split at heq
  next st3 h3 =>
    cases heq; exact EB_expect_token h3 h
  next st3 x h3 =>
  replace h := EB_expect_token h3 h
  split at heq
  next st4 h4 =>
    cases heq; exact EB_expect_token h4 h
  next st4 x h4 =>
  replace h := EB_expect_token h4 h
  split at heq
  next st5 h5 =>
    cases heq; exact EB_expect_token h5 h
  next st5 url h5 =>
  replace h := EB_expect_token h5 h
  split at heq
  next st6 h6 =>
    cases heq; exact EB_expect_token h6 h
  next st6 x h6 =>
  replace h := EB_expect_token h6 h
  split at heq
  next st7 ld h7 =>
  replace h := EB_add_extra_link h7 h
  split at heq
  next st8 idx h8 =>
  cases heq
  exact EB_add_node h8 h

theorem EB_set_node {st st' : PState} {i : Nat} {n : Node} {r : Nat}
    (heq : st.set_node i n = (st', r)) (h : EB st) : EB st' := by
  unfold PState.set_node at heq
  cases heq
  exact h

theorem EB_add_extra_heading {st st' : PState} {a b c r : Nat}
    (heq : st.add_extra_heading a b c = (st', r)) (h : EB st) : EB st' := by
  unfold PState.add_extra_heading at heq
  cases heq
  exact h

theorem EB_add_extra_list_item {st st' : PState} {ck : Option Bool} {a b r : Nat}
    (heq : st.add_extra_list_item ck a b = (st', r)) (h : EB st) : EB st' := by
  unfold PState.add_extra_list_item at heq
  cases heq
  exact h

theorem EB_add_extra_jsx_element {st st' : PState} {a b c d e r : Nat}
    (heq : st.add_extra_jsx_element a b c d e = (st', r)) (h : EB st) : EB st' := by
  unfold PState.add_extra_jsx_element at heq
  cases heq
  exact h

theorem EB_add_extra_range {st st' : PState} {a b r : Nat}
    (heq : st.add_extra_range a b = (st', r)) (h : EB st) : EB st' := by
  unfold PState.add_extra_range at heq
  cases heq
  exact h

theorem EB_add_extra_frontmatter {st st' : PState} {f : FrontmatterFormat}
    {a b r : Nat} (heq : st.add_extra_frontmatter f a b = (st', r)) (h : EB st) :
    EB st' := by
  unfold PState.add_extra_frontmatter at heq
  cases heq
  exact h

theorem EB_list_to_span {st st' : PState} {items : List Nat} {r : NRange}
    (heq : st.list_to_span items = (st', r)) (h : EB st) : EB st' := by
  unfold PState.list_to_span at heq
  cases heq
  exact h

theorem EB_force_advance {st : PState} (before : Nat) (h : EB st) :
    EB (st.force_advance before) := by
  unfold PState.force_advance
  split
  · exact h
  · exact h

theorem EB_warn_force_advance {st : PState} (before : Nat) (h : EB st) :
    EB (st.warn_force_advance before) := by
  unfold PState.warn_force_advance
  split
  · exact EB_warn _ h
  · exact h

theorem EB_skipTokensWhile {p : Tag → Bool} (fuel : Nat) :
    ∀ st : PState, EB st → EB (skipTokensWhile p fuel st) := by
  induction fuel with
  | zero => intro st h; exact h
  | succ n ihn =>
    intro st h
    show EB (if p st.current_tag then skipTokensWhile p n
      { st with token_index := st.token_index + 1 } else st)
    split
    · exact ihn _ h
    · exact h

theorem EB_exprScan (fuel : Nat) :
    ∀ (st : PState) (d : Nat) (st' : PState) (d' : Nat),
      exprScan fuel (st, d) = (st', d') → EB st → EB st' := by
  induction fuel with
  | zero => intro st d st' d' heq h; cases heq; exact h
  | succ n ihn =>
    intro st d st' d' heq h
    replace heq : (if d > 0 && st.current_tag != .eof then
        let depth' :=
          match st.current_tag with
          | .expr_start => d + 1
          | .expr_end => d - 1
          | _ => d
        if depth' > 0 then exprScan n ({ st with token_index := st.token_index + 1 }, depth')
        else (st, depth')
      else (st, d)) = (st', d') := heq
    split at heq
    · split at heq <;> simp only [] at heq <;> split at heq <;>
        first
          | exact ihn _ _ _ _ heq h
          | (cases heq; exact h)
    · cases heq; exact h

theorem EB_parse_hard_break {st st' : PState} {r : Option Nat}
    (heq : st.parse_hard_break = (st', r)) (h : EB st) : EB st' := by
  unfold PState.parse_hard_break at heq
  split at heq
  next st1 tt h1 =>
  split at heq
  next st2 idx h2 =>
  cases heq
  exact EB_add_node h2 (EB_next_token h1 h)

theorem EB_parse_code_inline {st st' : PState} {r : Option Nat}
    (heq : st.parse_code_inline = (st', r)) (h : EB st) : EB st' := by
  unfold PState.parse_code_inline at heq
  split at heq
  next st1 tok h1 =>
  replace h := EB_next_token h1 h
  split at heq
  next st2 h2 =>
    cases heq; exact EB_expect_token h2 h
  next st2 x h2 =>
  replace h := EB_expect_token h2 h
  split at heq
  next st3 h3 =>
    cases heq; exact EB_expect_token h3 h
  next st3 x h3 =>
  replace h := EB_expect_token h3 h
  split at heq
  next st4 idx h4 =>
  cases heq
  exact EB_add_node h4 h

theorem EB_parse_image {st st' : PState} {r : Option Nat}
    (heq : st.parse_image = (st', r)) (h : EB st) : EB st' := by
  unfold PState.parse_image at heq
  split at heq
  next st1 tok h1 =>
  replace h := EB_next_token h1 h
  split at heq
  next st2 tn h2 =>
  replace h : EB st2 := by
    split at h2
    · exact EB_parse_text h2 h
    · cases h2; exact h
  split at heq
  next st3 h3 =>
    cases heq; exact EB_expect_token h3 h
  next st3 x h3 =>
  replace h := EB_expect_token h3 h
  split at heq
  next st4 h4 =>
    cases heq; exact EB_expect_token h4 h
  next st4 x h4 =>
  replace h := EB_expect_token h4 h
  split at heq
  next st5 h5 =>
    cases heq; exact EB_expect_token h5 h
  next st5 url h5 =>
  replace h := EB_expect_token h5 h
  split at heq
  next st6 h6 =>
    cases heq; exact EB_expect_token h6 h
  next st6 x h6 =>
  replace h := EB_expect_token h6 h
  split at heq
  next st7 ld h7 =>
  replace h := EB_add_extra_link h7 h
  split at heq
  next st8 idx h8 =>
  cases heq
  exact EB_add_node h8 h

theorem EB_parse_code_block {st st' : PState} {r : Option Nat}
    (heq : st.parse_code_block = (st', r)) (h : EB st) : EB st' := by
  unfold PState.parse_code_block at heq
  split at heq
  next st1 tok h1 =>
  replace h := EB_next_token h1 h
  split at heq
  next st2 x h2 =>
  replace h := EB_eat_token h2 h
  split at heq
  next st3 x h3 =>
  replace h := EB_eat_token h3 h
  replace h := @EB_skipTokensWhile (fun t => t != Tag.code_fence_end && t != Tag.eof)
    (st3.token_tags.length + 1) st3 h
  simp only [] at heq
  split at heq
  next st4 h4 =>
    cases heq; exact EB_expect_token h4 h
  next st4 x h4 =>
  replace h := EB_expect_token h4 h
  cases heq
  exact EB_add_node rfl h

theorem EB_parse_hr {st st' : PState} {r : Option Nat}
    (heq : st.parse_hr = (st', r)) (h : EB st) : EB st' := by
  unfold PState.parse_hr at heq
  split at heq
  next st1 tok h1 =>
  split at heq
  next st2 idx h2 =>
  cases heq
  exact EB_add_node h2 (EB_next_token h1 h)

theorem EB_parse_yaml_frontmatter {st st' : PState} {tok : Nat} {r : Option Nat}
    (heq : st.parse_yaml_frontmatter tok = (st', r)) (h : EB st) : EB st' := by
  unfold PState.parse_yaml_frontmatter at heq
  split at heq
  next st1 x h1 =>
  replace h := EB_eat_token h1 h
  replace h := @EB_skipTokensWhile (fun t => t != Tag.hr && t != Tag.eof)
    (st1.token_tags.length + 1) st1 h
  simp only [] at heq
  split at heq
  · cases heq
    exact EB_warn _ h
  · cases heq
    exact h

theorem EB_parse_json_frontmatter {st st' : PState} {r : Option Nat}
    (heq : st.parse_json_frontmatter = (st', r)) (h : EB st) : EB st' := by
  unfold PState.parse_json_frontmatter at heq
  split at heq
  next st1 tok h1 =>
  replace h := EB_next_token h1 h
  split at heq
  next st2 h2 =>
    cases heq; exact EB_expect_token h2 h
  next st2 x h2 =>
  replace h := EB_expect_token h2 h
  split at heq
  next st3 x3 h3 =>
  replace h := EB_eat_token h3 h
  replace h := @EB_skipTokensWhile (fun t => t != Tag.code_fence_end && t != Tag.eof)
    (st3.token_tags.length + 1) st3 h
  simp only [] at heq
  split at heq
  · cases heq
    exact EB_warn _ h
  · cases heq
    exact h

theorem EB_parse_text_expression {st st' : PState} {r : Option Nat}
    (heq : st.parse_text_expression = (st', r)) (h : EB st) : EB st' := by
  unfold PState.parse_text_expression at heq
  split at heq
  next st1 h1 =>
    cases heq; exact EB_expect_token h1 h
  next st1 x h1 =>
  replace h := EB_expect_token h1 h
  split at heq
  next st2 depth h2 =>
  replace h := EB_exprScan (st1.token_tags.length + 2) st1 1 st2 depth h2 h
  split at heq
  · cases heq
    exact EB_warn _ h
  · split at heq
    next st3 h3 =>
      cases heq; exact EB_expect_token h3 h
    next st3 x3 h3 =>
    replace h := EB_expect_token h3 h
    simp only [] at heq
    cases heq
    exact h

theorem EB_parse_jsx_attribute_value {st st' : PState}
    {r : Option (Option Nat × JsxAttributeType)}
    (heq : st.parse_jsx_attribute_value = (st', r)) (h : EB st) : EB st' := by
  unfold PState.parse_jsx_attribute_value at heq
  split at heq
  next st1 vt h1 =>
    cases heq; exact EB_eat_token h1 h
  next st1 h1 =>
  replace h := EB_eat_token h1 h
  split at heq
  next st2 x2 h2 =>
    replace h := EB_eat_token h2 h
    split at heq
    next st3 depth h3 =>
    replace h := EB_exprScan (st2.token_tags.length + 2) st2 1 st3 depth h3 h
    split at heq
    · cases heq
      exact EB_warn _ h
    · split at heq
      next st4 h4 =>
        cases heq; exact EB_expect_token h4 h
      next st4 x4 h4 =>
        simp only [] at heq
        cases heq
        exact EB_expect_token h4 h
  next st2 h2 =>
  replace h := EB_eat_token h2 h
  split at heq
  next st3 vt h3 =>
    simp only [] at heq
    cases heq
    exact EB_eat_token h3 h
  next st3 h3 =>
  replace h := EB_eat_token h3 h
  split at heq
  next st4 vt h4 =>
    simp only [] at heq
    cases heq
    exact EB_eat_token h4 h
  next st4 h4 =>
  replace h := EB_eat_token h4 h
  cases heq
  exact EB_warn _ h

theorem EB_attrsLoop (fuel : Nat) :
    ∀ (st st' : PState) (b : Bool), attrsLoop fuel st = (st', b) → EB st → EB st' := by
  induction fuel with
  | zero => intro st st' b heq h; cases heq; exact h
  | succ n ihn =>
    intro st st' b heq h
    replace heq : (if st.current_tag == .jsx_identifier then
        let (st, attr_name) := st.next_token
        match st.eat_token .jsx_equal with
        | (st, some _) =>
          match st.parse_jsx_attribute_value with
          | (st, Option.none) => (st, false)
          | (st, some (attr_value, attr_type)) =>
            let st := { st with extra_data := st.extra_data ++
              [attr_name, attr_value.getD u32Max, jsx_attr_type_to_raw attr_type] }
            attrsLoop n st
        | (st, Option.none) =>
          let st := { st with extra_data := st.extra_data ++
            [attr_name, u32Max, jsx_attr_type_to_raw .boolean] }
          attrsLoop n st
      else (st, true)) = (st', b) := heq
    split at heq
    · split at heq
      next st1 an h1 =>
      replace h := EB_next_token h1 h
      split at heq
      next st2 x2 h2 =>
        replace h := EB_eat_token h2 h
        split at heq
        next st3 h3 =>
          cases heq
          exact EB_parse_jsx_attribute_value h3 h
        next st3 av at' h3 =>
          replace h := EB_parse_jsx_attribute_value h3 h
          exact ihn _ _ _ heq h
      next st2 h2 =>
        replace h := EB_eat_token h2 h
        exact ihn _ _ _ heq h
    · cases heq
      exact h

theorem EB_tableSepLoop (fuel : Nat) :
    ∀ (st : PState) (al : List TableAlignment) (st' : PState)
      (al' : List TableAlignment),
      tableSepLoop fuel (st, al) = (st', al') → EB st → EB st' := by
  induction fuel with
  | zero => intro st al st' al' heq h; cases heq; exact h
  | succ n ihn =>
    intro st al st' al' heq h
    replace heq : (if st.current_tag != .newline && st.current_tag != .eof &&
          st.current_tag != .blank_line then
        let before := st.token_index
        if st.current_tag == .text then
          let t := asciiTrim (st.token_slice st.token_index)
          let has_left_colon := t.headD 0 == 58
          let has_right_colon := t.getLastD 0 == 58
          let has_dash := t.contains 45
          let (st, _) := st.next_token
          let aligns :=
            if has_dash then
              al ++ [match has_left_colon, has_right_colon with
                | true, true => TableAlignment.center
                | true, false => TableAlignment.left
                | false, true => TableAlignment.right
                | false, false => TableAlignment.none]
            else al
          let (st, _) := if st.current_tag == .pipe then st.next_token else (st, 0)
          let st :=
            if st.token_index == before then
              let st := st.warn .unexpected_token
              { st with token_index := st.token_index + 1 }
            else st
          tableSepLoop n (st, aligns)
        else if st.current_tag == .space || st.current_tag == .indent then
          let (st, _) := st.next_token
          tableSepLoop n (st, al)
        else
          let (st, _) := if st.current_tag == .pipe then st.next_token else (st, 0)
          let st :=
            if st.token_index == before then
              let st := st.warn .unexpected_token
              { st with token_index := st.token_index + 1 }
            else st
          tableSepLoop n (st, al)
      else (st, al)) = (st', al') := heq
    split at heq
    · simp only [] at heq
      repeat' split at heq
      all_goals
        first
          | exact ihn _ _ _ _ heq (EB_warn _ h)
          | exact ihn _ _ _ _ heq h
    · cases heq
      exact h

theorem EB_parse_jsx_closing_tag {st st' : PState} {r : Option Nat}
    (heq : st.parse_jsx_closing_tag = (st', r)) (h : EB st) : EB st' := by
  unfold PState.parse_jsx_closing_tag at heq
  simp only [] at heq
  replace h := EB_warn_at .unexpected_token (st.token_index - 1) h
  split at heq
  next st1 h1 =>
    cases heq; exact EB_expect_token h1 h
  next st1 x h1 =>
  replace h := EB_expect_token h1 h
  split at heq
  next st2 h2 =>
    cases heq; exact EB_expect_token h2 h
  next st2 x2 h2 =>
  cases heq
  exact EB_expect_token h2 h

theorem EB_parse_jsx_element_close {st st' : PState}
    {ob nm : Nat} {onm : List Nat} {as ae : Nat} {cs : NRange} {r : Option Nat}
    (heq : st.parse_jsx_element_close ob nm onm as ae cs = (st', r))
    (h : EB st) : EB st' := by
  unfold PState.parse_jsx_element_close at heq
  split at heq
  next st1 h1 =>
    cases heq; exact EB_expect_token h1 h
  next st1 ct h1 =>
  replace h := EB_expect_token h1 h
  split at heq
  next st2 h2 =>
    cases heq; exact EB_expect_token h2 h
  next st2 cn h2 =>
  replace h := EB_expect_token h2 h
  split at heq
  · replace h := EB_warn_at .mismatched_tags ct h
    simp only [] at heq
    cases heq
    exact EB_eat_token rfl h
  · split at heq
    next st3 h3 =>
      cases heq; exact EB_expect_token h3 h
    next st3 x3 h3 =>
    replace h := EB_expect_token h3 h
    split at heq
    next st4 jd h4 =>
    replace h := EB_add_extra_jsx_element h4 h
    cases heq
    exact EB_add_node rfl h

theorem EB_eat_fst (st : PState) (tag : Tag) (h : EB st) : EB (st.eat_token tag).1 :=
  EB_eat_token rfl h

theorem EB_next_fst (st : PState) (h : EB st) : EB (st.next_token).1 :=
  EB_next_token rfl h

theorem EB_sep_fst (fuel : Nat) (p : PState × List TableAlignment) (h : EB p.1) :
    EB (tableSepLoop fuel p).1 := by
  obtain ⟨a, b⟩ := p
  exact EB_tableSepLoop _ _ _ _ _ rfl h

/-- The error bound, threaded through every function of the parser pack. -/
structure PackEB (pp : ParsePack) : Prop where
  parse_document : ∀ st st' r, pp.parse_document st = (st', r) → EB st → EB st'
  docLoop : ∀ st, EB st → EB (pp.docLoop st)
  parse_block : ∀ st st' r, pp.parse_block st = (st', r) → EB st → EB st'
  parse_heading : ∀ st st' r, pp.parse_heading st = (st', r) → EB st → EB st'
  parse_paragraph : ∀ st st' r, pp.parse_paragraph st = (st', r) → EB st → EB st'
  parse_inline_content : ∀ st t st' r,
    pp.parse_inline_content st t = (st', r) → EB st → EB st'
  inlineLoop : ∀ st t st' b, pp.inlineLoop st t = (st', b) → EB st → EB st'
  parse_inline : ∀ st st' r, pp.parse_inline st = (st', r) → EB st → EB st'
  parse_strong : ∀ st st' r, pp.parse_strong st = (st', r) → EB st → EB st'
  parse_emphasis : ∀ st st' r, pp.parse_emphasis st = (st', r) → EB st → EB st'
  parse_blockquote : ∀ st st' r, pp.parse_blockquote st = (st', r) → EB st → EB st'
  parse_list : ∀ st st' r, pp.parse_list st = (st', r) → EB st → EB st'
  listLoop : ∀ st t st' b, pp.listLoop st t = (st', b) → EB st → EB st'
  parse_list_item : ∀ st st' r, pp.parse_list_item st = (st', r) → EB st → EB st'
  parse_table : ∀ st st' r, pp.parse_table st = (st', r) → EB st → EB st'
  tableBodyLoop : ∀ st, EB st → EB (pp.tableBodyLoop st)
  parse_table_row : ∀ st st' r, pp.parse_table_row st = (st', r) → EB st → EB st'
  rowLoop : ∀ st st' b, pp.rowLoop st = (st', b) → EB st → EB st'
  parse_table_cell : ∀ st st' r, pp.parse_table_cell st = (st', r) → EB st → EB st'
  cellLoop : ∀ st st' b, pp.cellLoop st = (st', b) → EB st → EB st'
  parse_jsx_element : ∀ st st' r, pp.parse_jsx_element st = (st', r) → EB st → EB st'
  jsxChildrenLoop : ∀ st st' b, pp.jsxChildrenLoop st = (st', b) → EB st → EB st'
  parse_jsx_fragment : ∀ st st' r, pp.parse_jsx_fragment st = (st', r) → EB st → EB st'
  fragLoop : ∀ st st' b, pp.fragLoop st = (st', b) → EB st → EB st'

theorem packEB_zero : PackEB parsePackZero where
  parse_document := fun _ _ _ heq h => by cases heq; exact h
  docLoop := fun _ h => h
  parse_block := fun _ _ _ heq h => by cases heq; exact h
  parse_heading := fun _ _ _ heq h => by cases heq; exact h
  parse_paragraph := fun _ _ _ heq h => by cases heq; exact h
  parse_inline_content := fun _ _ _ _ heq h => by cases heq; exact h
  inlineLoop := fun _ _ _ _ heq h => by cases heq; exact h
  parse_inline := fun _ _ _ heq h => by cases heq; exact h
  parse_strong := fun _ _ _ heq h => by cases heq; exact h
  parse_emphasis := fun _ _ _ heq h => by cases heq; exact h
  parse_blockquote := fun _ _ _ heq h => by cases heq; exact h
  parse_list := fun _ _ _ heq h => by cases heq; exact h
  listLoop := fun _ _ _ _ heq h => by cases heq; exact h
  parse_list_item := fun _ _ _ heq h => by cases heq; exact h
  parse_table := fun _ _ _ heq h => by cases heq; exact h
  tableBodyLoop := fun _ h => h
  parse_table_row := fun _ _ _ heq h => by cases heq; exact h
  rowLoop := fun _ _ _ heq h => by cases heq; exact h
  parse_table_cell := fun _ _ _ heq h => by cases heq; exact h
  cellLoop := fun _ _ _ heq h => by cases heq; exact h
  parse_jsx_element := fun _ _ _ heq h => by cases heq; exact h
  jsxChildrenLoop := fun _ _ _ heq h => by cases heq; exact h
  parse_jsx_fragment := fun _ _ _ heq h => by cases heq; exact h
  fragLoop := fun _ _ _ heq h => by cases heq; exact h

set_option maxHeartbeats 1600000 in
theorem packEB_step_parse_document (pp : ParsePack) (ih : PackEB pp) :
    ∀ st st' r, (parsePackStep pp).parse_document st = (st', r) → EB st → EB st' := by
  intro st st' r heq h
  rw [show (parsePackStep pp).parse_document = step_parse_document pp from rfl] at heq
  unfold step_parse_document at heq
  try simp only [] at heq
  split at heq
  next st1 fs h1 =>
    replace h := EB_eat_token h1 h
    split at heq
    next st2 fm h2 =>
      replace h := EB_parse_yaml_frontmatter h2 h
      replace h := ih.docLoop { st2 with scratch := st2.scratch ++ [fm] } h
      cases heq
      exact h
    next st2 h2 =>
      replace h := EB_parse_yaml_frontmatter h2 h
      replace h := ih.docLoop st2 h
      cases heq
      exact h
  next st1 h1 =>
    replace h := EB_eat_token h1 h
    split at heq
    · split at heq
      next st2 fm h2 =>
        replace h := EB_parse_json_frontmatter h2 h
        replace h := ih.docLoop { st2 with scratch := st2.scratch ++ [fm] } h
        cases heq
        exact h
      next st2 h2 =>
        replace h := EB_parse_json_frontmatter h2 h
        replace h := ih.docLoop st2 h
        cases heq
        exact h
    · replace h := ih.docLoop st1 h
      cases heq
      exact h

set_option maxHeartbeats 1600000 in
theorem packEB_step_docLoop (pp : ParsePack) (ih : PackEB pp) :
    ∀ st, EB st → EB ((parsePackStep pp).docLoop st) := by
  intro st h
  rw [show (parsePackStep pp).docLoop = step_docLoop pp from rfl]
  unfold step_docLoop
  try simp only []
  split
  · replace h := @EB_skipTokensWhile
      (fun t => t == Tag.blank_line || t == Tag.newline)
      (st.token_tags.length + 1) st h
    split
    · exact h
    · split
      next st1 blk h1 =>
        replace h := ih.parse_block _ _ _ h1 h
        exact ih.docLoop _ (EB_warn_force_advance _ h)
      next st1 h1 =>
        exact ih.parse_block _ _ _ h1 h
  · exact h

set_option maxHeartbeats 1600000 in
theorem packEB_step_parse_block (pp : ParsePack) (ih : PackEB pp) :
    ∀ st st' r, (parsePackStep pp).parse_block st = (st', r) → EB st → EB st' := by
  intro st st' r heq h
  rw [show (parsePackStep pp).parse_block = step_parse_block pp from rfl] at heq
  unfold step_parse_block at heq
  try simp only [] at heq
  split at heq
  · exact ih.parse_heading _ _ _ heq h
  · exact EB_parse_code_block heq h
  · exact EB_parse_hr heq h
  · exact ih.parse_blockquote _ _ _ heq h
  · exact ih.parse_list _ _ _ heq h
  · exact ih.parse_list _ _ _ heq h
  · exact ih.parse_table _ _ _ heq h
  · exact ih.parse_jsx_element _ _ _ heq h
  · exact ih.parse_paragraph _ _ _ heq h

set_option maxHeartbeats 1600000 in
theorem packEB_step_parse_heading (pp : ParsePack) (ih : PackEB pp) :
    ∀ st st' r, (parsePackStep pp).parse_heading st = (st', r) → EB st → EB st' := by
  intro st st' r heq h
  rw [show (parsePackStep pp).parse_heading = step_parse_heading pp from rfl] at heq
  unfold step_parse_heading at heq
  try simp only [] at heq
  split at heq
  next st3 h3 =>
    replace h := ih.parse_inline_content _ _ _ _ h3 h
    cases heq
    exact h
  next st3 span h3 =>
    replace h := ih.parse_inline_content _ _ _ _ h3 h
    cases heq
    exact h

set_option maxHeartbeats 1600000 in
theorem packEB_step_parse_paragraph (pp : ParsePack) (ih : PackEB pp) :
    ∀ st st' r, (parsePackStep pp).parse_paragraph st = (st', r) → EB st → EB st' := by
  intro st st' r heq h
  rw [show (parsePackStep pp).parse_paragraph = step_parse_paragraph pp from rfl] at heq
  unfold step_parse_paragraph at heq
  try simp only [] at heq
  split at heq
  next st2 h2 =>
    replace h := ih.parse_inline_content _ _ _ _ h2 h
    cases heq
    exact h
  next st2 span h2 =>
    replace h := ih.parse_inline_content _ _ _ _ h2 h
    cases heq
    exact h

set_option maxHeartbeats 1600000 in
theorem packEB_step_parse_inline_content (pp : ParsePack) (ih : PackEB pp) :
    ∀ st t st' r, (parsePackStep pp).parse_inline_content st t = (st', r) →
      EB st → EB st' := by
  intro st t st' r heq h
  rw [show (parsePackStep pp).parse_inline_content = step_parse_inline_content pp from rfl] at heq
  unfold step_parse_inline_content at heq
  try simp only [] at heq
  split at heq
  next st1 h1 =>
    cases heq
    exact ih.inlineLoop _ _ _ _ h1 h
  next st1 h1 =>
    replace h := ih.inlineLoop _ _ _ _ h1 h
    replace h : EB (st1.eat_token t).1 := EB_eat_token rfl h
    cases heq
    exact h

set_option maxHeartbeats 1600000 in
theorem packEB_step_inlineLoop (pp : ParsePack) (ih : PackEB pp) :
    ∀ st t st' b, (parsePackStep pp).inlineLoop st t = (st', b) →
      EB st → EB st' := by
  intro st t st' b heq h
  rw [show (parsePackStep pp).inlineLoop = step_inlineLoop pp from rfl] at heq
  unfold step_inlineLoop at heq
  try simp only [] at heq
  split at heq
  · split at heq
    · exact ih.inlineLoop _ _ _ _ heq (EB_next_token rfl h)
    · split at heq
      next st1 h1 =>
        cases heq
        exact ih.parse_inline _ _ _ h1 h
      next st1 inode h1 =>
        replace h := ih.parse_inline _ _ _ h1 h
        exact ih.inlineLoop _ _ _ _ heq (EB_force_advance _ h)
  · cases heq
    exact h

set_option maxHeartbeats 1600000 in
theorem packEB_step_parse_inline (pp : ParsePack) (ih : PackEB pp) :
    ∀ st st' r, (parsePackStep pp).parse_inline st = (st', r) → EB st → EB st' := by
  intro st st' r heq h
  rw [show (parsePackStep pp).parse_inline = step_parse_inline pp from rfl] at heq
  unfold step_parse_inline at heq
  try simp only [] at heq
  split at heq
  · exact EB_parse_text heq h
  · exact EB_parse_text heq h
  · exact EB_parse_text heq h
  · exact ih.parse_strong _ _ _ heq h
  · exact ih.parse_emphasis _ _ _ heq h
  · exact EB_parse_code_inline heq h
  · exact EB_parse_link heq h
  · exact EB_parse_image heq h
  · exact EB_parse_hard_break heq h
  · exact EB_parse_text_expression heq h
  · exact ih.parse_jsx_element _ _ _ heq h
  · cases heq
    exact EB_warn _ h

set_option maxHeartbeats 1600000 in
theorem packEB_step_parse_strong (pp : ParsePack) (ih : PackEB pp) :
    ∀ st st' r, (parsePackStep pp).parse_strong st = (st', r) → EB st → EB st' := by
  intro st st' r heq h
  rw [show (parsePackStep pp).parse_strong = step_parse_strong pp from rfl] at heq
  unfold step_parse_strong at heq
  try simp only [] at heq
  split at heq
  next st3 h3 =>
    replace h := ih.parse_inline_content _ _ _ _ h3 h
    cases heq
    exact h
  next st3 span h3 =>
    replace h := ih.parse_inline_content _ _ _ _ h3 h
    cases heq
    exact h

set_option maxHeartbeats 1600000 in
theorem packEB_step_parse_emphasis (pp : ParsePack) (ih : PackEB pp) :
    ∀ st st' r, (parsePackStep pp).parse_emphasis st = (st', r) → EB st → EB st' := by
  intro st st' r heq h
  rw [show (parsePackStep pp).parse_emphasis = step_parse_emphasis pp from rfl] at heq
  unfold step_parse_emphasis at heq
  try simp only [] at heq
  split at heq
  next st3 h3 =>
    replace h := ih.parse_inline_content _ _ _ _ h3 h
    cases heq
    exact h
  next st3 span h3 =>
    replace h := ih.parse_inline_content _ _ _ _ h3 h
    cases heq
    exact h

set_option maxHeartbeats 1600000 in
theorem packEB_step_parse_blockquote (pp : ParsePack) (ih : PackEB pp) :
    ∀ st st' r, (parsePackStep pp).parse_blockquote st = (st', r) → EB st → EB st' := by
  intro st st' r heq h
  rw [show (parsePackStep pp).parse_blockquote = step_parse_blockquote pp from rfl] at heq
  unfold step_parse_blockquote at heq
  try simp only [] at heq
  split at heq
  next st3 h3 =>
    replace h := ih.parse_inline_content _ _ _ _ h3 (EB_eat_token rfl h)
    cases heq
    exact h
  next st3 span h3 =>
    replace h := ih.parse_inline_content _ _ _ _ h3 (EB_eat_token rfl h)
    cases heq
    exact h

set_option maxHeartbeats 1600000 in
theorem packEB_step_parse_list (pp : ParsePack) (ih : PackEB pp) :
    ∀ st st' r, (parsePackStep pp).parse_list st = (st', r) → EB st → EB st' := by
  intro st st' r heq h
  rw [show (parsePackStep pp).parse_list = step_parse_list pp from rfl] at heq
  unfold step_parse_list at heq
  try simp only [] at heq
  split at heq
  all_goals
    rename_i st1 h1
    replace h := ih.listLoop _ _ _ _ h1 h
    cases heq
    exact h

set_option maxHeartbeats 1600000 in
theorem packEB_step_listLoop (pp : ParsePack) (ih : PackEB pp) :
    ∀ st t st' b, (parsePackStep pp).listLoop st t = (st', b) → EB st → EB st' := by
  intro st t st' b heq h
  rw [show (parsePackStep pp).listLoop = step_listLoop pp from rfl] at heq
  unfold step_listLoop at heq
  try simp only [] at heq
  split at heq
  · split at heq
    next st1 item h1 =>
      replace h := ih.parse_list_item _ _ _ h1 h
      exact ih.listLoop _ _ _ _ heq h
    next st1 h1 =>
      cases heq
      exact ih.parse_list_item _ _ _ h1 h
  · cases heq
    exact h

set_option maxHeartbeats 1600000 in
theorem packEB_step_parse_list_item (pp : ParsePack) (ih : PackEB pp) :
    ∀ st st' r, (parsePackStep pp).parse_list_item st = (st', r) → EB st → EB st' := by
  intro st st' r heq h
  rw [show (parsePackStep pp).parse_list_item = step_parse_list_item pp from rfl] at heq
  unfold step_parse_list_item at heq
  try simp only [] at heq
  split at heq
  next st3 h3 =>
    split at h3
    next st4 v4 h4 =>
      replace h := ih.parse_inline_content _ _ _ _ h3 (EB_eat_token h4 h)
      cases heq
      exact h
    next st4 h4 =>
      split at h3
      next st5 v5 h5 =>
        replace h := ih.parse_inline_content _ _ _ _ h3
          (EB_eat_token h5 (EB_eat_token h4 h))
        cases heq
        exact h
      next st5 h5 =>
        replace h := ih.parse_inline_content _ _ _ _ h3
          (EB_eat_token h5 (EB_eat_token h4 h))
        cases heq
        exact h
  next st3 span h3 =>
    split at h3
    next st4 v4 h4 =>
      replace h := ih.parse_inline_content _ _ _ _ h3 (EB_eat_token h4 h)
      cases heq
      exact h
    next st4 h4 =>
      split at h3
      next st5 v5 h5 =>
        replace h := ih.parse_inline_content _ _ _ _ h3
          (EB_eat_token h5 (EB_eat_token h4 h))
        cases heq
        exact h
      next st5 h5 =>
        replace h := ih.parse_inline_content _ _ _ _ h3
          (EB_eat_token h5 (EB_eat_token h4 h))
        cases heq
        exact h

set_option maxHeartbeats 1600000 in
theorem packEB_step_parse_table (pp : ParsePack) (ih : PackEB pp) :
    ∀ st st' r, (parsePackStep pp).parse_table st = (st', r) → EB st → EB st' := by
  intro st st' r heq h
  rw [show (parsePackStep pp).parse_table = step_parse_table pp from rfl] at heq
  unfold step_parse_table at heq
  try simp only [] at heq
  split at heq
  next st1 h1 =>
    cases heq
    exact ih.parse_table_row _ _ _ h1 h
  next st1 row h1 =>
    replace h := ih.parse_table_row _ _ _ h1 h
    split at heq
    · cases heq
      exact ih.tableBodyLoop _ (EB_eat_fst _ _ (EB_sep_fst _ _ (EB_next_fst _ h)))
    · cases heq
      exact ih.tableBodyLoop _ h

set_option maxHeartbeats 1600000 in
theorem packEB_step_tableBodyLoop (pp : ParsePack) (ih : PackEB pp) :
    ∀ st, EB st → EB ((parsePackStep pp).tableBodyLoop st) := by
  intro st h
  rw [show (parsePackStep pp).tableBodyLoop = step_tableBodyLoop pp from rfl]
  unfold step_tableBodyLoop
  try simp only []
  split
  · split
    next st1 row h1 =>
      replace h := ih.parse_table_row _ _ _ h1 h
      exact ih.tableBodyLoop _
        (@EB_force_advance { st1 with scratch := st1.scratch ++ [row] } _ h)
    next st1 h1 =>
      exact ih.parse_table_row _ _ _ h1 h
  · exact h

set_option maxHeartbeats 1600000 in
theorem packEB_step_parse_table_row (pp : ParsePack) (ih : PackEB pp) :
    ∀ st st' r, (parsePackStep pp).parse_table_row st = (st', r) → EB st → EB st' := by
  intro st st' r heq h
  rw [show (parsePackStep pp).parse_table_row = step_parse_table_row pp from rfl] at heq
  unfold step_parse_table_row at heq
  try simp only [] at heq
  split at heq
  next st1 h1 =>
    cases heq
    exact EB_expect_token h1 h
  next st1 x1 h1 =>
  replace h := EB_expect_token h1 h
  split at heq
  next st2 h2 =>
    cases heq
    exact ih.rowLoop _ _ _ h2 h
  next st2 h2 =>
    replace h := ih.rowLoop _ _ _ h2 h
    replace h : EB (st2.eat_token Tag.newline).1 := EB_eat_token rfl h
    cases heq
    exact h

set_option maxHeartbeats 1600000 in
theorem packEB_step_rowLoop (pp : ParsePack) (ih : PackEB pp) :
    ∀ st st' b, (parsePackStep pp).rowLoop st = (st', b) → EB st → EB st' := by
  intro st st' b heq h
  rw [show (parsePackStep pp).rowLoop = step_rowLoop pp from rfl] at heq
  unfold step_rowLoop at heq
  try simp only [] at heq
  split at heq
  · cases heq
    exact h
  · split at heq
    next st1 h1 =>
      cases heq
      exact ih.parse_table_cell _ _ _ h1 h
    next st1 cell h1 =>
      replace h := ih.parse_table_cell _ _ _ h1 h
      split at heq
      · split at heq
        · cases heq
          exact EB_next_token rfl h
        · exact ih.rowLoop _ _ _ heq (EB_force_advance _ (EB_next_token rfl h))
      · exact ih.rowLoop _ _ _ heq (EB_force_advance _ h)

set_option maxHeartbeats 1600000 in
theorem packEB_step_parse_table_cell (pp : ParsePack) (ih : PackEB pp) :
    ∀ st st' r, (parsePackStep pp).parse_table_cell st = (st', r) → EB st → EB st' := by
  intro st st' r heq h
  rw [show (parsePackStep pp).parse_table_cell = step_parse_table_cell pp from rfl] at heq
  unfold step_parse_table_cell at heq
  try simp only [] at heq
  split at heq
  next st1 h1 =>
    cases heq
    exact ih.cellLoop _ _ _ h1
      (by split
          · exact EB_next_fst _ h
          · exact h)
  next st1 h1 =>
    replace h := ih.cellLoop _ _ _ h1
      (by split
          · exact EB_next_fst _ h
          · exact h)
    cases heq
    exact h

set_option maxHeartbeats 1600000 in
theorem packEB_step_cellLoop (pp : ParsePack) (ih : PackEB pp) :
    ∀ st st' b, (parsePackStep pp).cellLoop st = (st', b) → EB st → EB st' := by
  intro st st' b heq h
  rw [show (parsePackStep pp).cellLoop = step_cellLoop pp from rfl] at heq
  unfold step_cellLoop at heq
  try simp only [] at heq
  split at heq
  · split at heq
    next st1 h1 =>
      cases heq
      exact ih.parse_inline _ _ _ h1 h
    next st1 inode h1 =>
      replace h := ih.parse_inline _ _ _ h1 h
      exact ih.cellLoop _ _ _ heq
        (@EB_force_advance { st1 with scratch := st1.scratch ++ [inode] } _ h)
  · cases heq
    exact h

set_option maxHeartbeats 1600000 in
theorem packEB_step_parse_jsx_element (pp : ParsePack) (ih : PackEB pp) :
    ∀ st st' r, (parsePackStep pp).parse_jsx_element st = (st', r) → EB st → EB st' := by
  intro st st' r heq h
  rw [show (parsePackStep pp).parse_jsx_element = step_parse_jsx_element pp from rfl] at heq
  unfold step_parse_jsx_element at heq
  try simp only [] at heq
  split at heq
  next st1 h1 =>
    cases heq
    exact EB_expect_token h1 h
  next st1 ob h1 =>
  replace h := EB_expect_token h1 h
  split at heq
  next st2 x2 h2 =>
    exact EB_parse_jsx_closing_tag heq (EB_eat_token h2 h)
  next st2 h2 =>
  replace h := EB_eat_token h2 h
  split at heq
  · exact ih.parse_jsx_fragment _ _ _ heq h
  · split at heq
    next st3 h3 =>
      cases heq
      exact EB_expect_token h3 h
    next st3 nm h3 =>
    replace h := EB_expect_token h3 h
    split at heq
    next st4 h4 =>
      cases heq
      exact EB_attrsLoop _ _ _ _ h4 h
    next st4 h4 =>
    replace h := EB_attrsLoop _ _ _ _ h4 h
    split at heq
    · cases heq
      exact EB_warn _ h
    · split at heq
      next st5 x5 h5 =>
        replace h := EB_eat_token h5 h
        cases heq
        exact h
      next st5 h5 =>
      replace h := EB_eat_token h5 h
      split at heq
      next st6 h6 =>
        cases heq
        exact EB_expect_token h6 h
      next st6 x6 h6 =>
      replace h := EB_expect_token h6 h
      split at heq
      next st7 h7 =>
        cases heq
        exact ih.jsxChildrenLoop _ _ _ h7 h
      next st7 h7 =>
      replace h := ih.jsxChildrenLoop _ _ _ h7 h
      exact EB_parse_jsx_element_close heq h

set_option maxHeartbeats 1600000 in
theorem packEB_step_jsxChildrenLoop (pp : ParsePack) (ih : PackEB pp) :
    ∀ st st' b, (parsePackStep pp).jsxChildrenLoop st = (st', b) → EB st → EB st' := by
  intro st st' b heq h
  rw [show (parsePackStep pp).jsxChildrenLoop = step_jsxChildrenLoop pp from rfl] at heq
  unfold step_jsxChildrenLoop at heq
  try simp only [] at heq
  split at heq
  · split at heq
    · -- jsx_tag_start
      split at heq
      · cases heq
        exact h
      · split at heq
        next st1 h1 =>
          cases heq
          exact ih.parse_block _ _ _ h1 h
        next st1 child h1 =>
          replace h := ih.parse_block _ _ _ h1 h
          exact ih.jsxChildrenLoop _ _ _ heq
            (@EB_warn_force_advance { st1 with scratch := st1.scratch ++ [child] } _ h)
    · -- expr_start
      split at heq
      next st1 h1 =>
        cases heq
        exact EB_parse_text_expression h1 h
      next st1 child h1 =>
        replace h := EB_parse_text_expression h1 h
        exact ih.jsxChildrenLoop _ _ _ heq
          (@EB_warn_force_advance { st1 with scratch := st1.scratch ++ [child] } _ h)
    · -- text
      split at heq
      next st1 h1 =>
        cases heq
        exact EB_parse_text h1 h
      next st1 child h1 =>
        replace h := EB_parse_text h1 h
        exact ih.jsxChildrenLoop _ _ _ heq
          (@EB_warn_force_advance { st1 with scratch := st1.scratch ++ [child] } _ h)
    · -- indent
      split at heq
      · exact ih.jsxChildrenLoop _ _ _ heq (EB_warn_force_advance _ h)
      · split at heq
        next st1 h1 =>
          cases heq
          exact EB_parse_text h1 h
        next st1 child h1 =>
          replace h := EB_parse_text h1 h
          exact ih.jsxChildrenLoop _ _ _ heq
            (@EB_warn_force_advance { st1 with scratch := st1.scratch ++ [child] } _ h)
    · -- space
      split at heq
      next st1 h1 =>
        cases heq
        exact EB_parse_text h1 h
      next st1 child h1 =>
        replace h := EB_parse_text h1 h
        exact ih.jsxChildrenLoop _ _ _ heq
          (@EB_warn_force_advance { st1 with scratch := st1.scratch ++ [child] } _ h)
    · -- code_inline_start
      split at heq
      next st1 h1 =>
        cases heq
        exact EB_parse_code_inline h1 h
      next st1 child h1 =>
        replace h := EB_parse_code_inline h1 h
        exact ih.jsxChildrenLoop _ _ _ heq
          (@EB_warn_force_advance { st1 with scratch := st1.scratch ++ [child] } _ h)
    · -- strong_start
      split at heq
      next st1 h1 =>
        cases heq
        exact ih.parse_strong _ _ _ h1 h
      next st1 child h1 =>
        replace h := ih.parse_strong _ _ _ h1 h
        exact ih.jsxChildrenLoop _ _ _ heq
          (@EB_warn_force_advance { st1 with scratch := st1.scratch ++ [child] } _ h)
    · -- emphasis_start
      split at heq
      next st1 h1 =>
        cases heq
        exact ih.parse_emphasis _ _ _ h1 h
      next st1 child h1 =>
        replace h := ih.parse_emphasis _ _ _ h1 h
        exact ih.jsxChildrenLoop _ _ _ heq
          (@EB_warn_force_advance { st1 with scratch := st1.scratch ++ [child] } _ h)
    · -- link_start
      split at heq
      next st1 h1 =>
        cases heq
        exact EB_parse_link h1 h
      next st1 child h1 =>
        replace h := EB_parse_link h1 h
        exact ih.jsxChildrenLoop _ _ _ heq
          (@EB_warn_force_advance { st1 with scratch := st1.scratch ++ [child] } _ h)
    · -- image_start
      split at heq
      next st1 h1 =>
        cases heq
        exact EB_parse_image h1 h
      next st1 child h1 =>
        replace h := EB_parse_image h1 h
        exact ih.jsxChildrenLoop _ _ _ heq
          (@EB_warn_force_advance { st1 with scratch := st1.scratch ++ [child] } _ h)
    · -- hard_break
      split at heq
      next st1 h1 =>
        cases heq
        exact EB_parse_hard_break h1 h
      next st1 child h1 =>
        replace h := EB_parse_hard_break h1 h
        exact ih.jsxChildrenLoop _ _ _ heq
          (@EB_warn_force_advance { st1 with scratch := st1.scratch ++ [child] } _ h)
    · -- heading_start
      split at heq
      next st1 h1 =>
        cases heq
        exact ih.parse_heading _ _ _ h1 h
      next st1 child h1 =>
        replace h := ih.parse_heading _ _ _ h1 h
        exact ih.jsxChildrenLoop _ _ _ heq
          (@EB_warn_force_advance { st1 with scratch := st1.scratch ++ [child] } _ h)
    · -- newline
      exact ih.jsxChildrenLoop _ _ _ heq (EB_warn_force_advance _ h)
    · -- blank_line
      exact ih.jsxChildrenLoop _ _ _ heq (EB_warn_force_advance _ h)
    · -- other
      exact ih.jsxChildrenLoop _ _ _ heq (EB_warn_force_advance _ h)
  · cases heq
    exact h

set_option maxHeartbeats 1600000 in
theorem packEB_step_parse_jsx_fragment (pp : ParsePack) (ih : PackEB pp) :
    ∀ st st' r, (parsePackStep pp).parse_jsx_fragment st = (st', r) → EB st → EB st' := by
  intro st st' r heq h
  rw [show (parsePackStep pp).parse_jsx_fragment = step_parse_jsx_fragment pp from rfl] at heq
  unfold step_parse_jsx_fragment at heq
  try simp only [] at heq
  split at heq
  next st1 h1 =>
    cases heq
    exact EB_expect_token h1 h
  next st1 x1 h1 =>
  replace h := EB_expect_token h1 h
  split at heq
  next st2 h2 =>
    cases heq
    exact ih.fragLoop _ _ _ h2 h
  next st2 h2 =>
  replace h := ih.fragLoop _ _ _ h2 h
  split at heq
  next st3 h3 =>
    cases heq
    exact EB_expect_token h3 h
  next st3 x3 h3 =>
  replace h := EB_expect_token h3 h
  split at heq
  next st4 h4 =>
    cases heq
    exact EB_expect_token h4 h
  next st4 x4 h4 =>
  replace h := EB_expect_token h4 h
  split at heq
  next st5 h5 =>
    cases heq
    exact EB_expect_token h5 h
  next st5 x5 h5 =>
  replace h := EB_expect_token h5 h
  cases heq
  exact h

set_option maxHeartbeats 1600000 in
theorem packEB_step_fragLoop (pp : ParsePack) (ih : PackEB pp) :
    ∀ st st' b, (parsePackStep pp).fragLoop st = (st', b) → EB st → EB st' := by
  intro st st' b heq h
  rw [show (parsePackStep pp).fragLoop = step_fragLoop pp from rfl] at heq
  unfold step_fragLoop at heq
  try simp only [] at heq
  split at heq
  · split at heq
    · cases heq
      exact EB_warn _ h
    · split at heq
      next st1 h1 =>
        cases heq
        exact ih.parse_block _ _ _ h1 h
      next st1 child h1 =>
        replace h := ih.parse_block _ _ _ h1 h
        exact ih.fragLoop _ _ _ heq
          (@EB_warn_force_advance { st1 with scratch := st1.scratch ++ [child] } _ h)
  · cases heq
    exact h

theorem packEB_step (pp : ParsePack) (ih : PackEB pp) : PackEB (parsePackStep pp) where
  parse_document := packEB_step_parse_document pp ih
  docLoop := packEB_step_docLoop pp ih
  parse_block := packEB_step_parse_block pp ih
  parse_heading := packEB_step_parse_heading pp ih
  parse_paragraph := packEB_step_parse_paragraph pp ih
  parse_inline_content := packEB_step_parse_inline_content pp ih
  inlineLoop := packEB_step_inlineLoop pp ih
  parse_inline := packEB_step_parse_inline pp ih
  parse_strong := packEB_step_parse_strong pp ih
  parse_emphasis := packEB_step_parse_emphasis pp ih
  parse_blockquote := packEB_step_parse_blockquote pp ih
  parse_list := packEB_step_parse_list pp ih
  listLoop := packEB_step_listLoop pp ih
  parse_list_item := packEB_step_parse_list_item pp ih
  parse_table := packEB_step_parse_table pp ih
  tableBodyLoop := packEB_step_tableBodyLoop pp ih
  parse_table_row := packEB_step_parse_table_row pp ih
  rowLoop := packEB_step_rowLoop pp ih
  parse_table_cell := packEB_step_parse_table_cell pp ih
  cellLoop := packEB_step_cellLoop pp ih
  parse_jsx_element := packEB_step_parse_jsx_element pp ih
  jsxChildrenLoop := packEB_step_jsxChildrenLoop pp ih
  parse_jsx_fragment := packEB_step_parse_jsx_fragment pp ih
  fragLoop := packEB_step_fragLoop pp ih

/-- The error bound holds at every fuel level. -/
theorem packEB (fuel : Nat) : PackEB (parsePack fuel) := by
  induction fuel with
  | zero => exact packEB_zero
  | succ n ihn => exact packEB_step _ ihn

/-- A parser state sitting exactly at the error cap. -/
def capSt : PState :=
  { source := [], token_tags := [], token_starts := [], token_index := 0
    nodes := [], extra_data := [], scratch := []
    errors := List.replicate MAX_PARSE_ERRORS
      { tag := .unexpected_token, token := 0, byte_offset := 0 } }

/-- C2: once `MAX_PARSE_ERRORS` (4096) errors have been recorded, `warn_at`
drops any further error silently and returns the parser state unchanged; and
for every input and any fuels, the error list of the AST that `parse` returns
has length at most 4096. -/
theorem c2_error_list_bounded :
    (∀ (st : PState) (tag : ErrorTag) (tok : Nat),
      st.errors.length ≥ MAX_PARSE_ERRORS → st.warn_at tag tok = st) ∧
    (∀ (tfuel pfuel : Nat) (source : List Nat) (ast : Ast),
      parse tfuel pfuel source = some ast → ast.errors.length ≤ 4096) := by
  constructor
  · intro st tag tok hge
    unfold PState.warn_at
    simp [hge]
  · intro tfuel pfuel source ast hp
    unfold parse at hp
    split at hp
    · cases hp
    · cases hp
      exact (packEB pfuel).parse_document _ _ _ rfl (Nat.zero_le _)

/-- Witness for C2: a state holding exactly 4096 errors absorbs `warn_at`
unchanged, and a concrete parse stays under the bound. -/
theorem c2_error_list_bounded_witness :
    capSt.warn_at .unexpected_token 0 = capSt ∧
    (⟨[], [.eof], [0], [⟨.document, 0, .children ⟨0, 0⟩⟩], [], []⟩ : Ast).errors.length ≤ 4096 :=
  ⟨c2_error_list_bounded.1 capSt .unexpected_token 0 (by simp [capSt]),
   c2_error_list_bounded.2 8 2 []
     ⟨[], [.eof], [0], [⟨.document, 0, .children ⟨0, 0⟩⟩], [], []⟩ (by decide)⟩
